import Mathlib

/-!
# LuaScriptCore: the package library (lua-core/loadlib.c)

A shallow embedding of the module loader of `loadlib.c`: the platform loader
interface, the table of loaded C libraries (CLIBS), the path template
resolver (`pushnexttemplate`, `searchpath`), the entry-point resolver
(`loadfunc`, `lookforfunc`), the four searchers, `findloader` and `require`.

Conventions of the embedding.

* A C string is a `List Char`; the terminating NUL is the end of the list.
* A non-NULL pointer is a `Nat`; a pointer that may be NULL is an `Option Nat`.
* The Lua stack is not modelled: a C function that leaves its results on the
  stack returns them as values. The comments give the stack operation that
  each step stands for.
* What the C code reaches outside this file (the file system, the dynamic
  linker, the compiler of chunks, calls of Lua values) is a field of `World`.
* Every call the code makes to the outside is logged in `State.trace`.
-/

namespace LoadLib

/-- A C string without its terminating NUL. -/
abbrev CStr := List Char

/-! ## Lua values -/

/-- Function values that the loader can tell apart. -/
inductive Func where
  /-- The C closure made from `searcher_preload` by `createsearcherstable`. -/
  | searcher_preload
  /-- The C closure made from `searcher_Lua`. -/
  | searcher_Lua
  /-- The C closure made from `searcher_C`. -/
  | searcher_C
  /-- The C closure made from `searcher_Croot`. -/
  | searcher_Croot
  /-- Result of `lua_pushcfunction(L, f)` for the address `f` got from `lsys_sym`. -/
  | cfunction (f : Nat)
  /-- A compiled chunk, as pushed by `luaL_loadfile`. -/
  | chunk (id : Nat)
  /-- Any other function. -/
  | other (id : Nat)
  deriving DecidableEq, Repr

/-- Lua values, as far as `loadlib.c` inspects them. A number carries the
text that `lua_tolstring` converts it to. -/
inductive Value where
  | nil
  | boolean (b : Bool)
  | number (text : CStr)
  | string (s : CStr)
  | lightuserdata (p : Nat)
  | function (f : Func)
  | table (id : Nat)
  /-- Full userdata, threads: values the loader only moves around. -/
  | other (id : Nat)
  deriving DecidableEq, Repr

/-- C `lua_toboolean`: false for `nil` and `false`, true for anything else. -/
def lua_toboolean : Value → Bool
  | .nil => false
  | .boolean b => b
  | _ => true

/-- C `lua_isnil`. -/
def lua_isnil : Value → Bool
  | .nil => true
  | _ => false

/-- C `lua_isfunction`. -/
def lua_isfunction : Value → Bool
  | .function _ => true
  | _ => false

/-- C `lua_isstring`: true for strings and for numbers. -/
def lua_isstring : Value → Bool
  | .string _ => true
  | .number _ => true
  | _ => false

/-- C `lua_tostring`: the text of a string or number, NULL otherwise. -/
def lua_tostring : Value → Option CStr
  | .string s => some s
  | .number t => some t
  | _ => none

/-- C `lua_touserdata`, for the light userdata kept in CLIBS: the pointer, or
NULL when the value is not a light userdata. -/
def lua_touserdata : Value → Option Nat
  | .lightuserdata p => some p
  | _ => none

/-- What `%s` prints for a `const char *` argument that came from
`lua_tostring`: the text, and the text "(null)" for NULL, as `lua_pushfstring`
does. -/
def fmt_s : Option CStr → CStr
  | some s => s
  | none => "(null)".toList

/-! ## Runtime state -/

/-- Calls that leave `loadlib.c`. -/
inductive Event where
  /-- Event `fopen(filename, "r")` in `readable`. -/
  | fopen (filename : CStr)
  /-- Event `lsys_load(L, path, seeglb)` with the handle it returned (`none` for NULL). -/
  | lsys_load (path : CStr) (seeglb : Bool) (lib : Option Nat)
  /-- Event `lsys_sym(L, lib, sym)` with the address it returned (`none` for NULL). -/
  | lsys_sym (lib : Nat) (sym : CStr) (f : Option Nat)
  /-- Event `lsys_unloadlib(lib)`; the handle is `none` when the list entry was
  not a light userdata. -/
  | lsys_unloadlib (lib : Option Nat)
  /-- Event `luaL_loadfile(L, filename)`. -/
  | luaL_loadfile (filename : CStr)
  /-- Event `lua_call` of `f` with the arguments `args`, asking for `nresults` results. -/
  | lua_call (f : Value) (args : List Value) (nresults : Nat)
  deriving DecidableEq, Repr

/-- The tables that `loadlib.c` reads and writes. String-keyed tables are
functions from key to value, `nil` standing for an absent key. -/
structure LuaState where
  /-- Table `registry._LOADED` (also `package.loaded`). -/
  loaded : CStr → Value
  /-- Table `registry._PRELOAD` (also `package.preload`). -/
  preload : CStr → Value
  /-- Field `package.path`. -/
  path : Value
  /-- Field `package.cpath`. -/
  cpath : Value
  /-- Field `package.searchers`. -/
  searchers : Value
  /-- Raw integer-keyed contents of the tables: `rawgeti t i` is what
  `lua_rawgeti` pushes for index `i` of the table with identity `t`. -/
  rawgeti : Nat → Nat → Value
  /-- String-keyed part of `registry.CLIBS`: `CLIBS[path]`. -/
  clibs : CStr → Value
  /-- List part of `registry.CLIBS`: `CLIBS[1]`, ..., `CLIBS[#CLIBS]`. -/
  clibs_list : List Value

/-- The result of calling a Lua value from C. -/
inductive CallResult where
  /-- The call returned these values and left the tables as given. -/
  | ret (vals : List Value) (l : LuaState)
  /-- The call raised the error value `e`. -/
  | raise (e : Value) (l : LuaState)

/-- Everything outside `loadlib.c` that the code depends on. -/
structure World where
  /-- Macro `LUA_DIRSEP` of luaconf.h. -/
  LUA_DIRSEP : CStr
  /-- Macro `LIB_FAIL`: "open", or "absent" in the build without dynamic loading. -/
  LIB_FAIL : CStr
  /-- Whether `fopen(filename, "r")` succeeds. -/
  readable : CStr → Bool
  /-- The platform's `lsys_load`: the library, or the error string it pushes. -/
  lsys_load : CStr → Bool → Except CStr Nat
  /-- The platform's `lsys_sym`: the function, or the error string it pushes. -/
  lsys_sym : Nat → CStr → Except CStr Nat
  /-- Function `luaL_loadfile`: the identity of the compiled chunk, or the error message. -/
  luaL_loadfile : CStr → Except CStr Nat
  /-- Running a value that is not one of the four searchers of this file. -/
  call : Value → List Value → LuaState → CallResult

/-- The tables together with the log of outside calls made so far. -/
structure State where
  lua : LuaState
  trace : List Event

/-- Appends an event to the log. -/
def State.log (s : State) (e : Event) : State :=
  { s with trace := s.trace ++ [e] }

/-- Outcome of a C function that may raise a Lua error (`luaL_error`,
`lua_call`) or run a loop that need not end. -/
inductive Res (α : Type) where
  /-- Normal return. -/
  | ok (a : α) (s : State)
  /-- A Lua error with the error value `msg` was raised. -/
  | error (msg : Value) (s : State)
  /-- The iteration budget of the model ran out. -/
  | timeout

/-- Table update `t[k] = v` for a string key (`lua_setfield`). -/
def setfield (t : CStr → Value) (k : CStr) (v : Value) : CStr → Value :=
  fun k2 => if k2 = k then v else t k2

/-! ## Strings -/

/-- Modelled from the spec: `luaL_gsub` of the auxiliary library (lauxlib.c,
not under src/), which replaces every occurrence of the pattern `p` in `s` by
`r`, scanning left to right and continuing after each occurrence. The
number counts the characters of the current occurrence that are still to be
passed over. The code never calls it with an empty pattern. -/
def gsubFrom (p r : CStr) : Nat → CStr → CStr
  | _, [] => []
  | k + 1, _ :: cs => gsubFrom p r k cs
  | 0, c :: cs =>
    if p.isPrefixOf (c :: cs) then r ++ gsubFrom p r (p.length - 1) cs
    else c :: gsubFrom p r 0 cs

/-- Modelled from the spec: `luaL_gsub(L, s, p, r)`, see `gsubFrom`. -/
def luaL_gsub (s p r : CStr) : CStr :=
  gsubFrom p r 0 s

/-- Macro `LUA_PATH_SEP`, as the character `*LUA_PATH_SEP`. -/
def LUA_PATH_SEP : Char := ';'

/-- Macro `LUA_PATH_MARK`. -/
def LUA_PATH_MARK : CStr := ['?']

/-- Macro `LUA_IGMARK`, as the character `*LUA_IGMARK`. -/
def LUA_IGMARK : Char := '-'

/-- Macro `LUA_POF`. -/
def LUA_POF : CStr := "luaopen_".toList

/-- Macro `LUA_OFSEP`. -/
def LUA_OFSEP : CStr := ['_']

/-- Error code `ERRLIB` of `lookforfunc`. -/
def ERRLIB : Nat := 1

/-- Error code `ERRFUNC` of `lookforfunc`. -/
def ERRFUNC : Nat := 2

/-! ## The table of loaded C libraries -/

/-- C `checkclib`: `registry.CLIBS[path]` as a pointer. -/
def checkclib (s : State) (path : CStr) : Option Nat :=
  lua_touserdata (s.lua.clibs path)

/-- C `addtoclib`: `CLIBS[path] = plib` and `CLIBS[#CLIBS + 1] = plib`. -/
def addtoclib (s : State) (path : CStr) (plib : Nat) : State :=
  { s with lua := { s.lua with
      clibs := setfield s.lua.clibs path (.lightuserdata plib)
      clibs_list := s.lua.clibs_list ++ [.lightuserdata plib] } }

/-- C `gctm`: for `n` from `#CLIBS` down to 1, `lsys_unloadlib(CLIBS[n])`. -/
def gctm (s : State) : State :=
  s.lua.clibs_list.reverse.foldl (fun st v => st.log (.lsys_unloadlib (lua_touserdata v))) s

/-- C `lsys_load` seen from `lookforfunc`: the library, or NULL and the error
string on the stack; the call is logged. -/
def lsys_load (w : World) (path : CStr) (seeglb : Bool) (s : State) :
    Except CStr Nat × State :=
  match w.lsys_load path seeglb with
  | .ok lib => (.ok lib, s.log (.lsys_load path seeglb (some lib)))
  | .error msg => (.error msg, s.log (.lsys_load path seeglb none))

/-- C `lsys_sym` seen from `lookforfunc`; the call is logged. -/
def lsys_sym (w : World) (lib : Nat) (sym : CStr) (s : State) :
    Except CStr Nat × State :=
  match w.lsys_sym lib sym with
  | .ok f => (.ok f, s.log (.lsys_sym lib sym (some f)))
  | .error msg => (.error msg, s.log (.lsys_sym lib sym none))

/-- The test `*sym == '*'`. -/
def isWildcard (sym : CStr) : Bool :=
  sym.head? == some '*'

/-- Second half of `lookforfunc`, once the library `reg` is at hand: `true`
for the wildcard, else the function named `sym`. Returns the status and the
value left on top of the stack. -/
def lookforfunc_sym (w : World) (reg : Nat) (sym : CStr) (s : State) :
    Nat × Value × State :=
  if isWildcard sym then (0, .boolean true, s)
  else
    match lsys_sym w reg sym s with
    | (.error msg, s1) => (ERRFUNC, .string msg, s1)
    | (.ok f, s1) => (0, .function (.cfunction f), s1)

/-- C `lookforfunc`: returns the status (0, `ERRLIB` or `ERRFUNC`) and the
value left on top of the stack (`true`, the function, or the error message). -/
def lookforfunc (w : World) (path sym : CStr) (s : State) : Nat × Value × State :=
  match checkclib s path with
  | some reg => lookforfunc_sym w reg sym s
  | none =>
    match lsys_load w path (isWildcard sym) s with
    | (.error msg, s1) => (ERRLIB, .string msg, s1)
    | (.ok reg, s1) => lookforfunc_sym w reg sym (addtoclib s1 path reg)

/-- C `ll_loadlib` (`package.loadlib`): the values returned to Lua. -/
def ll_loadlib (w : World) (path init : CStr) (s : State) : List Value × State :=
  match lookforfunc w path init s with
  | (0, v, s1) => ([v], s1)
  | (stat, msg, s1) =>
    ([.nil, msg, .string (if stat = ERRLIB then w.LIB_FAIL else "init".toList)], s1)

/-! ## The path template resolver -/

/-- C `readable`: whether `fopen(filename, "r")` succeeds; the probe is logged. -/
def readable (w : World) (filename : CStr) (s : State) : Bool × State :=
  (w.readable filename, s.log (.fopen filename))

/-- C `pushnexttemplate`: skips separators; NULL at the end of the path, else
the template pushed (up to the next separator) and the pointer `l` to what
follows it. -/
def pushnexttemplate (path : CStr) : Option (CStr × CStr) :=
  match path.dropWhile (fun c => c == LUA_PATH_SEP) with
  | [] => none
  | c :: cs =>
    some ((c :: cs).takeWhile (fun x => x != LUA_PATH_SEP),
          (c :: cs).dropWhile (fun x => x != LUA_PATH_SEP))

/-- The text pushed by `lua_pushfstring(L, "\n\tno file '%s'", filename)`. -/
def nofile (filename : CStr) : CStr :=
  "\n\tno file '".toList ++ filename ++ "'".toList

/-- The `while` loop of `searchpath`; `name` is already preprocessed and `msg`
is the content of the buffer. `fuel` bounds the number of iterations. -/
def searchpath_loop (w : World) (name : CStr) :
    Nat → CStr → CStr → State → Except CStr CStr × State
  | 0, _, msg, s => (.error msg, s)
  | fuel + 1, path, msg, s =>
    match pushnexttemplate path with
    | none => (.error msg, s)
    | some (template, l) =>
      let filename := luaL_gsub template LUA_PATH_MARK name
      match readable w filename s with
      | (true, s1) => (.ok filename, s1)
      | (false, s1) => searchpath_loop w name fuel l (msg ++ nofile filename) s1

/-- C `searchpath`: `.ok filename` when a file was found, `.error msg` for
NULL with the message `msg` left on the stack. Every iteration consumes at
least one character of the path, so `path.length + 1` iterations suffice. -/
def searchpath (w : World) (name path sep dirsep : CStr) (s : State) :
    Except CStr CStr × State :=
  let name := if sep ≠ [] then luaL_gsub name sep dirsep else name
  searchpath_loop w name (path.length + 1) path [] s

/-- C `ll_searchpath` (`package.searchpath`): the values returned to Lua. The
optional arguments are `none` when absent or nil. -/
def ll_searchpath (w : World) (name path : CStr) (sep dirsep : Option CStr) (s : State) :
    List Value × State :=
  match searchpath w name path (sep.getD ['.']) (dirsep.getD w.LUA_DIRSEP) s with
  | (.ok f, s1) => ([.string f], s1)
  | (.error msg, s1) => ([.nil, .string msg], s1)

/-- The fields of the table `package` that `lua_getfield(L, lua_upvalueindex(1), k)` reads. -/
def package_getfield (l : LuaState) (k : CStr) : Value :=
  if k = "path".toList then l.path
  else if k = "cpath".toList then l.cpath
  else if k = "searchers".toList then l.searchers
  else .nil

/-- C `findfile`. -/
def findfile (w : World) (name pname dirsep : CStr) (s : State) : Res (Except CStr CStr) :=
  match lua_tostring (package_getfield s.lua pname) with
  | none => .error (.string ("'package.".toList ++ pname ++ "' must be a string".toList)) s
  | some path =>
    match searchpath w name path ['.'] dirsep s with
    | (r, s1) => .ok r s1

/-! ## Searchers -/

/-- C `checkload`: `name` is the value at stack index 1 and `top` the value on
top of the stack (the open function, or the error message). -/
def checkload (name : CStr) (stat : Bool) (top : Value) (filename : CStr) (s : State) :
    Res (List Value) :=
  if stat then .ok [top, .string filename] s
  else .error (.string ("error loading module '".toList ++ name ++ "' from file '".toList
    ++ filename ++ "':\n\t".toList ++ fmt_s (lua_tostring top))) s

/-- Function `luaL_loadfile` seen from `searcher_Lua`: whether the status is
`LUA_OK`, and the value it pushes. -/
def luaL_loadfile (w : World) (filename : CStr) (s : State) : Bool × Value × State :=
  match w.luaL_loadfile filename with
  | .ok id => (true, .function (.chunk id), s.log (.luaL_loadfile filename))
  | .error msg => (false, .string msg, s.log (.luaL_loadfile filename))

/-- C `searcher_Lua`: the values returned. -/
def searcher_Lua (w : World) (name : CStr) (s : State) : Res (List Value) :=
  match findfile w name "path".toList w.LUA_DIRSEP s with
  | .error e s1 => .error e s1
  | .timeout => .timeout
  | .ok (.error msg) s1 => .ok [.string msg] s1
  | .ok (.ok filename) s1 =>
    match luaL_loadfile w filename s1 with
    | (stat, top, s2) => checkload name stat top filename s2

/-- C `loadfunc`: status and value on top of the stack, as for `lookforfunc`. -/
def loadfunc (w : World) (filename modname : CStr) (s : State) : Nat × Value × State :=
  let modname := luaL_gsub modname ['.'] LUA_OFSEP
  if LUA_IGMARK ∈ modname then
    let openfunc := LUA_POF ++ modname.takeWhile (fun c => c != LUA_IGMARK)
    match lookforfunc w filename openfunc s with
    | (stat, top, s1) =>
      if stat ≠ ERRFUNC then (stat, top, s1)
      else
        lookforfunc w filename
          (LUA_POF ++ (modname.dropWhile (fun c => c != LUA_IGMARK)).drop 1) s1
  else lookforfunc w filename (LUA_POF ++ modname) s

/-- C `searcher_C`: the values returned. -/
def searcher_C (w : World) (name : CStr) (s : State) : Res (List Value) :=
  match findfile w name "cpath".toList w.LUA_DIRSEP s with
  | .error e s1 => .error e s1
  | .timeout => .timeout
  | .ok (.error msg) s1 => .ok [.string msg] s1
  | .ok (.ok filename) s1 =>
    match loadfunc w filename name s1 with
    | (stat, top, s2) => checkload name (stat == 0) top filename s2

/-- C `searcher_Croot`: the values returned. -/
def searcher_Croot (w : World) (name : CStr) (s : State) : Res (List Value) :=
  if '.' ∉ name then .ok [] s
  else
    match findfile w (name.takeWhile (fun c => c != '.')) "cpath".toList w.LUA_DIRSEP s with
    | .error e s1 => .error e s1
    | .timeout => .timeout
    | .ok (.error msg) s1 => .ok [.string msg] s1
    | .ok (.ok filename) s1 =>
      match loadfunc w filename name s1 with
      | (stat, top, s2) =>
        if stat ≠ 0 then
          if stat ≠ ERRFUNC then checkload name false top filename s2
          else .ok [.string ("\n\tno module '".toList ++ name ++ "' in file '".toList
                  ++ filename ++ "'".toList)] s2
        else .ok [top, .string filename] s2

/-- C `searcher_preload`: the values returned. -/
def searcher_preload (name : CStr) (s : State) : Res (List Value) :=
  match s.lua.preload name with
  | .nil => .ok [.string ("\n\tno field package.preload['".toList ++ name ++ "']".toList)] s
  | v => .ok [v] s

/-- What `lua_call` leaves on the stack when `nresults` results are asked
for: the results, cut or padded with nil. -/
def adjust (nresults : Nat) (vals : List Value) : List Value :=
  (vals ++ List.replicate nresults Value.nil).take nresults

/-- How `lua_call` passes on the outcome of a searcher of this file: the
results are cut or padded to `nresults` values, an error goes through. -/
def passOn (nresults : Nat) (r : Res (List Value)) : Res (List Value) :=
  match r with
  | .ok vals s1 => .ok (adjust nresults vals) s1
  | .error e s1 => .error e s1
  | .timeout => .timeout

/-- The call `lua_call(L, nargs, nresults)` of `f` with the arguments `args`.
The four searchers of this file run as modelled when their first argument
passes `luaL_checkstring`; every other call is the world's. -/
def lua_call (w : World) (f : Value) (args : List Value) (nresults : Nat) (s : State) :
    Res (List Value) :=
  let s0 := s.log (.lua_call f args nresults)
  match f, lua_tostring (args.headD .nil) with
  | .function .searcher_preload, some name => passOn nresults (searcher_preload name s0)
  | .function .searcher_Lua, some name => passOn nresults (searcher_Lua w name s0)
  | .function .searcher_C, some name => passOn nresults (searcher_C w name s0)
  | .function .searcher_Croot, some name => passOn nresults (searcher_Croot w name s0)
  | _, _ =>
    match w.call f args s0.lua with
    | .ret vals l => .ok (adjust nresults vals) { s0 with lua := l }
    | .raise e l => .error e { s0 with lua := l }

/-! ## require -/

/-- The `for` loop of `findloader` over the table `t` found in
`package.searchers`, at index `i`, with `msg` the content of the buffer.
Searchers may extend the table while it is traversed, so the loop need not
end: `fuel` bounds the number of iterations. -/
def findloader_loop (w : World) (name : CStr) (t : Nat) :
    Nat → Nat → CStr → State → Res (Value × Value)
  | 0, _, _, _ => .timeout
  | fuel + 1, i, msg, s =>
    match s.lua.rawgeti t i with
    | .nil => .error (.string ("module '".toList ++ name ++ "' not found:".toList ++ msg)) s
    | f =>
      match lua_call w f [.string name] 2 s with
      | .error e s1 => .error e s1
      | .timeout => .timeout
      | .ok vals s1 =>
        if lua_isfunction (vals.getD 0 .nil) then .ok (vals.getD 0 .nil, vals.getD 1 .nil) s1
        else if lua_isstring (vals.getD 0 .nil) then
          findloader_loop w name t fuel (i + 1) (msg ++ fmt_s (lua_tostring (vals.getD 0 .nil))) s1
        else findloader_loop w name t fuel (i + 1) msg s1

/-- C `findloader`: on return the loader and the extra value of the searcher
are the two values on top of the stack. -/
def findloader (w : World) (fuel : Nat) (name : CStr) (s : State) : Res (Value × Value) :=
  match package_getfield s.lua "searchers".toList with
  | .table t => findloader_loop w name t fuel 1 [] s
  | _ => .error (.string "'package.searchers' must be a table".toList) s

/-- Assignment `_LOADED[name] = v`. -/
def setloaded (s : State) (name : CStr) (v : Value) : State :=
  { s with lua := { s.lua with loaded := setfield s.lua.loaded name v } }

/-- C `ll_require` (`require`): the value returned to Lua. -/
def ll_require (w : World) (fuel : Nat) (name : CStr) (s : State) : Res Value :=
  if lua_toboolean (s.lua.loaded name) then .ok (s.lua.loaded name) s
  else
    match findloader w fuel name s with
    | .error e s1 => .error e s1
    | .timeout => .timeout
    | .ok (f, aux) s1 =>
      match lua_call w f [.string name, aux] 1 s1 with
      | .error e s2 => .error e s2
      | .timeout => .timeout
      | .ok vals s2 =>
        let s3 := if !lua_isnil (vals.headD .nil) then setloaded s2 name (vals.headD .nil) else s2
        match s3.lua.loaded name with
        | .nil => .ok (.boolean true) (setloaded s3 name (.boolean true))
        | v => .ok v s3

/-- C `createsearcherstable`: `package.searchers` becomes a new table, of
identity `t`, holding the four searchers at the indices 1 to 4. -/
def createsearcherstable (t : Nat) (l : LuaState) : LuaState :=
  { l with
    searchers := .table t
    rawgeti := fun t2 i =>
      if t2 = t then
        match i with
        | 1 => .function .searcher_preload
        | 2 => .function .searcher_Lua
        | 3 => .function .searcher_C
        | 4 => .function .searcher_Croot
        | _ => .nil
      else l.rawgeti t2 i }

/-! ## Observations on the log -/

/-- The calls `lua_call(L, 2, 1)` of a log: the loader calls of `ll_require`. -/
def loaderCalls (tr : List Event) : List Event :=
  tr.filter (fun e => match e with
    | .lua_call _ [_, _] 1 => true
    | _ => false)

/-- The calls `lua_call(L, 1, 2)` of a log: the searcher calls of `findloader`. -/
def searcherCalls (tr : List Event) : List Event :=
  tr.filter (fun e => match e with
    | .lua_call _ [_] 2 => true
    | _ => false)

/-- The symbols passed to `lsys_sym` in a log, in order. -/
def symLookups (tr : List Event) : List CStr :=
  tr.filterMap (fun e => match e with
    | .lsys_sym _ sym _ => some sym
    | _ => none)

/-- The native open calls of a log on the file `path`, in order. -/
def opensOf (path : CStr) (tr : List Event) : List Event :=
  tr.filter (fun e => match e with
    | .lsys_load p _ _ => p == path
    | _ => false)

/-- The files probed with `fopen` in a log, in order. -/
def probes (tr : List Event) : List CStr :=
  tr.filterMap (fun e => match e with
    | .fopen f => some f
    | _ => none)

/-! ## Example runtimes -/

/-- A runtime right after `luaopen_package`: nothing loaded, nothing
preloaded, no library open, the four searchers in the table 0. -/
def freshLua : LuaState :=
  createsearcherstable 0
    { loaded := fun _ => .nil
      preload := fun _ => .nil
      path := .string "./?.src;./?/init.src".toList
      cpath := .string "./?.so".toList
      searchers := .nil
      rawgeti := fun _ _ => .nil
      clibs := fun _ => .nil
      clibs_list := [] }

/-- The fresh runtime with an empty log. -/
def freshState : State := { lua := freshLua, trace := [] }

/-- A world without files or libraries, in which every call returns no value. -/
def bareWorld : World :=
  { LUA_DIRSEP := ['/']
    LIB_FAIL := "open".toList
    readable := fun _ => false
    lsys_load := fun _ _ => .error "cannot open shared object file".toList
    lsys_sym := fun _ _ => .error "undefined symbol".toList
    luaL_loadfile := fun _ => .error "cannot open file".toList
    call := fun _ _ l => .ret [] l }

/-- The fresh runtime in which the module "foo" is loaded as the table 1. -/
def cachedState : State :=
  setloaded freshState "foo".toList (.table 1)

/-- The fresh runtime with the function 1 preloaded under "m". -/
def preloadState : State :=
  { freshState with lua := { freshLua with
      preload := setfield freshLua.preload "m".toList (.function (.other 1)) } }

/-- A world in which every loader returns `false`. -/
def falseWorld : World :=
  { bareWorld with call := fun _ _ l => .ret [.boolean false] l }

/-- A world in which every loader returns the table 9. -/
def tableWorld : World :=
  { bareWorld with call := fun _ _ l => .ret [.table 9] l }

/-- A world in which every loader returns no value and stores the table 5
under "m" in `package.loaded`. -/
def selfStoreWorld : World :=
  { bareWorld with
    call := fun _ _ l =>
      CallResult.ret [] { l with loaded := setfield l.loaded "m".toList (.table 5) } }

/-- The two calls that `require "m"` makes in `preloadState`: the preload
searcher, then the preloaded function as loader. -/
def preloadCalls : List Event :=
  [.lua_call (.function .searcher_preload) [.string "m".toList] 2,
   .lua_call (.function (.other 1)) [.string "m".toList, .nil] 1]

/-! ## The path resolver as the specification describes it -/

/-- The templates of a search path: the pieces between the separators, the
empty ones left out. -/
def templates (path : CStr) : List CStr :=
  (path.splitOn LUA_PATH_SEP).filter (fun t => !t.isEmpty)

/-- The module name after preprocessing: every occurrence of `sep` replaced
by `dirsep`, and the name itself when `sep` is empty. -/
def prepname (name sep dirsep : CStr) : CStr :=
  if sep = [] then name else luaL_gsub name sep dirsep

/-- The candidate files of a search: the templates, in order, each with every
mark replaced by the preprocessed name. -/
def candidates (name path sep dirsep : CStr) : List CStr :=
  (templates path).map (fun t => luaL_gsub t LUA_PATH_MARK (prepname name sep dirsep))

/-- The candidates that are tried and fail: those before the first readable one. -/
def failed (w : World) (cands : List CStr) : List CStr :=
  cands.takeWhile (fun c => !w.readable c)

/-- What a search over the candidates `cands` amounts to, with `msg` the
message accumulated before: the first readable candidate after a probe of
each candidate up to it, or the message extended by a line for each candidate. -/
def searchOutcome (w : World) (cands : List CStr) (msg : CStr) (s : State) :
    Except CStr CStr × State :=
  match cands.find? w.readable with
  | some f =>
    (.ok f, { s with trace := s.trace ++ (failed w cands ++ [f]).map Event.fopen })
  | none =>
    (.error (msg ++ (cands.map nofile).flatten),
     { s with trace := s.trace ++ cands.map Event.fopen })

/-- The diagnostic text in the words of the specification: one line
"no file 'candidate'" for each candidate, the lines joined with newlines. -/
def joinedNoFileLines (cands : List CStr) : CStr :=
  ['\n'].intercalate (cands.map (fun c => "no file '".toList ++ c ++ "'".toList))

/-- A world in which every file is readable. -/
def openWorld : World :=
  { bareWorld with readable := fun _ => true }

/-! ## The entry-point resolver as the specification describes it -/

/-- The module name with every dot replaced by the join character '_'. -/
def dotNormalised (modname : CStr) : CStr :=
  modname.map (fun c => if c = '.' then '_' else c)

/-- The library that `lookforfunc` works on for `path`: the handle kept in
CLIBS, else the handle that the platform loader returns for `path` with the
flag `seeglb`; `none` when the library cannot be loaded. -/
def libraryOf (w : World) (s : State) (path : CStr) (seeglb : Bool) : Option Nat :=
  match checkclib s path with
  | some reg => some reg
  | none =>
    match w.lsys_load path seeglb with
    | .ok reg => some reg
    | .error _ => none

/-- The handles acquired by the successful native opens of a log, in order,
as the light userdata that `addtoclib` stores. -/
def opened (tr : List Event) : List Value :=
  tr.filterMap (fun e => match e with
    | .lsys_load _ _ (some lib) => some (Value.lightuserdata lib)
    | _ => none)

/-- A series of lookups in one runtime: `lookforfunc` for each pair of a path
and a symbol in turn, as `package.loadlib` and the C searchers make them. -/
def lookups (w : World) : List (CStr × CStr) → State → State
  | [], s => s
  | (path, sym) :: rest, s => lookups w rest (lookforfunc w path sym s).2.2

/-- A world with one library, "./mylib-v2.so", of handle 7, that exports only
"luaopen_mylib", at the address 3. -/
def mylibWorld : World :=
  { bareWorld with
    lsys_load := fun p _ =>
      if p = "./mylib-v2.so".toList then .ok 7 else .error "cannot open shared object file".toList
    lsys_sym := fun _ sym =>
      if sym = "luaopen_mylib".toList then .ok 3 else .error "undefined symbol".toList }

/-- The state in which a C function stopped, by a return or by an error;
`none` when the iteration budget ran out. -/
def Res.state? {α : Type} : Res α → Option State
  | .ok _ s => some s
  | .error _ s => some s
  | .timeout => none

/-- The log of `s1` is the log of `s` followed by events that are not loader calls. -/
def Quiet (s s1 : State) : Prop :=
  ∃ d, s1.trace = s.trace ++ d ∧ loaderCalls d = []

/-- A world whose only readable file is "./foo/init.src", which compiles to
the chunk 1; running it returns no value. -/
def fooWorld : World :=
  { bareWorld with
    readable := fun f => f == "./foo/init.src".toList
    luaL_loadfile := fun _ => .ok 1 }

/-- The log of `findloader` for "foo" in the fresh runtime and `fooWorld`:
the preload searcher, then the Lua searcher with its two probes and the
compilation of the file found. -/
def fooSearch : List Event :=
  [.lua_call (.function .searcher_preload) [.string "foo".toList] 2,
   .lua_call (.function .searcher_Lua) [.string "foo".toList] 2,
   .fopen "./foo.src".toList,
   .fopen "./foo/init.src".toList,
   .luaL_loadfile "./foo/init.src".toList]

/-! ## Further observations and example runtimes -/

/-- The templates that repeated calls of `pushnexttemplate` push, each call
starting where the one before stopped, as in the loop of `searchpath`; the
number bounds the calls. -/
def pushedTemplates : Nat → CStr → List CStr
  | 0, _ => []
  | fuel + 1, path =>
    match pushnexttemplate path with
    | none => []
    | some (template, l) => template :: pushedTemplates fuel l

/-- The handles returned by the successful native opens of a log, in order. -/
def acquired (tr : List Event) : List Nat :=
  tr.filterMap (fun e => match e with
    | .lsys_load _ _ (some lib) => some lib
    | _ => none)

/-- The handles passed to `lsys_unloadlib` in a log, in order. -/
def closed (tr : List Event) : List (Option Nat) :=
  tr.filterMap (fun e => match e with
    | .lsys_unloadlib lib => some lib
    | _ => none)

/-- Macro `DLMSG` of the build without dynamic loading. -/
def DLMSG : CStr :=
  "dynamic libraries not enabled; check your Lua installation".toList

/-- The platform loader of the build without dynamic loading: `lsys_load` and
`lsys_sym` always fail with `DLMSG`, and `LIB_FAIL` is "absent". -/
def stubWorld : World :=
  { bareWorld with
    LIB_FAIL := "absent".toList
    lsys_load := fun _ _ => .error DLMSG
    lsys_sym := fun _ _ => .error DLMSG }

/-- A world with two libraries, "./a.so" of handle 7 and "./b.so" of handle
9, that export nothing. -/
def twoLibWorld : World :=
  { bareWorld with
    lsys_load := fun p _ =>
      if p = "./a.so".toList then .ok 7
      else if p = "./b.so".toList then .ok 9
      else .error "cannot open shared object file".toList }

/-- The `lua_call` events of a log. -/
def luaCalls (tr : List Event) : List Event :=
  tr.filter (fun e => match e with
    | .lua_call _ _ _ => true
    | _ => false)

/-- The tables other than CLIBS. -/
def withoutCLIBS (l : LuaState) : LuaState :=
  { l with clibs := fun _ => .nil, clibs_list := [] }

/-- The state `s1` comes from `s` by steps that make no `lua_call` and touch
no table but CLIBS: its log is that of `s` followed by events other than
`lua_call`, and every table other than CLIBS is as in `s`. -/
def Inner (s s1 : State) : Prop :=
  (∃ d, s1.trace = s.trace ++ d ∧ luaCalls d = []) ∧ withoutCLIBS s1.lua = withoutCLIBS s.lua

/-- Whether a value is one of the four searchers of this file. -/
def isBuiltinSearcher : Value → Bool
  | .function .searcher_preload => true
  | .function .searcher_Lua => true
  | .function .searcher_C => true
  | .function .searcher_Croot => true
  | _ => false

/-- Every entry of the table `t` is nil or one of the four searchers of this file. -/
def BuiltinTable (t : Nat) (l : LuaState) : Prop :=
  ∀ i, l.rawgeti t i = .nil ∨ isBuiltinSearcher (l.rawgeti t i) = true

/-- The field `package.searchers` is the table `t` and holds what
`createsearcherstable` put there. -/
def FreshSearchers (t : Nat) (l : LuaState) : Prop :=
  l.searchers = .table t ∧ ∀ i, l.rawgeti t i = (createsearcherstable t l).rawgeti t i

/-- The searchers tried without success by `findloader`: `Tried w name t i s evs s1`
says that from the state `s` the entries of the table `t` at the indices `i`,
`i + 1`, ... were called in turn, each with the module name, that none of them
returned a function, that these calls are the events `evs`, and that the last
of them left the state `s1`. -/
inductive Tried (w : World) (name : CStr) (t : Nat) : Nat → State → List Event → State → Prop where
  | done (i : Nat) (s : State) : Tried w name t i s [] s
  | step (i : Nat) (s s1 s2 : State) (vals : List Value) (evs : List Event) :
      s.lua.rawgeti t i ≠ .nil →
      lua_call w (s.lua.rawgeti t i) [.string name] 2 s = .ok vals s1 →
      lua_isfunction (vals.getD 0 .nil) = false →
      Tried w name t (i + 1) s1 evs s2 →
      Tried w name t i s (.lua_call (s.lua.rawgeti t i) [.string name] 2 :: evs) s2

/-- The lines that the search of `name` on the path `path` leaves when no
candidate is readable: one entry `nofile` for each candidate, in order. -/
def noFileLines (w : World) (name path : CStr) : CStr :=
  ((candidates name path ['.'] w.LUA_DIRSEP).map nofile).flatten

/-- The text pushed by `lua_pushfstring(L, "\n\tno field package.preload['%s']", name)`. -/
def noPreload (name : CStr) : CStr :=
  "\n\tno field package.preload['".toList ++ name ++ "']".toList

/-- The texts that the four searchers of this file report, in order, for a
module that is found nowhere, with `p` the text of `package.path` and `cp`
that of `package.cpath`: the line of the preload searcher, the lines of the
Lua searcher, those of the C searcher and, for a name with a dot, those of
the C-root searcher for the text before the first dot. -/
def notFoundText (w : World) (name p cp : CStr) : CStr :=
  noPreload name ++ noFileLines w name p ++ noFileLines w name cp ++
    (if '.' ∈ name then noFileLines w (name.takeWhile (fun c => c != '.')) cp else [])

/-- The message of `luaL_error(L, "module '%s' not found:%s", name, msg)`. -/
def moduleNotFound (name msg : CStr) : CStr :=
  "module '".toList ++ name ++ "' not found:".toList ++ msg

/-- The fresh runtime with a single template in `package.path`. -/
def oneTemplateState : State :=
  { freshState with lua := { freshLua with path := .string "./?.src".toList } }

/-- The log of `findloader` for "bar" in the fresh runtime when no file is
readable: the four searchers with their probes. -/
def barSearch : List Event :=
  [.lua_call (.function .searcher_preload) [.string "bar".toList] 2,
   .lua_call (.function .searcher_Lua) [.string "bar".toList] 2,
   .fopen "./bar.src".toList,
   .fopen "./bar/init.src".toList,
   .lua_call (.function .searcher_C) [.string "bar".toList] 2,
   .fopen "./bar.so".toList,
   .lua_call (.function .searcher_Croot) [.string "bar".toList] 2]

/-- The symbols that `loadfunc` may look up for a module name: "luaopen_X"
then "luaopen_Y" for a dot-normalised name X-Y with an ignore mark, and
"luaopen_" followed by the dot-normalised name otherwise. -/
def entrySymbols (modname : CStr) : List CStr :=
  if '-' ∈ dotNormalised modname then
    ["luaopen_".toList ++ (dotNormalised modname).takeWhile (fun c => c != '-'),
     "luaopen_".toList ++ ((dotNormalised modname).dropWhile (fun c => c != '-')).drop 1]
  else ["luaopen_".toList ++ dotNormalised modname]

/-- The message of `checkload` for a module that could not be loaded from the
file where it was found. -/
def errorLoading (name filename msg : CStr) : CStr :=
  "error loading module '".toList ++ name ++ "' from file '".toList ++ filename
    ++ "':\n\t".toList ++ msg

/-- The text pushed by
`lua_pushfstring(L, "\n\tno module '%s' in file '%s'", name, filename)`. -/
def noModuleInFile (name filename : CStr) : CStr :=
  "\n\tno module '".toList ++ name ++ "' in file '".toList ++ filename ++ "'".toList

/-- The fresh runtime with the table 3 preloaded under "m". -/
def tablePreloadState : State :=
  { freshState with lua := { freshLua with
      preload := setfield freshLua.preload "m".toList (.table 3) } }

/-- A world in which the files "./x.so" and "./a.so" are readable and load,
with the handle 7, but export nothing. -/
def noEntryWorld : World :=
  { bareWorld with
    readable := fun f => f == "./x.so".toList || f == "./a.so".toList
    lsys_load := fun _ _ => .ok 7 }

/-- A world in which the files "./x.so" and "./a.so" are readable but do not load. -/
def brokenLibWorld : World :=
  { bareWorld with
    readable := fun f => f == "./x.so".toList || f == "./a.so".toList
    lsys_load := fun _ _ => .error "file too short".toList }

/-- What an iteration of the loop of `findloader` adds to its buffer for the
first result `v` of a searcher, when `v` is not a function: the text of `v`
when `lua_isstring` holds (`luaL_addvalue`), nothing otherwise. -/
def contribution (v : Value) : CStr :=
  if lua_isstring v then fmt_s (lua_tostring v) else []

/-- Every searcher of the list is tried and none yields a loader:
`Exhausted w name t i s rs s1` says that from the state `s` the entries of the
table `t` at the indices `i`, `i + 1`, ... were called in turn with the module
name, up to the first index without an entry, that each call returned, with a
first result that is not a function, that `rs` are these first results in
order, and that the last call left the state `s1`. -/
inductive Exhausted (w : World) (name : CStr) (t : Nat) :
    Nat → State → List Value → State → Prop where
  | done (i : Nat) (s : State) : s.lua.rawgeti t i = .nil → Exhausted w name t i s [] s
  | step (i : Nat) (s s1 s2 : State) (vals : List Value) (rest : List Value) :
      s.lua.rawgeti t i ≠ .nil →
      lua_call w (s.lua.rawgeti t i) [.string name] 2 s = .ok vals s1 →
      lua_isfunction (vals.getD 0 .nil) = false →
      Exhausted w name t (i + 1) s1 rest s2 →
      Exhausted w name t i s (vals.getD 0 .nil :: rest) s2

/-- A world in which the function 1 returns a text, the function 2 the
number 42 and every other function `false`. -/
def mixedWorld : World :=
  { bareWorld with
    call := fun f _ l =>
      match f with
      | .function (.other 1) => .ret [.string "\n\tno luck".toList] l
      | .function (.other 2) => .ret [.number "42".toList] l
      | _ => .ret [.boolean false] l }

/-- The fresh runtime with the functions 1, 2 and 3 as the searchers. -/
def mixedState : State :=
  { freshState with lua := { freshLua with
      rawgeti := fun t i =>
        if t = 0 then
          match i with
          | 1 => .function (.other 1)
          | 2 => .function (.other 2)
          | 3 => .function (.other 3)
          | _ => .nil
        else .nil } }

/-- The log of `findloader` in `mixedState`: the three searchers in turn. -/
def mixedCalls : List Event :=
  [.lua_call (.function (.other 1)) [.string "m".toList] 2,
   .lua_call (.function (.other 2)) [.string "m".toList] 2,
   .lua_call (.function (.other 3)) [.string "m".toList] 2]

/-- A world in which "./a.so" is the only readable file; it loads, with the
handle 7, and exports only "luaopen_a_b", at the address 3. -/
def rootLibWorld : World :=
  { bareWorld with
    readable := fun f => f == "./a.so".toList
    lsys_load := fun _ _ => .ok 7
    lsys_sym := fun _ sym =>
      if sym = "luaopen_a_b".toList then .ok 3 else .error "undefined symbol".toList }

/-- The log of the three searchers that find nothing for "a.b" in the fresh
runtime and `rootLibWorld`: the preload searcher, the Lua searcher with its
two probes and the C searcher with its probe. -/
def rootSearch : List Event :=
  [.lua_call (.function .searcher_preload) [.string "a.b".toList] 2,
   .lua_call (.function .searcher_Lua) [.string "a.b".toList] 2,
   .fopen "./a/b.src".toList,
   .fopen "./a/b/init.src".toList,
   .lua_call (.function .searcher_C) [.string "a.b".toList] 2,
   .fopen "./a/b.so".toList]

/-! ## Lemmas on `require` -/

theorem ll_require_hit (w : World) (fuel : Nat) (name : CStr) (s : State)
    (h : lua_toboolean (s.lua.loaded name) = true) :
    ll_require w fuel name s = .ok (s.lua.loaded name) s := by
  unfold ll_require
  simp [h]

theorem setloaded_loaded (s : State) (name : CStr) (v : Value) :
    (setloaded s name v).lua.loaded name = v := by
  simp [setloaded, setfield]

/-- Unfolding of `ll_require` after a cache miss, a successful `findloader`
and a loader call that returned. -/
theorem ll_require_miss (w : World) (fuel : Nat) (name : CStr) (s s1 s2 : State)
    (f aux : Value) (vals : List Value)
    (hmiss : lua_toboolean (s.lua.loaded name) = false)
    (hfind : findloader w fuel name s = .ok (f, aux) s1)
    (hcall : lua_call w f [.string name, aux] 1 s1 = .ok vals s2) :
    ll_require w fuel name s =
      (match (if !lua_isnil (vals.headD .nil) then setloaded s2 name (vals.headD .nil)
              else s2).lua.loaded name with
       | .nil => .ok (.boolean true)
           (setloaded (if !lua_isnil (vals.headD .nil) then setloaded s2 name (vals.headD .nil)
              else s2) name (.boolean true))
       | v => .ok v (if !lua_isnil (vals.headD .nil) then setloaded s2 name (vals.headD .nil)
              else s2)) := by
  unfold ll_require
  simp only [hmiss, hfind, hcall]
  rfl

theorem lua_isnil_eq_true (v : Value) : lua_isnil v = true ↔ v = .nil := by
  cases v <;> simp [lua_isnil]

/-- When `require` returns, the value returned is the entry of the module in
`package.loaded`, and it is not nil. -/
theorem ll_require_ok_loaded (w : World) (fuel : Nat) (name : CStr) (s s1 : State) (v : Value)
    (h : ll_require w fuel name s = .ok v s1) :
    s1.lua.loaded name = v ∧ v ≠ .nil := by
  unfold ll_require at h
  split at h
  · rename_i ht
    simp only [Res.ok.injEq] at h
    obtain ⟨hv, hs⟩ := h
    subst hs
    refine ⟨hv, ?_⟩
    intro hn
    rw [hv, hn] at ht
    simp [lua_toboolean] at ht
  · split at h
    · simp at h
    · simp at h
    · split at h
      · simp at h
      · simp at h
      · simp only at h
        split at h
        · simp only [Res.ok.injEq] at h
          obtain ⟨hv, hs⟩ := h
          subst hs; subst hv
          simp [setloaded_loaded]
        · rename_i hne
          simp only [Res.ok.injEq] at h
          obtain ⟨hv, hs⟩ := h
          subst hs; subst hv
          exact ⟨rfl, fun hn => hne hn⟩

/-! ## The module cache -/

/-- C1: when the entry of `name` in `package.loaded` is neither nil nor false,
`require` returns that entry and leaves the whole state as it was: the tables
(module cache, library handles) and the log, so that no searcher and no loader
was called. -/
theorem require_cached (w : World) (fuel : Nat) (name : CStr) (s : State)
    (h : lua_toboolean (s.lua.loaded name) = true) :
    ll_require w fuel name s = .ok (s.lua.loaded name) s :=
  ll_require_hit w fuel name s h

theorem require_cached_witness :
    lua_toboolean (cachedState.lua.loaded "foo".toList) = true ∧
    ll_require bareWorld 0 "foo".toList cachedState = .ok (.table 1) cachedState :=
  ⟨rfl, require_cached bareWorld 0 "foo".toList cachedState rfl⟩

/-- C2, as stated, fails: a loader that returns `false` makes `require`
succeed with `false`, and the next `require` of the same name calls the
searcher and the loader again. -/
theorem require_false_runs_loader_again :
    ∃ s1 s2, ll_require falseWorld 2 "m".toList preloadState = .ok (.boolean false) s1 ∧
      ll_require falseWorld 2 "m".toList s1 = .ok (.boolean false) s2 ∧
      s1.trace = preloadCalls ∧ s2.trace = preloadCalls ++ preloadCalls ∧
      (loaderCalls s2.trace).length = 2 :=
  ⟨_, _, rfl, rfl, rfl, rfl, rfl⟩

/-- C2, amended: when a first `require` of `name` returns a value other than
`false`, a second `require` of `name` in the state it left returns the same
value and leaves the state, log included, as it was: no searcher and no
loader is called again. -/
theorem require_twice (w : World) (fuel fuel2 : Nat) (name : CStr) (s s1 : State) (v : Value)
    (h1 : ll_require w fuel name s = .ok v s1) (hv : v ≠ .boolean false) :
    ll_require w fuel2 name s1 = .ok v s1 := by
  obtain ⟨hl, hn⟩ := ll_require_ok_loaded w fuel name s s1 v h1
  have ht : lua_toboolean (s1.lua.loaded name) = true := by
    rw [hl]
    cases v <;> simp_all [lua_toboolean]
  rw [ll_require_hit w fuel2 name s1 ht, hl]

theorem require_twice_witness :
    ll_require tableWorld 2 "m".toList preloadState
      = .ok (.table 9) (setloaded { preloadState with trace := preloadCalls } "m".toList (.table 9)) ∧
    Value.table 9 ≠ .boolean false ∧
    ll_require tableWorld 0 "m".toList
        (setloaded { preloadState with trace := preloadCalls } "m".toList (.table 9))
      = .ok (.table 9) (setloaded { preloadState with trace := preloadCalls } "m".toList (.table 9)) :=
  ⟨rfl, by decide,
   require_twice tableWorld 2 0 "m".toList preloadState _ (.table 9) rfl (by decide)⟩

/-- C3, as stated, fails: a loader that returns no value but stores the table
5 under the name in `package.loaded` makes `require` return that table, and
the entry stays that table: `true` is neither stored nor returned. -/
theorem require_loader_stored_value :
    ∃ s1 s2, findloader selfStoreWorld 2 "m".toList preloadState
        = .ok (.function (.other 1), .nil) s1 ∧
      lua_call selfStoreWorld (.function (.other 1)) [.string "m".toList, .nil] 1 s1
        = .ok [.nil] s2 ∧
      ll_require selfStoreWorld 2 "m".toList preloadState = .ok (.table 5) s2 ∧
      s2.lua.loaded "m".toList = .table 5 :=
  ⟨_, _, rfl, rfl, rfl, rfl⟩

/-- C3, amended: after a cache miss, a successful `findloader` and a loader
call that returned the value `v` (the first of `vals`, nil when there is
none): if `v` is not nil, `v` is stored under the name and returned; if `v` is
nil and `package.loaded` has no entry for the name after the loader ran,
`true` is stored under the name and returned. -/
theorem require_stores_result (w : World) (fuel : Nat) (name : CStr) (s s1 s2 : State)
    (f aux : Value) (vals : List Value)
    (hmiss : lua_toboolean (s.lua.loaded name) = false)
    (hfind : findloader w fuel name s = .ok (f, aux) s1)
    (hcall : lua_call w f [.string name, aux] 1 s1 = .ok vals s2) :
    (vals.headD .nil ≠ .nil →
      ll_require w fuel name s = .ok (vals.headD .nil) (setloaded s2 name (vals.headD .nil)) ∧
      (setloaded s2 name (vals.headD .nil)).lua.loaded name = vals.headD .nil) ∧
    (vals.headD .nil = .nil → s2.lua.loaded name = .nil →
      ll_require w fuel name s = .ok (.boolean true) (setloaded s2 name (.boolean true)) ∧
      (setloaded s2 name (.boolean true)).lua.loaded name = .boolean true) := by
  rw [ll_require_miss w fuel name s s1 s2 f aux vals hmiss hfind hcall]
  constructor
  · intro hv
    have hnil : lua_isnil (vals.headD .nil) = false := by
      cases h : lua_isnil (vals.headD .nil)
      · rfl
      · exact absurd ((lua_isnil_eq_true _).1 h) hv
    simp only [hnil, Bool.not_false, if_true, setloaded_loaded]
    exact ⟨trivial, trivial⟩
  · intro hv hl
    simp only [hv, lua_isnil, Bool.not_true, setloaded_loaded]
    simp [hl]

theorem require_stores_result_witness :
    lua_toboolean (preloadState.lua.loaded "m".toList) = false ∧
    findloader bareWorld 2 "m".toList preloadState
      = .ok (.function (.other 1), .nil) { preloadState with trace := preloadCalls.take 1 } ∧
    lua_call bareWorld (.function (.other 1)) [.string "m".toList, .nil] 1
        { preloadState with trace := preloadCalls.take 1 }
      = .ok [.nil] { preloadState with trace := preloadCalls } ∧
    ll_require bareWorld 2 "m".toList preloadState
      = .ok (.boolean true)
          (setloaded { preloadState with trace := preloadCalls } "m".toList (.boolean true)) :=
  ⟨rfl, rfl, rfl,
   ((require_stores_result bareWorld 2 "m".toList preloadState
      { preloadState with trace := preloadCalls.take 1 }
      { preloadState with trace := preloadCalls }
      (.function (.other 1)) .nil [.nil] rfl rfl rfl).2 rfl rfl).1⟩



/-! ## Lemmas on the path resolver -/

theorem dropWhile_head_false {α : Type} (p : α → Bool) (l : List α) (y : α) (r : List α)
    (h : l.dropWhile p = y :: r) : p y = false := by
  induction l with
  | nil => simp at h
  | cons x xs ih =>
    rw [List.dropWhile_cons] at h
    split at h
    · exact ih h
    · rename_i hx
      simp only [List.cons.injEq] at h
      rw [← h.1]
      simpa using hx

theorem splitOn_sep (l : CStr) :
    l.splitOn LUA_PATH_SEP =
      l.takeWhile (fun x => x != LUA_PATH_SEP) ::
        (match l.dropWhile (fun x => x != LUA_PATH_SEP) with
         | [] => []
         | _ :: r => r.splitOn LUA_PATH_SEP) := by
  induction l with
  | nil => rfl
  | cons x xs ih =>
    unfold List.splitOn at ih ⊢
    rw [List.splitOnP_cons]
    by_cases hx : x = LUA_PATH_SEP
    · subst hx
      simp
    · have h1 : (x == LUA_PATH_SEP) = false := by simpa using hx
      have h2 : (x != LUA_PATH_SEP) = true := by simpa using hx
      simp only [h1, List.takeWhile_cons, List.dropWhile_cons, h2, ih, if_true,
        Bool.false_eq_true, if_false, List.modifyHead]

theorem templates_nil : templates [] = [] := by
  simp [templates]

theorem templates_sep_cons (cs : CStr) : templates (LUA_PATH_SEP :: cs) = templates cs := by
  simp [templates, List.splitOn, List.splitOnP_cons]

theorem templates_cons (c : Char) (cs : CStr) (hc : c ≠ LUA_PATH_SEP) :
    templates (c :: cs) =
      (c :: cs).takeWhile (fun x => x != LUA_PATH_SEP) ::
        templates ((c :: cs).dropWhile (fun x => x != LUA_PATH_SEP)) := by
  have h2 : (c != LUA_PATH_SEP) = true := by simpa using hc
  conv_lhs => rw [templates, splitOn_sep]
  simp only [List.takeWhile_cons, List.dropWhile_cons, h2, if_true]
  rw [List.filter_cons_of_pos (by simp)]
  congr 1
  cases hd : cs.dropWhile (fun x => x != LUA_PATH_SEP) with
  | nil => simp [templates_nil]
  | cons y r =>
    have hy := dropWhile_head_false _ _ _ _ hd
    have hy2 : y = LUA_PATH_SEP := by simpa using hy
    subst hy2
    rw [templates_sep_cons]
    rfl

theorem pushnexttemplate_none (path : CStr) (h : pushnexttemplate path = none) :
    templates path = [] := by
  induction path with
  | nil => exact templates_nil
  | cons c cs ih =>
    by_cases hc : c = LUA_PATH_SEP
    · subst hc
      rw [templates_sep_cons]
      apply ih
      simpa [pushnexttemplate] using h
    · have h1 : (c == LUA_PATH_SEP) = false := by simpa using hc
      simp [pushnexttemplate, List.dropWhile_cons, h1] at h

theorem pushnexttemplate_some (path t l : CStr) (h : pushnexttemplate path = some (t, l)) :
    templates path = t :: templates l ∧ l.length < path.length := by
  induction path with
  | nil => simp [pushnexttemplate] at h
  | cons c cs ih =>
    by_cases hc : c = LUA_PATH_SEP
    · subst hc
      rw [templates_sep_cons]
      have h3 : pushnexttemplate cs = some (t, l) := by
        simpa [pushnexttemplate] using h
      obtain ⟨h4, h5⟩ := ih h3
      exact ⟨h4, by simp only [List.length_cons]; omega⟩
    · have h1 : (c == LUA_PATH_SEP) = false := by simpa using hc
      have h2 : (c != LUA_PATH_SEP) = true := by simpa using hc
      have h0 : pushnexttemplate (c :: cs)
          = some ((c :: cs).takeWhile (fun x => x != LUA_PATH_SEP),
                  (c :: cs).dropWhile (fun x => x != LUA_PATH_SEP)) := by
        simp only [pushnexttemplate, List.dropWhile_cons, h1, Bool.false_eq_true, if_false]
      rw [h0] at h
      simp only [Option.some.injEq, Prod.mk.injEq] at h
      obtain ⟨ht, hl⟩ := h
      subst ht; subst hl
      refine ⟨templates_cons c cs hc, ?_⟩
      simp only [List.dropWhile_cons, h2, if_true]
      have := (List.dropWhile_sublist (fun x => x != LUA_PATH_SEP) (l := cs)).length_le
      simp only [List.length_cons]
      omega



theorem searchOutcome_nil (w : World) (msg : CStr) (s : State) :
    searchOutcome w [] msg s = (.error msg, s) := by
  simp [searchOutcome]

theorem searchOutcome_cons_pos (w : World) (c : CStr) (cs : List CStr) (msg : CStr) (s : State)
    (h : w.readable c = true) :
    searchOutcome w (c :: cs) msg s = (.ok c, s.log (.fopen c)) := by
  simp [searchOutcome, failed, h, State.log]

theorem searchOutcome_cons_neg (w : World) (c : CStr) (cs : List CStr) (msg : CStr) (s : State)
    (h : w.readable c = false) :
    searchOutcome w (c :: cs) msg s = searchOutcome w cs (msg ++ nofile c) (s.log (.fopen c)) := by
  unfold searchOutcome
  rw [List.find?_cons_of_neg _ (by simp [h])]
  cases hf : cs.find? w.readable with
  | none => simp [State.log]
  | some f => simp [failed, h, State.log]

theorem searchpath_loop_eq (w : World) (name : CStr) (fuel : Nat) :
    ∀ (path msg : CStr) (s : State), path.length < fuel →
      searchpath_loop w name fuel path msg s =
        searchOutcome w ((templates path).map (fun t => luaL_gsub t LUA_PATH_MARK name)) msg s := by
  induction fuel with
  | zero => intro path msg s h; omega
  | succ n ih =>
    intro path msg s h
    unfold searchpath_loop
    cases hp : pushnexttemplate path with
    | none =>
      rw [pushnexttemplate_none path hp]
      simp [searchOutcome_nil]
    | some tl =>
      obtain ⟨t, l⟩ := tl
      obtain ⟨ht, hl⟩ := pushnexttemplate_some path t l hp
      rw [ht, List.map_cons]
      simp only [readable]
      cases hr : w.readable (luaL_gsub t LUA_PATH_MARK name) with
      | true => rw [searchOutcome_cons_pos _ _ _ _ _ hr]
      | false =>
        rw [searchOutcome_cons_neg _ _ _ _ _ hr]
        exact ih l _ _ (by omega)

theorem searchpath_eq (w : World) (name path sep dirsep : CStr) (s : State) :
    searchpath w name path sep dirsep s = searchOutcome w (candidates name path sep dirsep) [] s := by
  unfold searchpath
  rw [searchpath_loop_eq w _ _ path [] s (by omega)]
  unfold candidates prepname
  by_cases h : sep = [] <;> simp [h]



theorem searchOutcome_spec (w : World) (cands : List CStr) :
    ∀ (msg : CStr) (s : State),
      (∀ f s1, searchOutcome w cands msg s = (.ok f, s1) →
        ∃ pre post, cands = pre ++ f :: post ∧ (∀ c ∈ pre, w.readable c = false) ∧
          w.readable f = true ∧
          s1 = { s with trace := s.trace ++ (pre ++ [f]).map Event.fopen }) ∧
      (∀ m s1, searchOutcome w cands msg s = (.error m, s1) →
        (∀ c ∈ cands, w.readable c = false) ∧ m = msg ++ (cands.map nofile).flatten ∧
          s1 = { s with trace := s.trace ++ cands.map Event.fopen }) := by
  induction cands with
  | nil =>
    intro msg s
    rw [searchOutcome_nil]
    constructor
    · intro f s1 h
      simp at h
    · intro m s1 h
      simp only [Prod.mk.injEq, Except.error.injEq] at h
      simp [h.1.symm, h.2.symm]
  | cons c cs ih =>
    intro msg s
    cases hr : w.readable c with
    | true =>
      rw [searchOutcome_cons_pos _ _ _ _ _ hr]
      constructor
      · intro f s1 h
        simp only [Prod.mk.injEq, Except.ok.injEq] at h
        refine ⟨[], cs, ?_, ?_, ?_, ?_⟩
        · simp [h.1]
        · simp
        · rw [← h.1]; exact hr
        · simp [← h.2, ← h.1, State.log]
      · intro m s1 h
        simp at h
    | false =>
      rw [searchOutcome_cons_neg _ _ _ _ _ hr]
      obtain ⟨ih1, ih2⟩ := ih (msg ++ nofile c) (s.log (.fopen c))
      constructor
      · intro f s1 h
        obtain ⟨pre, post, h1, h2, h3, h4⟩ := ih1 f s1 h
        refine ⟨c :: pre, post, by simp [h1], ?_, h3, ?_⟩
        · intro x hx
          rcases List.mem_cons.1 hx with hx | hx
          · rw [hx]; exact hr
          · exact h2 x hx
        · simp [h4, State.log]
      · intro m s1 h
        obtain ⟨h1, h2, h3⟩ := ih2 m s1 h
        refine ⟨?_, ?_, ?_⟩
        · intro x hx
          rcases List.mem_cons.1 hx with hx | hx
          · rw [hx]; exact hr
          · exact h1 x hx
        · simp [h2]
        · simp [h3, State.log]

theorem luaL_gsub_single (s : CStr) (c : Char) (r : CStr) :
    luaL_gsub s [c] r = s.flatMap (fun x => if x = c then r else [x]) := by
  unfold luaL_gsub
  induction s with
  | nil => rfl
  | cons a as ih =>
    unfold gsubFrom
    by_cases h : a = c
    · subst h
      simp [ih]
    · have h2 : ¬ c = a := fun e => h e.symm
      simp [List.isPrefixOf, h, h2, ih]

theorem luaL_gsub_single_char (s : CStr) (c d : Char) :
    luaL_gsub s [c] [d] = s.map (fun x => if x = c then d else x) := by
  rw [luaL_gsub_single]
  induction s with
  | nil => rfl
  | cons a as ih =>
    rw [List.flatMap_cons, ih, List.map_cons]
    by_cases h : a = c <;> simp [h]

theorem mark_mem_gsub (t n : CStr) (h : '?' ∈ luaL_gsub t LUA_PATH_MARK n) : '?' ∈ t ∧ '?' ∈ n := by
  unfold LUA_PATH_MARK at h
  rw [luaL_gsub_single, List.mem_flatMap] at h
  obtain ⟨a, ha, hx⟩ := h
  by_cases hq : a = '?'
  · subst hq
    simp only [if_true] at hx
    exact ⟨ha, hx⟩
  · simp only [hq, if_false, List.mem_singleton] at hx
    exact absurd hx.symm hq




/-! ## The path template resolver -/

/-- C5: with `n'` the name after replacement of `sep` by `dirsep` and the
candidates the templates of the path, in order, each with every mark replaced
by `n'`: `searchpath` returns a file iff some candidate is readable; the file
returned is the first readable candidate, and the probes made are those of
the candidates up to and including it, each once, in order; when none is
readable every candidate is probed once, in order. For the path
"./?.src;./?/init.src" and the name "foo", with only "./foo/init.src"
readable, the result is "./foo/init.src" after one failed probe, of
"./foo.src". -/
theorem searchpath_first_readable (w : World) (name path sep dirsep : CStr) (s : State) :
    ((∃ f, (searchpath w name path sep dirsep s).1 = .ok f) ↔
      ∃ c ∈ candidates name path sep dirsep, w.readable c = true) ∧
    (∀ f, (searchpath w name path sep dirsep s).1 = .ok f →
      ∃ pre post, candidates name path sep dirsep = pre ++ f :: post ∧
        (∀ c ∈ pre, w.readable c = false) ∧ w.readable f = true ∧
        (searchpath w name path sep dirsep s).2.trace
          = s.trace ++ (pre ++ [f]).map Event.fopen) ∧
    (∀ m, (searchpath w name path sep dirsep s).1 = .error m →
      (searchpath w name path sep dirsep s).2.trace
        = s.trace ++ (candidates name path sep dirsep).map Event.fopen) ∧
    (searchpath w name path sep dirsep s).2.lua = s.lua ∧
    searchpath { w with readable := fun f => f == "./foo/init.src".toList }
        "foo".toList "./?.src;./?/init.src".toList ['.'] dirsep s
      = (.ok "./foo/init.src".toList,
         { s with trace := s.trace ++
             [Event.fopen "./foo.src".toList, Event.fopen "./foo/init.src".toList] }) := by
  have hspec := searchOutcome_spec w (candidates name path sep dirsep) [] s
  rw [← searchpath_eq] at hspec
  obtain ⟨hok, herr⟩ := hspec
  have hpair : ∀ r : Except CStr CStr × State, r = (r.1, r.2) := fun r => rfl
  refine ⟨⟨?_, ?_⟩, ?_, ?_, ?_, ?_⟩
  · rintro ⟨f, hf⟩
    obtain ⟨pre, post, h1, _, h3, _⟩ := hok f _ (by rw [← hf])
    exact ⟨f, by simp [h1], h3⟩
  · rintro ⟨c, hc, hr⟩
    cases hres : (searchpath w name path sep dirsep s).1 with
    | ok f => exact ⟨f, rfl⟩
    | error m =>
      obtain ⟨h1, _, _⟩ := herr m _ (by rw [← hres])
      rw [h1 c hc] at hr
      exact absurd hr (by simp)
  · intro f hf
    obtain ⟨pre, post, h1, h2, h3, h4⟩ := hok f _ (by rw [← hf])
    exact ⟨pre, post, h1, h2, h3, by rw [h4]⟩
  · intro m hm
    obtain ⟨_, _, h3⟩ := herr m _ (by rw [← hm])
    rw [h3]
  · cases hres : (searchpath w name path sep dirsep s).1 with
    | ok f =>
      obtain ⟨pre, post, _, _, _, h4⟩ := hok f _ (by rw [← hres])
      rw [h4]
    | error m =>
      obtain ⟨_, _, h3⟩ := herr m _ (by rw [← hres])
      rw [h3]
  · rw [searchpath_eq]
    have hc : candidates "foo".toList "./?.src;./?/init.src".toList ['.'] dirsep
        = ["./foo.src".toList, "./foo/init.src".toList] := by rfl
    rw [hc]
    rfl

/-- C6, as stated, fails: for the path "./?.src;./?/init.src" and the name
"foo", with no file readable, the text is not the two lines
"no file './foo.src'" and "no file './foo/init.src'" joined with a newline:
every entry starts with a newline and a tab. -/
theorem searchpath_text_not_joined_lines :
    (searchpath bareWorld "foo".toList "./?.src;./?/init.src".toList ['.'] ['/'] freshState).1
      = .error "\n\tno file './foo.src'\n\tno file './foo/init.src'".toList ∧
    joinedNoFileLines (candidates "foo".toList "./?.src;./?/init.src".toList ['.'] ['/'])
      = "no file './foo.src'\nno file './foo/init.src'".toList ∧
    "\n\tno file './foo.src'\n\tno file './foo/init.src'".toList
      ≠ joinedNoFileLines (candidates "foo".toList "./?.src;./?/init.src".toList ['.'] ['/']) :=
  ⟨rfl, rfl, by decide⟩

/-- C6, amended: when no candidate is readable, `searchpath` fails with the
text that is the concatenation, in template order, of one entry for each
candidate, each entry being a newline, a tab and "no file 'candidate'"; every
candidate was probed; and `package.searchpath` returns nil and that text. -/
theorem searchpath_not_found_text (w : World) (name path : CStr) (sep dirsep : Option CStr)
    (s : State)
    (h : ∀ c ∈ candidates name path (sep.getD ['.']) (dirsep.getD w.LUA_DIRSEP),
      w.readable c = false) :
    searchpath w name path (sep.getD ['.']) (dirsep.getD w.LUA_DIRSEP) s
      = (.error (((candidates name path (sep.getD ['.']) (dirsep.getD w.LUA_DIRSEP)).map
            (fun c => "\n\tno file '".toList ++ c ++ "'".toList)).flatten),
         { s with trace := s.trace ++
            (candidates name path (sep.getD ['.']) (dirsep.getD w.LUA_DIRSEP)).map Event.fopen }) ∧
    ll_searchpath w name path sep dirsep s
      = ([.nil, .string (((candidates name path (sep.getD ['.']) (dirsep.getD w.LUA_DIRSEP)).map
            (fun c => "\n\tno file '".toList ++ c ++ "'".toList)).flatten)],
         { s with trace := s.trace ++
            (candidates name path (sep.getD ['.']) (dirsep.getD w.LUA_DIRSEP)).map Event.fopen }) := by
  have hnone : (candidates name path (sep.getD ['.']) (dirsep.getD w.LUA_DIRSEP)).find? w.readable
      = none := by
    rw [List.find?_eq_none]
    intro c hc
    simp [h c hc]
  have hs : searchpath w name path (sep.getD ['.']) (dirsep.getD w.LUA_DIRSEP) s
      = (.error (((candidates name path (sep.getD ['.']) (dirsep.getD w.LUA_DIRSEP)).map
            (fun c => "\n\tno file '".toList ++ c ++ "'".toList)).flatten),
         { s with trace := s.trace ++
            (candidates name path (sep.getD ['.']) (dirsep.getD w.LUA_DIRSEP)).map Event.fopen }) := by
    rw [searchpath_eq, searchOutcome, hnone]
    simp only [List.nil_append]
    rfl
  refine ⟨hs, ?_⟩
  unfold ll_searchpath
  rw [hs]

theorem searchpath_not_found_text_witness :
    (∀ c ∈ candidates "foo".toList "./?.src;./?/init.src".toList
        ((none : Option CStr).getD ['.']) ((none : Option CStr).getD bareWorld.LUA_DIRSEP),
      bareWorld.readable c = false) ∧
    ll_searchpath bareWorld "foo".toList "./?.src;./?/init.src".toList none none freshState
      = ([.nil, .string "\n\tno file './foo.src'\n\tno file './foo/init.src'".toList],
         { freshState with trace :=
            [Event.fopen "./foo.src".toList, Event.fopen "./foo/init.src".toList] }) :=
  ⟨fun _ _ => rfl,
   (searchpath_not_found_text bareWorld "foo".toList "./?.src;./?/init.src".toList none none
      freshState (fun _ _ => rfl)).2⟩

/-- C7, as stated, fails: for the template "./?.lua" and the module name
"a?b" the candidate is "./a?b.lua", which contains the mark. -/
theorem searchpath_candidate_with_mark :
    (searchpath openWorld "a?b".toList "./?.lua".toList ['.'] ['/'] freshState).1
      = .ok "./a?b.lua".toList ∧
    '?' ∈ "./a?b.lua".toList :=
  ⟨rfl, by decide⟩

/-- C7, amended: when the module name, after replacement of `sep` by
`dirsep`, does not contain the mark '?', no candidate contains it: neither
the file that `searchpath` returns nor any file that it probes. -/
theorem searchpath_no_mark (w : World) (name path sep dirsep : CStr) (s : State)
    (h : '?' ∉ prepname name sep dirsep) :
    (∀ c ∈ candidates name path sep dirsep, '?' ∉ c) ∧
    (∀ f, (searchpath w name path sep dirsep s).1 = .ok f → '?' ∉ f) ∧
    (∃ tried : List CStr, (searchpath w name path sep dirsep s).2.trace = s.trace ++ tried.map Event.fopen ∧
      ∀ f ∈ tried, '?' ∉ f) := by
  have hc : ∀ c ∈ candidates name path sep dirsep, '?' ∉ c := by
    intro c hc hq
    unfold candidates at hc
    rw [List.mem_map] at hc
    obtain ⟨t, _, ht⟩ := hc
    rw [← ht] at hq
    exact h (mark_mem_gsub _ _ hq).2
  have hspec := searchOutcome_spec w (candidates name path sep dirsep) [] s
  rw [← searchpath_eq] at hspec
  obtain ⟨hok, herr⟩ := hspec
  refine ⟨hc, ?_, ?_⟩
  · intro f hf
    obtain ⟨pre, post, h1, _, _, _⟩ := hok f _ (by rw [← hf])
    exact hc f (by simp [h1])
  · cases hres : (searchpath w name path sep dirsep s).1 with
    | ok f =>
      obtain ⟨pre, post, h1, _, _, h4⟩ := hok f _ (by rw [← hres])
      refine ⟨pre ++ [f], by rw [h4], ?_⟩
      intro x hx
      apply hc x
      rw [h1]
      rcases List.mem_append.1 hx with hx | hx
      · exact List.mem_append_left _ hx
      · exact List.mem_append_right _ (by simp at hx; simp [hx])
    | error m =>
      obtain ⟨_, _, h3⟩ := herr m _ (by rw [← hres])
      exact ⟨_, by rw [h3], hc⟩

theorem searchpath_no_mark_witness :
    '?' ∉ prepname "a.b".toList ['.'] ['/'] ∧
    (∀ c ∈ candidates "a.b".toList "./?.so;./lib?.so".toList ['.'] ['/'], '?' ∉ c) ∧
    candidates "a.b".toList "./?.so;./lib?.so".toList ['.'] ['/']
      = ["./a/b.so".toList, "./liba/b.so".toList] :=
  ⟨by decide,
   (searchpath_no_mark bareWorld "a.b".toList "./?.so;./lib?.so".toList ['.'] ['/'] freshState
      (by decide)).1,
   rfl⟩




/-! ## Lemmas on the entry-point resolver -/

theorem isWildcard_POF (x : CStr) : isWildcard (LUA_POF ++ x) = false := by
  rfl

theorem lookforfunc_sym_of_not_wildcard (w : World) (reg : Nat) (sym : CStr) (s : State)
    (h : isWildcard sym = false) :
    lookforfunc_sym w reg sym s =
      (match w.lsys_sym reg sym with
       | .ok f => (0, .function (.cfunction f), s.log (.lsys_sym reg sym (some f)))
       | .error msg => (ERRFUNC, .string msg, s.log (.lsys_sym reg sym none))) := by
  unfold lookforfunc_sym lsys_sym
  simp only [h, Bool.false_eq_true, if_false]
  cases w.lsys_sym reg sym <;> rfl

theorem symLookups_append (a b : List Event) : symLookups (a ++ b) = symLookups a ++ symLookups b := by
  simp [symLookups, List.filterMap_append]

/-- The log that `lookforfunc` leaves for a symbol that is not the wildcard. -/
theorem lookforfunc_trace (w : World) (path sym : CStr) (s : State)
    (h : isWildcard sym = false) :
    ∃ d, (lookforfunc w path sym s).2.2.trace = s.trace ++ d ∧
      symLookups d = (match libraryOf w s path false with
        | some _ => [sym]
        | none => []) := by
  unfold lookforfunc libraryOf
  cases hc : checkclib s path with
  | some reg =>
    simp only
    rw [lookforfunc_sym_of_not_wildcard w reg sym s h]
    cases w.lsys_sym reg sym with
    | ok f => exact ⟨[.lsys_sym reg sym (some f)], rfl, rfl⟩
    | error msg => exact ⟨[.lsys_sym reg sym none], rfl, rfl⟩
  | none =>
    simp only [h, lsys_load]
    cases hl : w.lsys_load path false with
    | error msg => exact ⟨[.lsys_load path false none], rfl, rfl⟩
    | ok reg =>
      simp only
      rw [lookforfunc_sym_of_not_wildcard w reg sym _ h]
      cases w.lsys_sym reg sym with
      | ok f =>
        exact ⟨[.lsys_load path false (some reg), .lsys_sym reg sym (some f)],
          by simp [State.log, addtoclib], rfl⟩
      | error msg =>
        exact ⟨[.lsys_load path false (some reg), .lsys_sym reg sym none],
          by simp [State.log, addtoclib], rfl⟩

/-- A lookup of a symbol that is not the wildcard, in a library that is at
hand or loads and that exports the symbol. -/
theorem lookforfunc_found (w : World) (path sym : CStr) (s : State) (reg f : Nat)
    (hw : isWildcard sym = false)
    (hlib : libraryOf w s path false = some reg)
    (hsym : w.lsys_sym reg sym = .ok f) :
    ∃ d, lookforfunc w path sym s
        = (0, .function (.cfunction f), (lookforfunc w path sym s).2.2) ∧
      (lookforfunc w path sym s).2.2.trace = s.trace ++ d ∧
      symLookups d = [sym] ∧ .lsys_sym reg sym (some f) ∈ d := by
  unfold lookforfunc
  unfold libraryOf at hlib
  cases hc : checkclib s path with
  | some r =>
    rw [hc] at hlib
    simp only [Option.some.injEq] at hlib
    subst hlib
    simp only
    rw [lookforfunc_sym_of_not_wildcard w r _ s hw, hsym]
    exact ⟨[.lsys_sym r sym (some f)], rfl, rfl, rfl, by simp⟩
  | none =>
    rw [hc] at hlib
    simp only [hw, lsys_load]
    cases hl : w.lsys_load path false with
    | error msg => rw [hl] at hlib; simp at hlib
    | ok r =>
      rw [hl] at hlib
      simp only [Option.some.injEq] at hlib
      subst hlib
      simp only
      rw [lookforfunc_sym_of_not_wildcard w r _ _ hw, hsym]
      exact ⟨[.lsys_load path false (some r), .lsys_sym r sym (some f)], rfl,
        by simp [State.log, addtoclib], rfl, by simp⟩

theorem mark_mem_dotNormalised (m : CStr) : LUA_IGMARK ∈ dotNormalised m ↔ LUA_IGMARK ∈ m := by
  unfold dotNormalised
  rw [List.mem_map]
  constructor
  · rintro ⟨a, ha, h⟩
    by_cases hd : a = '.'
    · simp [hd, LUA_IGMARK] at h
    · simp only [hd, if_false] at h
      rw [← h]; exact ha
  · intro h
    exact ⟨LUA_IGMARK, h, by simp [LUA_IGMARK]⟩

theorem gsub_dots (m : CStr) : luaL_gsub m ['.'] LUA_OFSEP = dotNormalised m := by
  unfold LUA_OFSEP dotNormalised
  exact luaL_gsub_single_char m '.' '_'

/-! ## The entry-point resolver -/

/-- C8: for a module name without the ignore mark '-', `loadfunc` is the
lookup of the single symbol "luaopen_" followed by the name with every '.'
replaced by '_': that symbol is looked up once when the library is in CLIBS or
loads, and no symbol is looked up otherwise. The name "a.b" gives
"luaopen_a_b". -/
theorem loadfunc_symbol (w : World) (filename m : CStr) (s : State) (h : '-' ∉ m) :
    loadfunc w filename m s
      = lookforfunc w filename ("luaopen_".toList ++ dotNormalised m) s ∧
    (∃ d, (loadfunc w filename m s).2.2.trace = s.trace ++ d ∧
      symLookups d = (match libraryOf w s filename false with
        | some _ => ["luaopen_".toList ++ dotNormalised m]
        | none => [])) ∧
    "luaopen_".toList ++ dotNormalised "a.b".toList = "luaopen_a_b".toList := by
  have hm : LUA_IGMARK ∉ dotNormalised m := by
    rw [mark_mem_dotNormalised]
    exact h
  have heq : loadfunc w filename m s
      = lookforfunc w filename ("luaopen_".toList ++ dotNormalised m) s := by
    unfold loadfunc
    simp only [gsub_dots, hm, if_false]
    rfl
  refine ⟨heq, ?_, rfl⟩
  rw [heq]
  exact lookforfunc_trace w filename _ s (isWildcard_POF _)

theorem loadfunc_symbol_witness :
    '-' ∉ "a.b".toList ∧
    loadfunc mylibWorld "./mylib-v2.so".toList "a.b".toList freshState
      = lookforfunc mylibWorld "./mylib-v2.so".toList "luaopen_a_b".toList freshState ∧
    (loadfunc mylibWorld "./mylib-v2.so".toList "a.b".toList freshState).2.2.trace
      = [.lsys_load "./mylib-v2.so".toList false (some 7),
         .lsys_sym 7 "luaopen_a_b".toList none] :=
  ⟨by decide,
   (loadfunc_symbol mylibWorld "./mylib-v2.so".toList "a.b".toList freshState (by decide)).1,
   rfl⟩

/-- C9: for a module name whose dot-normalised form contains the ignore mark
'-', with X the text before the first mark: when the library is in CLIBS or
loads, and exports "luaopen_X", `loadfunc` succeeds with that function after a
single symbol lookup, of "luaopen_X"; no name built from the text after the
mark is looked up. -/
theorem loadfunc_ignore_mark (w : World) (filename m : CStr) (s : State) (reg f : Nat)
    (hmark : '-' ∈ dotNormalised m)
    (hlib : libraryOf w s filename false = some reg)
    (hsym : w.lsys_sym reg
      ("luaopen_".toList ++ (dotNormalised m).takeWhile (fun c => c != '-')) = .ok f) :
    (loadfunc w filename m s).1 = 0 ∧
    (loadfunc w filename m s).2.1 = .function (.cfunction f) ∧
    ∃ d, (loadfunc w filename m s).2.2.trace = s.trace ++ d ∧
      symLookups d = ["luaopen_".toList ++ (dotNormalised m).takeWhile (fun c => c != '-')] ∧
      .lsys_sym reg ("luaopen_".toList ++ (dotNormalised m).takeWhile (fun c => c != '-'))
        (some f) ∈ d := by
  have hm : LUA_IGMARK ∈ dotNormalised m := hmark
  have hw : isWildcard (LUA_POF ++ (dotNormalised m).takeWhile (fun c => c != LUA_IGMARK))
      = false := isWildcard_POF _
  have hsym2 : w.lsys_sym reg
      (LUA_POF ++ (dotNormalised m).takeWhile (fun c => c != LUA_IGMARK)) = .ok f := hsym
  obtain ⟨d, hd1, hd2, hd3, hd4⟩ := lookforfunc_found w filename
    (LUA_POF ++ (dotNormalised m).takeWhile (fun c => c != LUA_IGMARK)) s reg f hw hlib hsym2
  have heq : loadfunc w filename m s = lookforfunc w filename
      (LUA_POF ++ (dotNormalised m).takeWhile (fun c => c != LUA_IGMARK)) s := by
    unfold loadfunc
    simp only [gsub_dots, hm, if_true]
    rw [hd1]
    simp [ERRFUNC]
  rw [heq, hd1]
  exact ⟨rfl, rfl, d, hd2, hd3, hd4⟩

theorem loadfunc_ignore_mark_witness :
    '-' ∈ dotNormalised "mylib-v2".toList ∧
    libraryOf mylibWorld freshState "./mylib-v2.so".toList false = some 7 ∧
    mylibWorld.lsys_sym 7
      ("luaopen_".toList ++ (dotNormalised "mylib-v2".toList).takeWhile (fun c => c != '-'))
      = .ok 3 ∧
    (loadfunc mylibWorld "./mylib-v2.so".toList "mylib-v2".toList freshState).1 = 0 ∧
    (loadfunc mylibWorld "./mylib-v2.so".toList "mylib-v2".toList freshState).2.1
      = .function (.cfunction 3) ∧
    (loadfunc mylibWorld "./mylib-v2.so".toList "mylib-v2".toList freshState).2.2.trace
      = [.lsys_load "./mylib-v2.so".toList false (some 7),
         .lsys_sym 7 "luaopen_mylib".toList (some 3)] :=
  ⟨by decide, rfl, rfl,
   (loadfunc_ignore_mark mylibWorld "./mylib-v2.so".toList "mylib-v2".toList freshState 7 3
      (by decide) rfl rfl).1,
   (loadfunc_ignore_mark mylibWorld "./mylib-v2.so".toList "mylib-v2".toList freshState 7 3
      (by decide) rfl rfl).2.1,
   rfl⟩




/-! ## Lemmas on the table of loaded libraries -/

theorem opensOf_append (p : CStr) (a b : List Event) :
    opensOf p (a ++ b) = opensOf p a ++ opensOf p b := by
  simp [opensOf, List.filter_append]

theorem opened_append (a b : List Event) : opened (a ++ b) = opened a ++ opened b := by
  simp [opened, List.filterMap_append]

/-- The second half of `lookforfunc` touches no table and opens no library. -/
theorem lookforfunc_sym_effect (w : World) (reg : Nat) (sym : CStr) (s : State) (p : CStr) :
    (lookforfunc_sym w reg sym s).2.2.lua = s.lua ∧
    ∃ d, (lookforfunc_sym w reg sym s).2.2.trace = s.trace ++ d ∧
      opensOf p d = [] ∧ opened d = [] ∧
      d = if isWildcard sym then []
          else [.lsys_sym reg sym (match w.lsys_sym reg sym with
            | .ok f => some f
            | .error _ => none)] := by
  unfold lookforfunc_sym lsys_sym
  cases hw : isWildcard sym with
  | true => exact ⟨rfl, [], by simp, rfl, rfl, by simp⟩
  | false =>
    simp only [Bool.false_eq_true, if_false]
    cases w.lsys_sym reg sym with
    | ok f => exact ⟨rfl, [.lsys_sym reg sym (some f)], rfl, rfl, rfl, rfl⟩
    | error msg => exact ⟨rfl, [.lsys_sym reg sym none], rfl, rfl, rfl, rfl⟩

theorem lookforfunc_cached (w : World) (path sym : CStr) (s : State) (reg : Nat)
    (h : checkclib s path = some reg) :
    lookforfunc w path sym s = lookforfunc_sym w reg sym s := by
  unfold lookforfunc
  rw [h]

theorem checkclib_addtoclib_ne (s : State) (p q : CStr) (reg : Nat) (h : p ≠ q) :
    checkclib (addtoclib s q reg) p = checkclib s p := by
  simp [checkclib, addtoclib, setfield, h]

theorem checkclib_addtoclib_self (s : State) (q : CStr) (reg : Nat) :
    checkclib (addtoclib s q reg) q = some reg := by
  simp [checkclib, addtoclib, setfield, lua_touserdata]

theorem checkclib_log (s : State) (e : Event) (p : CStr) : checkclib (s.log e) p = checkclib s p :=
  rfl

theorem checkclib_congr (s s1 : State) (p : CStr) (h : s1.lua = s.lua) :
    checkclib s1 p = checkclib s p := by
  simp [checkclib, h]

/-- One lookup, seen from a path `p` whose library is already in CLIBS: the
entry of `p` stays, no open call on `p` is made, and the list of handles
grows by the handles of the successful opens. -/
theorem lookforfunc_keeps (w : World) (q sym : CStr) (s : State) (p : CStr) (reg : Nat)
    (h : checkclib s p = some reg) :
    checkclib (lookforfunc w q sym s).2.2 p = some reg ∧
    ∃ d, (lookforfunc w q sym s).2.2.trace = s.trace ++ d ∧ opensOf p d = [] ∧
      (lookforfunc w q sym s).2.2.lua.clibs_list = s.lua.clibs_list ++ opened d := by
  by_cases hq : q = p
  · subst hq
    rw [lookforfunc_cached w q sym s reg h]
    obtain ⟨h1, d, h2, h3, h4, _⟩ := lookforfunc_sym_effect w reg sym s q
    exact ⟨by rw [checkclib_congr _ _ _ h1, h], d, h2, h3, by rw [h1, h4]; simp⟩
  · have hpq : p ≠ q := fun e => hq e.symm
    unfold lookforfunc
    cases hc : checkclib s q with
    | some r =>
      simp only
      obtain ⟨h1, d, h2, h3, h4, _⟩ := lookforfunc_sym_effect w r sym s p
      exact ⟨by rw [checkclib_congr _ _ _ h1, h], d, h2, h3, by rw [h1, h4]; simp⟩
    | none =>
      simp only [lsys_load]
      cases hl : w.lsys_load q (isWildcard sym) with
      | error msg =>
        refine ⟨h, [.lsys_load q (isWildcard sym) none], rfl, ?_, ?_⟩
        · simp [opensOf, hq]
        · simp [opened, State.log]
      | ok r =>
        simp only
        obtain ⟨h1, d, h2, h3, h4, _⟩ := lookforfunc_sym_effect w r sym
          (addtoclib (s.log (.lsys_load q (isWildcard sym) (some r))) q r) p
        refine ⟨?_, .lsys_load q (isWildcard sym) (some r) :: d, ?_, ?_, ?_⟩
        · rw [checkclib_congr _ _ _ h1, checkclib_addtoclib_ne _ _ _ _ hpq, checkclib_log, h]
        · rw [h2]; simp [addtoclib, State.log]
        · have : opensOf p (.lsys_load q (isWildcard sym) (some r) :: d)
              = opensOf p [.lsys_load q (isWildcard sym) (some r)] ++ opensOf p d := by
            rw [← opensOf_append]; rfl
          rw [this, h3]
          simp [opensOf, hq]
        · have : opened (.lsys_load q (isWildcard sym) (some r) :: d)
              = opened [.lsys_load q (isWildcard sym) (some r)] ++ opened d := by
            rw [← opened_append]; rfl
          rw [h1, this, h4]
          simp [opened, addtoclib, State.log]

/-- A series of lookups, seen from a path whose library is already in CLIBS. -/
theorem lookups_keep (w : World) (p : CStr) (reg : Nat) (reqs : List (CStr × CStr)) :
    ∀ s : State, checkclib s p = some reg →
      checkclib (lookups w reqs s) p = some reg ∧
      ∃ d, (lookups w reqs s).trace = s.trace ++ d ∧ opensOf p d = [] ∧
        (lookups w reqs s).lua.clibs_list = s.lua.clibs_list ++ opened d := by
  induction reqs with
  | nil =>
    intro s h
    exact ⟨h, [], by simp [lookups], rfl, by simp [lookups, opened]⟩
  | cons r rest ih =>
    intro s h
    obtain ⟨q, sym⟩ := r
    obtain ⟨h1, d1, h2, h3, h4⟩ := lookforfunc_keeps w q sym s p reg h
    obtain ⟨h5, d2, h6, h7, h8⟩ := ih _ h1
    refine ⟨h5, d1 ++ d2, ?_, ?_, ?_⟩
    · simp only [lookups]; rw [h6, h2, List.append_assoc]
    · rw [opensOf_append, h3, h7]; rfl
    · simp only [lookups]; rw [h8, h4, opened_append, List.append_assoc]

/-- The lookup that opens the library of `p`. -/
theorem lookforfunc_opens (w : World) (p sym : CStr) (s : State) (reg : Nat)
    (hmiss : checkclib s p = none) (hload : w.lsys_load p (isWildcard sym) = .ok reg) :
    checkclib (lookforfunc w p sym s).2.2 p = some reg ∧
    ∃ d, (lookforfunc w p sym s).2.2.trace = s.trace ++ d ∧
      opensOf p d = [.lsys_load p (isWildcard sym) (some reg)] ∧
      (lookforfunc w p sym s).2.2.lua.clibs_list = s.lua.clibs_list ++ opened d ∧
      opened d = [.lightuserdata reg] := by
  unfold lookforfunc
  simp only [hmiss, lsys_load, hload]
  obtain ⟨h1, d, h2, h3, h4, _⟩ := lookforfunc_sym_effect w reg sym
    (addtoclib (s.log (.lsys_load p (isWildcard sym) (some reg))) p reg) p
  have ho : opensOf p (.lsys_load p (isWildcard sym) (some reg) :: d)
      = opensOf p [.lsys_load p (isWildcard sym) (some reg)] ++ opensOf p d := by
    rw [← opensOf_append]; rfl
  have hd : opened (.lsys_load p (isWildcard sym) (some reg) :: d)
      = opened [.lsys_load p (isWildcard sym) (some reg)] ++ opened d := by
    rw [← opened_append]; rfl
  refine ⟨?_, .lsys_load p (isWildcard sym) (some reg) :: d, ?_, ?_, ?_, ?_⟩
  · rw [checkclib_congr _ _ _ h1, checkclib_addtoclib_self]
  · rw [h2]; simp [addtoclib, State.log]
  · rw [ho, h3]; simp [opensOf]
  · rw [h1, hd, h4]; simp [opened, addtoclib, State.log]
  · rw [hd, h4]; simp [opened]




/-! ## The table of loaded libraries -/

/-- C10: once a lookup on `p` has opened its library, with the handle `reg`
(whatever became of the symbol `sym1`), then after any series `reqs` of
further lookups a lookup of any symbol `sym2` on `p`, wildcard or not, goes
straight to the symbol step on `reg`: it makes no open call and changes no
table. Over the whole history the log has a single open call on `p`, the
first one, the list of CLIBS grew by one handle for each successful open, and
`CLIBS[p]` is still `reg`. -/
theorem library_opened_once (w : World) (p sym1 sym2 : CStr) (reqs : List (CStr × CStr))
    (s : State) (reg : Nat)
    (hmiss : checkclib s p = none) (hload : w.lsys_load p (isWildcard sym1) = .ok reg) :
    lookforfunc w p sym2 (lookups w reqs (lookforfunc w p sym1 s).2.2)
      = lookforfunc_sym w reg sym2 (lookups w reqs (lookforfunc w p sym1 s).2.2) ∧
    (lookforfunc w p sym2 (lookups w reqs (lookforfunc w p sym1 s).2.2)).2.2.lua
      = (lookups w reqs (lookforfunc w p sym1 s).2.2).lua ∧
    (lookforfunc w p sym2 (lookups w reqs (lookforfunc w p sym1 s).2.2)).2.2.trace
      = (lookups w reqs (lookforfunc w p sym1 s).2.2).trace ++
          (if isWildcard sym2 then []
           else [.lsys_sym reg sym2 (match w.lsys_sym reg sym2 with
             | .ok f => some f
             | .error _ => none)]) ∧
    checkclib (lookforfunc w p sym2 (lookups w reqs (lookforfunc w p sym1 s).2.2)).2.2 p
      = some reg ∧
    ∃ d, (lookforfunc w p sym2 (lookups w reqs (lookforfunc w p sym1 s).2.2)).2.2.trace
        = s.trace ++ d ∧
      opensOf p d = [.lsys_load p (isWildcard sym1) (some reg)] ∧
      (lookforfunc w p sym2 (lookups w reqs (lookforfunc w p sym1 s).2.2)).2.2.lua.clibs_list
        = s.lua.clibs_list ++ opened d := by
  obtain ⟨h1, d1, h2, h3, h4, _⟩ := lookforfunc_opens w p sym1 s reg hmiss hload
  obtain ⟨h5, d2, h6, h7, h8⟩ := lookups_keep w p reg reqs _ h1
  have hc := lookforfunc_cached w p sym2 _ reg h5
  obtain ⟨h9, d3, h10, h11, h12, h13⟩ := lookforfunc_sym_effect w reg sym2
    (lookups w reqs (lookforfunc w p sym1 s).2.2) p
  rw [hc]
  refine ⟨rfl, h9, ?_, ?_, d1 ++ d2 ++ d3, ?_, ?_, ?_⟩
  · rw [h10, h13]
  · rw [checkclib_congr _ _ _ h9, h5]
  · rw [h10, h6, h2]; simp [List.append_assoc]
  · rw [opensOf_append, opensOf_append, h3, h7, h11]; rfl
  · rw [h9, h8, h4, opened_append, opened_append, h12]; simp [List.append_assoc]

theorem library_opened_once_witness :
    checkclib freshState "./mylib-v2.so".toList = none ∧
    mylibWorld.lsys_load "./mylib-v2.so".toList (isWildcard "luaopen_x".toList) = .ok 7 ∧
    lookforfunc mylibWorld "./mylib-v2.so".toList "*".toList
        (lookups mylibWorld [("./other.so".toList, "*".toList)]
          (lookforfunc mylibWorld "./mylib-v2.so".toList "luaopen_x".toList freshState).2.2)
      = lookforfunc_sym mylibWorld 7 "*".toList
        (lookups mylibWorld [("./other.so".toList, "*".toList)]
          (lookforfunc mylibWorld "./mylib-v2.so".toList "luaopen_x".toList freshState).2.2) ∧
    (lookforfunc mylibWorld "./mylib-v2.so".toList "*".toList
        (lookups mylibWorld [("./other.so".toList, "*".toList)]
          (lookforfunc mylibWorld "./mylib-v2.so".toList "luaopen_x".toList freshState).2.2)).2.2.trace
      = [.lsys_load "./mylib-v2.so".toList false (some 7),
         .lsys_sym 7 "luaopen_x".toList none,
         .lsys_load "./other.so".toList true none] :=
  ⟨rfl, rfl,
   (library_opened_once mylibWorld "./mylib-v2.so".toList "luaopen_x".toList "*".toList
      [("./other.so".toList, "*".toList)] freshState 7 rfl rfl).1,
   rfl⟩




/-! ## Lemmas on the log of `findloader` -/

theorem loaderCalls_append (a b : List Event) :
    loaderCalls (a ++ b) = loaderCalls a ++ loaderCalls b := by
  simp [loaderCalls, List.filter_append]

theorem quiet_refl (s : State) : Quiet s s := ⟨[], by simp, rfl⟩

theorem quiet_trans {s s1 s2 : State} (h1 : Quiet s s1) (h2 : Quiet s1 s2) : Quiet s s2 := by
  obtain ⟨d1, e1, q1⟩ := h1
  obtain ⟨d2, e2, q2⟩ := h2
  exact ⟨d1 ++ d2, by rw [e2, e1, List.append_assoc], by rw [loaderCalls_append, q1, q2]; rfl⟩

theorem quiet_of_trace_eq {s s1 : State} (h : s1.trace = s.trace) : Quiet s s1 :=
  ⟨[], by simp [h], rfl⟩

theorem quiet_log (s : State) (e : Event) (h : loaderCalls [e] = []) : Quiet s (s.log e) :=
  ⟨[e], rfl, h⟩

theorem quiet_loaderCalls {s s1 : State} (h : Quiet s s1) :
    loaderCalls s1.trace = loaderCalls s.trace := by
  obtain ⟨d, e, q⟩ := h
  rw [e, loaderCalls_append, q, List.append_nil]

theorem loaderCalls_fopen (l : List CStr) : loaderCalls (l.map Event.fopen) = [] := by
  induction l with
  | nil => rfl
  | cons a as ih =>
    rw [List.map_cons]
    have : loaderCalls (Event.fopen a :: as.map Event.fopen)
        = loaderCalls [Event.fopen a] ++ loaderCalls (as.map Event.fopen) := by
      rw [← loaderCalls_append]; rfl
    rw [this, ih]; rfl

theorem searchpath_quiet (w : World) (name path sep dirsep : CStr) (s : State) :
    Quiet s (searchpath w name path sep dirsep s).2 := by
  have hspec := searchOutcome_spec w (candidates name path sep dirsep) [] s
  rw [← searchpath_eq] at hspec
  obtain ⟨hok, herr⟩ := hspec
  cases hres : (searchpath w name path sep dirsep s).1 with
  | ok f =>
    obtain ⟨pre, post, _, _, _, h4⟩ := hok f _ (by rw [← hres])
    rw [h4]
    exact ⟨_, rfl, loaderCalls_fopen _⟩
  | error m =>
    obtain ⟨_, _, h3⟩ := herr m _ (by rw [← hres])
    rw [h3]
    exact ⟨_, rfl, loaderCalls_fopen _⟩

theorem findfile_quiet (w : World) (name pname dirsep : CStr) (s s1 : State)
    (h : (findfile w name pname dirsep s).state? = some s1) : Quiet s s1 := by
  unfold findfile at h
  split at h
  · simp only [Res.state?, Option.some.injEq] at h
    rw [← h]; exact quiet_refl s
  · rename_i path _
    simp only [Res.state?, Option.some.injEq] at h
    rw [← h]
    exact searchpath_quiet w name path ['.'] dirsep s

theorem findfile_ne_timeout (w : World) (name pname dirsep : CStr) (s : State) :
    findfile w name pname dirsep s ≠ .timeout := by
  unfold findfile
  split <;> simp

theorem lookforfunc_sym_quiet (w : World) (reg : Nat) (sym : CStr) (s : State) :
    Quiet s (lookforfunc_sym w reg sym s).2.2 := by
  obtain ⟨_, d, h2, _, _, h5⟩ := lookforfunc_sym_effect w reg sym s []
  refine ⟨d, h2, ?_⟩
  rw [h5]
  split <;> rfl

theorem lookforfunc_quiet (w : World) (path sym : CStr) (s : State) :
    Quiet s (lookforfunc w path sym s).2.2 := by
  unfold lookforfunc
  cases checkclib s path with
  | some reg => exact lookforfunc_sym_quiet w reg sym s
  | none =>
    simp only [lsys_load]
    cases w.lsys_load path (isWildcard sym) with
    | error msg => exact quiet_log s _ rfl
    | ok reg =>
      simp only
      refine quiet_trans (quiet_log s (.lsys_load path (isWildcard sym) (some reg)) rfl) ?_
      exact quiet_trans (quiet_of_trace_eq rfl) (lookforfunc_sym_quiet w reg sym _)

theorem loadfunc_quiet (w : World) (filename modname : CStr) (s : State) :
    Quiet s (loadfunc w filename modname s).2.2 := by
  unfold loadfunc
  simp only
  split
  · split
    · exact lookforfunc_quiet w filename _ s
    · exact quiet_trans (lookforfunc_quiet w filename _ s) (lookforfunc_quiet w filename _ _)
  · exact lookforfunc_quiet w filename _ s

theorem checkload_state (name : CStr) (stat : Bool) (top : Value) (filename : CStr)
    (s s1 : State) (h : (checkload name stat top filename s).state? = some s1) : s1 = s := by
  unfold checkload at h
  split at h <;> simp [Res.state?] at h <;> exact h.symm

theorem checkload_ne_timeout (name : CStr) (stat : Bool) (top : Value) (filename : CStr)
    (s : State) : checkload name stat top filename s ≠ .timeout := by
  unfold checkload
  split <;> simp

theorem luaL_loadfile_quiet (w : World) (filename : CStr) (s : State) :
    Quiet s (luaL_loadfile w filename s).2.2 := by
  unfold luaL_loadfile
  cases w.luaL_loadfile filename <;> exact quiet_log s _ rfl

theorem searcher_preload_quiet (name : CStr) (s s1 : State)
    (h : (searcher_preload name s).state? = some s1) : Quiet s s1 := by
  unfold searcher_preload at h
  split at h <;> simp [Res.state?] at h <;> rw [← h] <;> exact quiet_refl s

theorem searcher_Lua_quiet (w : World) (name : CStr) (s s1 : State)
    (h : (searcher_Lua w name s).state? = some s1) : Quiet s s1 := by
  unfold searcher_Lua at h
  cases hf : findfile w name "path".toList w.LUA_DIRSEP s with
  | timeout => exact absurd hf (findfile_ne_timeout _ _ _ _ _)
  | error e s0 =>
    rw [hf] at h
    simp only [Res.state?, Option.some.injEq] at h
    rw [← h]
    exact findfile_quiet w _ _ _ s s0 (by rw [hf]; rfl)
  | ok r s0 =>
    have hq := findfile_quiet w _ _ _ s s0 (by rw [hf]; rfl)
    rw [hf] at h
    cases r with
    | error msg =>
      simp only [Res.state?, Option.some.injEq] at h
      rw [← h]; exact hq
    | ok filename =>
      simp only at h
      have := checkload_state _ _ _ _ _ _ h
      rw [this]
      exact quiet_trans hq (luaL_loadfile_quiet w filename s0)

theorem searcher_C_quiet (w : World) (name : CStr) (s s1 : State)
    (h : (searcher_C w name s).state? = some s1) : Quiet s s1 := by
  unfold searcher_C at h
  cases hf : findfile w name "cpath".toList w.LUA_DIRSEP s with
  | timeout => exact absurd hf (findfile_ne_timeout _ _ _ _ _)
  | error e s0 =>
    rw [hf] at h
    simp only [Res.state?, Option.some.injEq] at h
    rw [← h]
    exact findfile_quiet w _ _ _ s s0 (by rw [hf]; rfl)
  | ok r s0 =>
    have hq := findfile_quiet w _ _ _ s s0 (by rw [hf]; rfl)
    rw [hf] at h
    cases r with
    | error msg =>
      simp only [Res.state?, Option.some.injEq] at h
      rw [← h]; exact hq
    | ok filename =>
      simp only at h
      have := checkload_state _ _ _ _ _ _ h
      rw [this]
      exact quiet_trans hq (loadfunc_quiet w filename name s0)

theorem searcher_Croot_quiet (w : World) (name : CStr) (s s1 : State)
    (h : (searcher_Croot w name s).state? = some s1) : Quiet s s1 := by
  unfold searcher_Croot at h
  split at h
  · simp only [Res.state?, Option.some.injEq] at h
    rw [← h]; exact quiet_refl s
  · cases hf : findfile w (name.takeWhile (fun c => c != '.')) "cpath".toList w.LUA_DIRSEP s with
    | timeout => exact absurd hf (findfile_ne_timeout _ _ _ _ _)
    | error e s0 =>
      rw [hf] at h
      simp only [Res.state?, Option.some.injEq] at h
      rw [← h]
      exact findfile_quiet w _ _ _ s s0 (by rw [hf]; rfl)
    | ok r s0 =>
      have hq := findfile_quiet w _ _ _ s s0 (by rw [hf]; rfl)
      rw [hf] at h
      cases r with
      | error msg =>
        simp only [Res.state?, Option.some.injEq] at h
        rw [← h]; exact hq
      | ok filename =>
        simp only at h
        have hl := loadfunc_quiet w filename name s0
        split at h
        · split at h
          · have := checkload_state _ _ _ _ _ _ h
            rw [this]
            exact quiet_trans hq hl
          · simp only [Res.state?, Option.some.injEq] at h
            rw [← h]; exact quiet_trans hq hl
        · simp only [Res.state?, Option.some.injEq] at h
          rw [← h]; exact quiet_trans hq hl




theorem searcher_preload_ne_timeout (name : CStr) (s : State) :
    searcher_preload name s ≠ .timeout := by
  unfold searcher_preload
  split <;> simp

theorem searcher_Lua_ne_timeout (w : World) (name : CStr) (s : State) :
    searcher_Lua w name s ≠ .timeout := by
  unfold searcher_Lua
  cases hf : findfile w name "path".toList w.LUA_DIRSEP s with
  | timeout => exact absurd hf (findfile_ne_timeout _ _ _ _ _)
  | error e s0 => simp
  | ok r s0 =>
    cases r with
    | error msg => simp
    | ok filename => exact checkload_ne_timeout _ _ _ _ _

theorem searcher_C_ne_timeout (w : World) (name : CStr) (s : State) :
    searcher_C w name s ≠ .timeout := by
  unfold searcher_C
  cases hf : findfile w name "cpath".toList w.LUA_DIRSEP s with
  | timeout => exact absurd hf (findfile_ne_timeout _ _ _ _ _)
  | error e s0 => simp
  | ok r s0 =>
    cases r with
    | error msg => simp
    | ok filename => exact checkload_ne_timeout _ _ _ _ _

theorem searcher_Croot_ne_timeout (w : World) (name : CStr) (s : State) :
    searcher_Croot w name s ≠ .timeout := by
  unfold searcher_Croot
  split
  · simp
  · cases hf : findfile w (name.takeWhile (fun c => c != '.')) "cpath".toList w.LUA_DIRSEP s with
    | timeout => exact absurd hf (findfile_ne_timeout _ _ _ _ _)
    | error e s0 => simp
    | ok r s0 =>
      cases r with
      | error msg => simp
      | ok filename =>
        simp only
        split
        · split
          · exact checkload_ne_timeout _ _ _ _ _
          · simp
        · simp

theorem passOn_state (n : Nat) (r : Res (List Value)) : (passOn n r).state? = r.state? := by
  cases r <;> rfl

theorem passOn_ne_timeout (n : Nat) (r : Res (List Value)) (h : r ≠ .timeout) :
    passOn n r ≠ .timeout := by
  cases r <;> simp_all [passOn]

theorem passOn_ok_length (n : Nat) (r : Res (List Value)) (vals : List Value) (s : State)
    (h : passOn n r = .ok vals s) : vals.length = n := by
  cases r <;> simp [passOn] at h
  rw [← h.1]
  simp [adjust]

/-- The cases of `lua_call`. -/
theorem lua_call_cases (w : World) (f : Value) (args : List Value) (n : Nat) (s : State) :
    (∃ name, lua_call w f args n s
        = passOn n (searcher_preload name (s.log (.lua_call f args n)))) ∨
    (∃ name, lua_call w f args n s
        = passOn n (searcher_Lua w name (s.log (.lua_call f args n)))) ∨
    (∃ name, lua_call w f args n s
        = passOn n (searcher_C w name (s.log (.lua_call f args n)))) ∨
    (∃ name, lua_call w f args n s
        = passOn n (searcher_Croot w name (s.log (.lua_call f args n)))) ∨
    lua_call w f args n s =
      (match w.call f args s.lua with
       | .ret vals l => .ok (adjust n vals) { s.log (.lua_call f args n) with lua := l }
       | .raise e l => .error e { s.log (.lua_call f args n) with lua := l }) := by
  unfold lua_call
  simp only
  split
  · exact Or.inl ⟨_, rfl⟩
  · exact Or.inr (Or.inl ⟨_, rfl⟩)
  · exact Or.inr (Or.inr (Or.inl ⟨_, rfl⟩))
  · exact Or.inr (Or.inr (Or.inr (Or.inl ⟨_, rfl⟩)))
  · exact Or.inr (Or.inr (Or.inr (Or.inr rfl)))

theorem lua_call_ne_timeout (w : World) (f : Value) (args : List Value) (n : Nat) (s : State) :
    lua_call w f args n s ≠ .timeout := by
  rcases lua_call_cases w f args n s with ⟨name, h⟩ | ⟨name, h⟩ | ⟨name, h⟩ | ⟨name, h⟩ | h
  · rw [h]; exact passOn_ne_timeout _ _ (searcher_preload_ne_timeout _ _)
  · rw [h]; exact passOn_ne_timeout _ _ (searcher_Lua_ne_timeout _ _ _)
  · rw [h]; exact passOn_ne_timeout _ _ (searcher_C_ne_timeout _ _ _)
  · rw [h]; exact passOn_ne_timeout _ _ (searcher_Croot_ne_timeout _ _ _)
  · rw [h]; cases w.call f args s.lua <;> simp

theorem lua_call_ok_length (w : World) (f : Value) (args : List Value) (n : Nat)
    (s s1 : State) (vals : List Value) (h : lua_call w f args n s = .ok vals s1) :
    vals.length = n := by
  rcases lua_call_cases w f args n s with ⟨name, hc⟩ | ⟨name, hc⟩ | ⟨name, hc⟩ | ⟨name, hc⟩ | hc
  · rw [hc] at h; exact passOn_ok_length _ _ _ _ h
  · rw [hc] at h; exact passOn_ok_length _ _ _ _ h
  · rw [hc] at h; exact passOn_ok_length _ _ _ _ h
  · rw [hc] at h; exact passOn_ok_length _ _ _ _ h
  · rw [hc] at h
    cases hw : w.call f args s.lua with
    | ret vals2 l =>
      rw [hw] at h
      simp only [Res.ok.injEq] at h
      rw [← h.1]; simp [adjust]
    | raise e l => rw [hw] at h; simp at h

/-- After the event of the call itself, `lua_call` logs no loader call. -/
theorem lua_call_quiet (w : World) (f : Value) (args : List Value) (n : Nat) (s s1 : State)
    (h : (lua_call w f args n s).state? = some s1) :
    Quiet (s.log (.lua_call f args n)) s1 := by
  rcases lua_call_cases w f args n s with ⟨name, hc⟩ | ⟨name, hc⟩ | ⟨name, hc⟩ | ⟨name, hc⟩ | hc
  · rw [hc, passOn_state] at h; exact searcher_preload_quiet _ _ _ h
  · rw [hc, passOn_state] at h; exact searcher_Lua_quiet _ _ _ _ h
  · rw [hc, passOn_state] at h; exact searcher_C_quiet _ _ _ _ h
  · rw [hc, passOn_state] at h; exact searcher_Croot_quiet _ _ _ _ h
  · rw [hc] at h
    cases hw : w.call f args s.lua with
    | ret vals2 l =>
      rw [hw] at h
      simp only [Res.state?, Option.some.injEq] at h
      rw [← h]; exact quiet_of_trace_eq rfl
    | raise e l =>
      rw [hw] at h
      simp only [Res.state?, Option.some.injEq] at h
      rw [← h]; exact quiet_of_trace_eq rfl

theorem list_of_length_two (vals : List Value) (h : vals.length = 2) :
    vals = [vals.getD 0 .nil, vals.getD 1 .nil] := by
  match vals, h with
  | [a, b], _ => rfl

/-- What a successful `findloader` loop returns: the two results of a call of
an entry of the searchers table, the first of them a function; and the loop
logs no loader call. -/
theorem findloader_loop_ok (w : World) (name : CStr) (t : Nat) (fuel : Nat) :
    ∀ (i : Nat) (msg : CStr) (s s1 : State) (f aux : Value),
      findloader_loop w name t fuel i msg s = .ok (f, aux) s1 →
      Quiet s s1 ∧ lua_isfunction f = true ∧
      ∃ j sb, Quiet s sb ∧ lua_call w (sb.lua.rawgeti t j) [.string name] 2 sb = .ok [f, aux] s1 := by
  induction fuel with
  | zero => intro i msg s s1 f aux h; simp [findloader_loop] at h
  | succ k ih =>
    intro i msg s s1 f aux h
    unfold findloader_loop at h
    split at h
    · simp at h
    · rename_i fn hfn
      cases hc : lua_call w (s.lua.rawgeti t i) [.string name] 2 s with
      | timeout => exact absurd hc (lua_call_ne_timeout _ _ _ _ _)
      | error e s0 => rw [hc] at h; simp at h
      | ok vals s0 =>
        rw [hc] at h
        simp only at h
        have hq0 : Quiet s s0 :=
          quiet_trans (quiet_log s (.lua_call (s.lua.rawgeti t i) [.string name] 2) rfl)
            (lua_call_quiet w _ _ _ s s0 (by rw [hc]; rfl))
        split at h
        · rename_i hfun
          simp only [Res.ok.injEq, Prod.mk.injEq] at h
          obtain ⟨⟨h1, h2⟩, h3⟩ := h
          subst h3
          refine ⟨hq0, by rw [← h1]; exact hfun, i, s, quiet_refl s, ?_⟩
          rw [hc, ← h1, ← h2, ← list_of_length_two vals (lua_call_ok_length _ _ _ _ _ _ _ hc)]
        · split at h
          · obtain ⟨h1, h2, j, sb, h3, h4⟩ := ih _ _ _ _ _ _ h
            exact ⟨quiet_trans hq0 h1, h2, j, sb, quiet_trans hq0 h3, h4⟩
          · obtain ⟨h1, h2, j, sb, h3, h4⟩ := ih _ _ _ _ _ _ h
            exact ⟨quiet_trans hq0 h1, h2, j, sb, quiet_trans hq0 h3, h4⟩




theorem findfile_ok_readable (w : World) (name pname dirsep filename : CStr) (s s0 : State)
    (h : findfile w name pname dirsep s = .ok (.ok filename) s0) : w.readable filename = true := by
  unfold findfile at h
  split at h
  · simp at h
  · rename_i path _
    simp only [Res.ok.injEq] at h
    have hspec := searchOutcome_spec w (candidates name path ['.'] dirsep) [] s
    rw [← searchpath_eq] at hspec
    obtain ⟨pre, post, _, _, h3, _⟩ := hspec.1 filename (searchpath w name path ['.'] dirsep s).2
      (by rw [← h.1])
    exact h3

theorem adjust_two (a b : Value) : adjust 2 [a, b] = [a, b] := rfl

theorem adjust_one (a : Value) : adjust 2 [a] = [a, .nil] := rfl

theorem adjust_none : adjust 2 [] = [.nil, .nil] := rfl

theorem searcher_Lua_found (w : World) (name : CStr) (s s1 : State) (f aux : Value)
    (h : passOn 2 (searcher_Lua w name s) = .ok [f, aux] s1) (hf : lua_isfunction f = true) :
    ∃ filename s0, findfile w name "path".toList w.LUA_DIRSEP s = .ok (.ok filename) s0 ∧
      aux = .string filename ∧ w.readable filename = true := by
  unfold searcher_Lua at h
  cases hff : findfile w name "path".toList w.LUA_DIRSEP s with
  | timeout => exact absurd hff (findfile_ne_timeout _ _ _ _ _)
  | error e s0 => rw [hff] at h; simp [passOn] at h
  | ok r s0 =>
    rw [hff] at h
    cases r with
    | error msg =>
      simp only [passOn, adjust_one, Res.ok.injEq, List.cons.injEq] at h
      rw [← h.1.1] at hf
      simp [lua_isfunction] at hf
    | ok filename =>
      refine ⟨filename, s0, rfl, ?_, findfile_ok_readable _ _ _ _ _ _ _ hff⟩
      simp only [checkload] at h
      split at h
      · simp only [passOn, adjust_two, Res.ok.injEq, List.cons.injEq] at h
        exact h.1.2.1.symm
      · simp [passOn] at h

theorem searcher_C_found (w : World) (name : CStr) (s s1 : State) (f aux : Value)
    (h : passOn 2 (searcher_C w name s) = .ok [f, aux] s1) (hf : lua_isfunction f = true) :
    ∃ filename s0, findfile w name "cpath".toList w.LUA_DIRSEP s = .ok (.ok filename) s0 ∧
      aux = .string filename ∧ w.readable filename = true := by
  unfold searcher_C at h
  cases hff : findfile w name "cpath".toList w.LUA_DIRSEP s with
  | timeout => exact absurd hff (findfile_ne_timeout _ _ _ _ _)
  | error e s0 => rw [hff] at h; simp [passOn] at h
  | ok r s0 =>
    rw [hff] at h
    cases r with
    | error msg =>
      simp only [passOn, adjust_one, Res.ok.injEq, List.cons.injEq] at h
      rw [← h.1.1] at hf
      simp [lua_isfunction] at hf
    | ok filename =>
      refine ⟨filename, s0, rfl, ?_, findfile_ok_readable _ _ _ _ _ _ _ hff⟩
      simp only [checkload] at h
      split at h
      · simp only [passOn, adjust_two, Res.ok.injEq, List.cons.injEq] at h
        exact h.1.2.1.symm
      · simp [passOn] at h

theorem searcher_Croot_found (w : World) (name : CStr) (s s1 : State) (f aux : Value)
    (h : passOn 2 (searcher_Croot w name s) = .ok [f, aux] s1) (hf : lua_isfunction f = true) :
    ∃ filename s0,
      findfile w (name.takeWhile (fun c => c != '.')) "cpath".toList w.LUA_DIRSEP s
        = .ok (.ok filename) s0 ∧
      aux = .string filename ∧ w.readable filename = true := by
  unfold searcher_Croot at h
  split at h
  · simp only [passOn, adjust_none, Res.ok.injEq, List.cons.injEq] at h
    rw [← h.1.1] at hf
    simp [lua_isfunction] at hf
  · cases hff : findfile w (name.takeWhile (fun c => c != '.')) "cpath".toList w.LUA_DIRSEP s with
    | timeout => exact absurd hff (findfile_ne_timeout _ _ _ _ _)
    | error e s0 => rw [hff] at h; simp [passOn] at h
    | ok r s0 =>
      rw [hff] at h
      cases r with
      | error msg =>
        simp only [passOn, adjust_one, Res.ok.injEq, List.cons.injEq] at h
        rw [← h.1.1] at hf
        simp [lua_isfunction] at hf
      | ok filename =>
        refine ⟨filename, s0, rfl, ?_, findfile_ok_readable _ _ _ _ _ _ _ hff⟩
        simp only at h
        split at h
        · split at h
          · simp [checkload, passOn] at h
          · simp only [passOn, adjust_one, Res.ok.injEq, List.cons.injEq] at h
            rw [← h.1.1] at hf
            simp [lua_isfunction] at hf
        · simp only [passOn, adjust_two, Res.ok.injEq, List.cons.injEq] at h
          exact h.1.2.1.symm

/-- Unfolding of `ll_require` after a cache miss and a successful `findloader`. -/
theorem ll_require_after_find (w : World) (fuel : Nat) (name : CStr) (s s1 : State)
    (f aux : Value)
    (hmiss : lua_toboolean (s.lua.loaded name) = false)
    (hfind : findloader w fuel name s = .ok (f, aux) s1) :
    ∀ s2, (ll_require w fuel name s).state? = some s2 →
      ∃ s3, (lua_call w f [.string name, aux] 1 s1).state? = some s3 ∧ s2.trace = s3.trace := by
  intro s2 h
  unfold ll_require at h
  simp only [hmiss, hfind, Bool.false_eq_true, if_false] at h
  cases hc : lua_call w f [.string name, aux] 1 s1 with
  | timeout => exact absurd hc (lua_call_ne_timeout _ _ _ _ _)
  | error e s3 =>
    rw [hc] at h
    simp only [Res.state?, Option.some.injEq] at h
    exact ⟨s3, rfl, by rw [h]⟩
  | ok vals s3 =>
    rw [hc] at h
    refine ⟨s3, rfl, ?_⟩
    simp only at h
    split at h
    · simp only [Res.state?, Option.some.injEq] at h
      rw [← h]
      simp only [setloaded]
      split <;> rfl
    · simp only [Res.state?, Option.some.injEq] at h
      rw [← h]
      split <;> rfl

theorem ll_require_ne_timeout_after_find (w : World) (fuel : Nat) (name : CStr) (s s1 : State)
    (f aux : Value)
    (hmiss : lua_toboolean (s.lua.loaded name) = false)
    (hfind : findloader w fuel name s = .ok (f, aux) s1) :
    ∃ s2, (ll_require w fuel name s).state? = some s2 := by
  unfold ll_require
  simp only [hmiss, hfind, Bool.false_eq_true, if_false]
  cases hc : lua_call w f [.string name, aux] 1 s1 with
  | timeout => exact absurd hc (lua_call_ne_timeout _ _ _ _ _)
  | error e s3 => exact ⟨s3, rfl⟩
  | ok vals s3 =>
    simp only
    split
    · exact ⟨_, rfl⟩
    · exact ⟨_, rfl⟩




/-! ## The loader call of `require` -/

/-- C4: after a cache miss, when `findloader` returns the loader `f` and the
extra value `aux`: `f` is a function and `f`, `aux` are the two results of the
call of a searcher of the table `package.searchers`; when that searcher is the
source, the native or the native-root searcher, `aux` is the string of the
readable file that `findfile` resolved; and `require` ends with one more
loader call in the log than it started with, the call of `f` with the two
arguments `name` and `aux`, in this order. -/
theorem require_calls_loader (w : World) (fuel : Nat) (name : CStr) (s s1 : State)
    (f aux : Value)
    (hmiss : lua_toboolean (s.lua.loaded name) = false)
    (hfind : findloader w fuel name s = .ok (f, aux) s1) :
    lua_isfunction f = true ∧
    (∃ t j sb, package_getfield s.lua "searchers".toList = .table t ∧
      lua_call w (sb.lua.rawgeti t j) [.string name] 2 sb = .ok [f, aux] s1 ∧
      (sb.lua.rawgeti t j = .function .searcher_Lua →
        ∃ filename s0,
          findfile w name "path".toList w.LUA_DIRSEP
            (sb.log (.lua_call (.function .searcher_Lua) [.string name] 2))
            = .ok (.ok filename) s0 ∧
          aux = .string filename ∧ w.readable filename = true) ∧
      (sb.lua.rawgeti t j = .function .searcher_C →
        ∃ filename s0,
          findfile w name "cpath".toList w.LUA_DIRSEP
            (sb.log (.lua_call (.function .searcher_C) [.string name] 2))
            = .ok (.ok filename) s0 ∧
          aux = .string filename ∧ w.readable filename = true) ∧
      (sb.lua.rawgeti t j = .function .searcher_Croot →
        ∃ filename s0,
          findfile w (name.takeWhile (fun c => c != '.')) "cpath".toList w.LUA_DIRSEP
            (sb.log (.lua_call (.function .searcher_Croot) [.string name] 2))
            = .ok (.ok filename) s0 ∧
          aux = .string filename ∧ w.readable filename = true)) ∧
    (∃ s2, (ll_require w fuel name s).state? = some s2 ∧
      loaderCalls s2.trace
        = loaderCalls s.trace ++ [.lua_call f [.string name, aux] 1]) := by
  have hloop : ∃ t, package_getfield s.lua "searchers".toList = .table t ∧
      findloader_loop w name t fuel 1 [] s = .ok (f, aux) s1 := by
    unfold findloader at hfind
    split at hfind
    · rename_i t ht
      exact ⟨t, ht, hfind⟩
    · simp at hfind
  obtain ⟨t, ht, hl⟩ := hloop
  obtain ⟨hq, hf, j, sb, _, hcall⟩ := findloader_loop_ok w name t fuel 1 [] s s1 f aux hl
  refine ⟨hf, ⟨t, j, sb, ht, hcall, ?_, ?_, ?_⟩, ?_⟩
  · intro hs
    rw [hs] at hcall
    exact searcher_Lua_found w name _ s1 f aux hcall hf
  · intro hs
    rw [hs] at hcall
    exact searcher_C_found w name _ s1 f aux hcall hf
  · intro hs
    rw [hs] at hcall
    exact searcher_Croot_found w name _ s1 f aux hcall hf
  · obtain ⟨s2, h2⟩ := ll_require_ne_timeout_after_find w fuel name s s1 f aux hmiss hfind
    obtain ⟨s3, h3, h4⟩ := ll_require_after_find w fuel name s s1 f aux hmiss hfind s2 h2
    refine ⟨s2, h2, ?_⟩
    rw [h4, quiet_loaderCalls (lua_call_quiet w f _ 1 s1 s3 h3)]
    simp only [State.log]
    rw [loaderCalls_append, quiet_loaderCalls hq]
    rfl

theorem require_calls_loader_witness :
    lua_toboolean (freshState.lua.loaded "foo".toList) = false ∧
    findloader fooWorld 2 "foo".toList freshState
      = .ok (.function (.chunk 1), .string "./foo/init.src".toList)
          { freshState with trace := fooSearch } ∧
    (∃ s2, (ll_require fooWorld 2 "foo".toList freshState).state? = some s2 ∧
      loaderCalls s2.trace
        = loaderCalls freshState.trace ++
          [.lua_call (.function (.chunk 1))
            [.string "foo".toList, .string "./foo/init.src".toList] 1]) :=
  ⟨rfl, rfl,
   (require_calls_loader fooWorld 2 "foo".toList freshState { freshState with trace := fooSearch }
      (.function (.chunk 1)) (.string "./foo/init.src".toList) rfl rfl).2.2⟩

/-! ## Template parsing -/

theorem pushedTemplates_eq (fuel : Nat) :
    ∀ path : CStr, path.length < fuel → pushedTemplates fuel path = templates path := by
  induction fuel with
  | zero => intro path h; omega
  | succ n ih =>
    intro path h
    unfold pushedTemplates
    cases hp : pushnexttemplate path with
    | none => rw [pushnexttemplate_none path hp]
    | some tl =>
      obtain ⟨t, l⟩ := tl
      obtain ⟨ht, hl⟩ := pushnexttemplate_some path t l hp
      simp only [ht]
      rw [ih l (by omega)]

theorem templates_of_separators (path : CStr) (h : ∀ c ∈ path, c = LUA_PATH_SEP) :
    templates path = [] := by
  induction path with
  | nil => exact templates_nil
  | cons c cs ih =>
    have hc : c = LUA_PATH_SEP := h c (by simp)
    subst hc
    rw [templates_sep_cons]
    exact ih (fun x hx => h x (List.mem_cons_of_mem _ hx))

theorem searchpath_trace_take (w : World) (name path sep dirsep : CStr) (s : State) :
    ∃ n, (searchpath w name path sep dirsep s).2.trace
      = s.trace ++ ((candidates name path sep dirsep).take n).map Event.fopen := by
  have hspec := searchOutcome_spec w (candidates name path sep dirsep) [] s
  rw [← searchpath_eq] at hspec
  obtain ⟨hok, herr⟩ := hspec
  cases hres : (searchpath w name path sep dirsep s).1 with
  | ok f =>
    obtain ⟨pre, post, h1, _, _, h4⟩ := hok f _ (by rw [← hres])
    refine ⟨pre.length + 1, ?_⟩
    rw [h4, h1]
    have : (pre ++ f :: post).take (pre.length + 1) = pre ++ [f] := by
      rw [List.take_append_eq_append_take]
      simp
    rw [this]
  | error m =>
    obtain ⟨_, _, h3⟩ := herr m _ (by rw [← hres])
    refine ⟨(candidates name path sep dirsep).length, ?_⟩
    rw [h3, List.take_length]

theorem searchOutcome_split (w : World) (pre : List CStr) (f : CStr) (post : List CStr) :
    ∀ (msg : CStr) (s : State), (∀ c ∈ pre, w.readable c = false) → w.readable f = true →
      searchOutcome w (pre ++ f :: post) msg s
        = (.ok f, { s with trace := s.trace ++ (pre ++ [f]).map Event.fopen }) := by
  induction pre with
  | nil =>
    intro msg s _ hf
    rw [List.nil_append, searchOutcome_cons_pos w f post msg s hf]
    rfl
  | cons c cs ih =>
    intro msg s hpre hf
    rw [List.cons_append, searchOutcome_cons_neg w c _ msg s (hpre c (by simp)),
      ih _ _ (fun x hx => hpre x (List.mem_cons_of_mem _ hx)) hf]
    simp [State.log]

/-- C19: the templates that the repeated calls of `pushnexttemplate` push are
the non-empty pieces of the path between the separators ';', in order, for
every bound above the length of the path (so the iteration ends); none of them
is empty. `searchpath` expands exactly these, in order: when no expansion is
readable it probes the expansion of every piece once, in the order of the
pieces, and its text has one entry for each; when the expansion of a piece
is readable and those of the pieces before it are not, it probes the
expansions of the pieces up to that one, in order, and returns that
expansion; in every case the files probed are the expansions of the first few
pieces. A path that is empty or made of separators only gives no template
and no probe. For ";;a;;b;" the templates are "a" and "b", and the search
of "m" on ";;a?;;b?;" probes "am" and "bm". -/
theorem pushed_templates_are_segments (w : World) (name path sep dirsep : CStr) (s : State) :
    (∀ fuel, path.length < fuel →
      pushedTemplates fuel path
        = (path.splitOn ';').filter (fun t => !t.isEmpty)) ∧
    [] ∉ pushedTemplates (path.length + 1) path ∧
    (∃ n, (searchpath w name path sep dirsep s).2.trace
      = s.trace ++ ((pushedTemplates (path.length + 1) path).take n).map
          (fun t => Event.fopen (luaL_gsub t LUA_PATH_MARK (prepname name sep dirsep)))) ∧
    ((∀ c ∈ path, c = ';') →
      pushedTemplates (path.length + 1) path = [] ∧
      searchpath w name path sep dirsep s = (.error [], s)) ∧
    pushedTemplates 8 ";;a;;b;".toList = ["a".toList, "b".toList] ∧
    ((∀ t ∈ (path.splitOn ';').filter (fun t => !t.isEmpty),
        w.readable (luaL_gsub t LUA_PATH_MARK (prepname name sep dirsep)) = false) →
      searchpath w name path sep dirsep s
        = (.error ((((path.splitOn ';').filter (fun t => !t.isEmpty)).map
              (fun t => nofile (luaL_gsub t LUA_PATH_MARK (prepname name sep dirsep)))).flatten),
           ⟨s.lua, s.trace ++ ((path.splitOn ';').filter (fun t => !t.isEmpty)).map
              (fun t => Event.fopen (luaL_gsub t LUA_PATH_MARK (prepname name sep dirsep)))⟩)) ∧
    (∀ pre t post, (path.splitOn ';').filter (fun t => !t.isEmpty) = pre ++ t :: post →
      (∀ u ∈ pre, w.readable (luaL_gsub u LUA_PATH_MARK (prepname name sep dirsep)) = false) →
      w.readable (luaL_gsub t LUA_PATH_MARK (prepname name sep dirsep)) = true →
      searchpath w name path sep dirsep s
        = (.ok (luaL_gsub t LUA_PATH_MARK (prepname name sep dirsep)),
           ⟨s.lua, s.trace ++ (pre ++ [t]).map
              (fun u => Event.fopen (luaL_gsub u LUA_PATH_MARK (prepname name sep dirsep)))⟩)) ∧
    searchpath bareWorld "m".toList ";;a?;;b?;".toList ['.'] ['/'] freshState
      = (.error "\n\tno file 'am'\n\tno file 'bm'".toList,
         { freshState with trace := [.fopen "am".toList, .fopen "bm".toList] }) := by
  have hseg : (path.splitOn ';').filter (fun t => !t.isEmpty) = templates path := rfl
  refine ⟨fun fuel h => pushedTemplates_eq fuel path h, ?_, ?_, ?_, by rfl, ?_, ?_, by rfl⟩
  · rw [pushedTemplates_eq _ path (by omega)]
    simp [templates]
  · rw [pushedTemplates_eq _ path (by omega)]
    obtain ⟨n, hn⟩ := searchpath_trace_take w name path sep dirsep s
    refine ⟨n, ?_⟩
    rw [hn]
    simp only [candidates, List.map_take, List.map_map]
    rfl
  · intro h
    have ht := templates_of_separators path h
    refine ⟨by rw [pushedTemplates_eq _ path (by omega), ht], ?_⟩
    rw [searchpath_eq]
    simp [candidates, ht, searchOutcome_nil]
  · intro h
    rw [hseg] at h ⊢
    have hnone : (candidates name path sep dirsep).find? w.readable = none := by
      rw [List.find?_eq_none]
      intro c hc
      simp only [candidates, List.mem_map] at hc
      obtain ⟨u, hu, rfl⟩ := hc
      simp [h u hu]
    rw [searchpath_eq]
    unfold searchOutcome
    rw [hnone]
    simp only [candidates, List.map_map, List.nil_append]
    rfl
  · intro pre t post hsplit hpre ht
    rw [hseg] at hsplit
    rw [searchpath_eq]
    have hc : candidates name path sep dirsep
        = pre.map (fun u => luaL_gsub u LUA_PATH_MARK (prepname name sep dirsep))
          ++ luaL_gsub t LUA_PATH_MARK (prepname name sep dirsep)
            :: post.map (fun u => luaL_gsub u LUA_PATH_MARK (prepname name sep dirsep)) := by
      simp [candidates, hsplit]
    rw [hc, searchOutcome_split w _ _ _ [] s (by
      intro c hc2
      simp only [List.mem_map] at hc2
      obtain ⟨u, hu, rfl⟩ := hc2
      exact hpre u hu) ht]
    simp [List.map_map]

/-! ## Lemmas on failed lookups -/

/-- A lookup of a symbol that is not the wildcard, in a library that is at
hand or loads but does not export the symbol. -/
theorem lookforfunc_missing (w : World) (path sym : CStr) (s : State) (reg : Nat) (msg : CStr)
    (hw : isWildcard sym = false)
    (hlib : libraryOf w s path false = some reg)
    (hsym : w.lsys_sym reg sym = .error msg) :
    lookforfunc w path sym s = (ERRFUNC, .string msg, (lookforfunc w path sym s).2.2) ∧
    checkclib (lookforfunc w path sym s).2.2 path = some reg := by
  unfold lookforfunc
  unfold libraryOf at hlib
  cases hc : checkclib s path with
  | some r =>
    rw [hc] at hlib
    simp only [Option.some.injEq] at hlib
    subst hlib
    simp only
    rw [lookforfunc_sym_of_not_wildcard w r _ s hw, hsym]
    exact ⟨rfl, by rw [checkclib_log]; exact hc⟩
  | none =>
    rw [hc] at hlib
    simp only [hw, lsys_load]
    cases hl : w.lsys_load path false with
    | error m => rw [hl] at hlib; simp at hlib
    | ok r =>
      rw [hl] at hlib
      simp only [Option.some.injEq] at hlib
      subst hlib
      simp only
      rw [lookforfunc_sym_of_not_wildcard w r _ _ hw, hsym]
      exact ⟨rfl, by rw [checkclib_log, checkclib_addtoclib_self]⟩

/-- A lookup in a library that is not in CLIBS and does not load. -/
theorem lookforfunc_load_failure (w : World) (path sym : CStr) (s : State) (msg : CStr)
    (hc : checkclib s path = none) (hl : w.lsys_load path (isWildcard sym) = .error msg) :
    lookforfunc w path sym s
      = (ERRLIB, .string msg, s.log (.lsys_load path (isWildcard sym) none)) := by
  unfold lookforfunc
  simp only [hc, lsys_load, hl]

theorem libraryOf_of_checkclib (w : World) (s : State) (path : CStr) (g : Bool) (reg : Nat)
    (h : checkclib s path = some reg) : libraryOf w s path g = some reg := by
  simp [libraryOf, h]

/-! ## The retry of `loadfunc` -/

/-- C20: for a module name whose dot-normalised form contains the ignore mark
'-', with X the text before the first mark and Y the text after it: when the
library is at hand or loads and does not export "luaopen_X", the first lookup
ends with `ERRFUNC` and `loadfunc` is the lookup of "luaopen_Y" made after
it, the two symbols looked up being "luaopen_X" then "luaopen_Y"; when the
library is not in CLIBS and does not load, `loadfunc` ends with `ERRLIB` and
the loader's message right after the failed open, without any symbol lookup. -/
theorem loadfunc_retry (w : World) (filename m : CStr) (s : State)
    (hmark : '-' ∈ dotNormalised m) :
    (∀ reg msg, libraryOf w s filename false = some reg →
      w.lsys_sym reg
        ("luaopen_".toList ++ (dotNormalised m).takeWhile (fun c => c != '-')) = .error msg →
      (lookforfunc w filename
        ("luaopen_".toList ++ (dotNormalised m).takeWhile (fun c => c != '-')) s).1 = ERRFUNC ∧
      loadfunc w filename m s
        = lookforfunc w filename
            ("luaopen_".toList ++ ((dotNormalised m).dropWhile (fun c => c != '-')).drop 1)
            (lookforfunc w filename
              ("luaopen_".toList ++ (dotNormalised m).takeWhile (fun c => c != '-')) s).2.2 ∧
      (loadfunc w filename m s).1
        = (match w.lsys_sym reg
            ("luaopen_".toList ++ ((dotNormalised m).dropWhile (fun c => c != '-')).drop 1) with
           | .ok _ => 0
           | .error _ => ERRFUNC) ∧
      (loadfunc w filename m s).2.1
        = (match w.lsys_sym reg
            ("luaopen_".toList ++ ((dotNormalised m).dropWhile (fun c => c != '-')).drop 1) with
           | .ok f => .function (.cfunction f)
           | .error msg2 => .string msg2) ∧
      ∃ d, (loadfunc w filename m s).2.2.trace = s.trace ++ d ∧
        symLookups d =
          ["luaopen_".toList ++ (dotNormalised m).takeWhile (fun c => c != '-'),
           "luaopen_".toList ++ ((dotNormalised m).dropWhile (fun c => c != '-')).drop 1]) ∧
    (∀ msg, checkclib s filename = none → w.lsys_load filename false = .error msg →
      loadfunc w filename m s
        = (ERRLIB, .string msg, s.log (.lsys_load filename false none)) ∧
      symLookups [Event.lsys_load filename false none] = []) := by
  have hm : LUA_IGMARK ∈ dotNormalised m := hmark
  have hwX : isWildcard ("luaopen_".toList ++ (dotNormalised m).takeWhile (fun c => c != '-'))
      = false := isWildcard_POF _
  have hwY : isWildcard
      ("luaopen_".toList ++ ((dotNormalised m).dropWhile (fun c => c != '-')).drop 1)
      = false := isWildcard_POF _
  constructor
  · intro reg msg hlib hsym
    obtain ⟨h1, h2⟩ := lookforfunc_missing w filename
      ("luaopen_".toList ++ (dotNormalised m).takeWhile (fun c => c != '-')) s reg msg
      hwX hlib hsym
    have heq : loadfunc w filename m s
        = lookforfunc w filename
            ("luaopen_".toList ++ ((dotNormalised m).dropWhile (fun c => c != '-')).drop 1)
            (lookforfunc w filename
              ("luaopen_".toList ++ (dotNormalised m).takeWhile (fun c => c != '-')) s).2.2 := by
      have h1b : lookforfunc w filename
          (LUA_POF ++ (dotNormalised m).takeWhile (fun c => c != LUA_IGMARK)) s
          = (ERRFUNC, .string msg, (lookforfunc w filename
              (LUA_POF ++ (dotNormalised m).takeWhile (fun c => c != LUA_IGMARK)) s).2.2) := h1
      unfold loadfunc
      simp only [gsub_dots, hm, if_true]
      rw [h1b]
      simp
      rfl
    obtain ⟨d1, hd1, hd1s⟩ := lookforfunc_trace w filename
      ("luaopen_".toList ++ (dotNormalised m).takeWhile (fun c => c != '-')) s hwX
    rw [hlib] at hd1s
    obtain ⟨d2, hd2, hd2s⟩ := lookforfunc_trace w filename
      ("luaopen_".toList ++ ((dotNormalised m).dropWhile (fun c => c != '-')).drop 1)
      (lookforfunc w filename
        ("luaopen_".toList ++ (dotNormalised m).takeWhile (fun c => c != '-')) s).2.2 hwY
    rw [libraryOf_of_checkclib w _ filename false reg h2] at hd2s
    have hsecond := lookforfunc_cached w filename
      ("luaopen_".toList ++ ((dotNormalised m).dropWhile (fun c => c != '-')).drop 1) _ reg h2
    refine ⟨by rw [h1], heq, ?_, ?_, d1 ++ d2, ?_, ?_⟩
    · rw [heq, hsecond, lookforfunc_sym_of_not_wildcard w reg _ _ hwY]
      cases w.lsys_sym reg
        ("luaopen_".toList ++ ((dotNormalised m).dropWhile (fun c => c != '-')).drop 1) <;> rfl
    · rw [heq, hsecond, lookforfunc_sym_of_not_wildcard w reg _ _ hwY]
      cases w.lsys_sym reg
        ("luaopen_".toList ++ ((dotNormalised m).dropWhile (fun c => c != '-')).drop 1) <;> rfl
    · rw [heq, hd2, hd1, List.append_assoc]
    · rw [symLookups_append, hd1s, hd2s]
      rfl
  · intro msg hc hl
    refine ⟨?_, rfl⟩
    have h1 := lookforfunc_load_failure w filename
      (LUA_POF ++ (dotNormalised m).takeWhile (fun c => c != LUA_IGMARK)) s msg hc
      (by rw [isWildcard_POF]; exact hl)
    rw [isWildcard_POF] at h1
    unfold loadfunc
    simp only [gsub_dots, hm, if_true]
    rw [h1]
    simp [ERRLIB, ERRFUNC]

theorem loadfunc_retry_witness :
    '-' ∈ dotNormalised "x.y-v2".toList ∧
    libraryOf mylibWorld freshState "./mylib-v2.so".toList false = some 7 ∧
    mylibWorld.lsys_sym 7
      ("luaopen_".toList ++ (dotNormalised "x.y-v2".toList).takeWhile (fun c => c != '-'))
      = .error "undefined symbol".toList ∧
    (loadfunc mylibWorld "./mylib-v2.so".toList "x.y-v2".toList freshState).1 = ERRFUNC ∧
    (loadfunc mylibWorld "./mylib-v2.so".toList "x.y-v2".toList freshState).2.2.trace
      = [.lsys_load "./mylib-v2.so".toList false (some 7),
         .lsys_sym 7 "luaopen_x_y".toList none,
         .lsys_sym 7 "luaopen_v2".toList none] :=
  ⟨by decide, rfl, rfl,
   ((loadfunc_retry mylibWorld "./mylib-v2.so".toList "x.y-v2".toList freshState
      (by decide)).1 7 "undefined symbol".toList rfl rfl).2.2.1,
   rfl⟩

/-! ## `package.loadlib` -/

/-- C16, amended: for a symbol whose first character is not '*' (the test
of `lookforfunc` for the wildcard fails), `package.loadlib` returns
either the one value that is the function of the symbol, or the three values
nil, the message of the platform loader and a kind. When the library is not
in CLIBS and does not load, the message is that of `lsys_load` and the kind
is `LIB_FAIL` ("open", or "absent" in the build without dynamic loading);
when the library is at hand or loads and the symbol is not found, the message
is that of `lsys_sym` and the kind is "init"; so the kind is `LIB_FAIL`
exactly when the library could not be loaded and "init" exactly when it
loaded without the symbol. In the build without dynamic loading the result is
nil, `DLMSG` and "absent". -/
theorem loadlib_results (w : World) (path sym : CStr) (s : State)
    (hw : isWildcard sym = false)
    (hk : w.LIB_FAIL = "open".toList ∨ w.LIB_FAIL = "absent".toList) :
    ((∃ f, (ll_loadlib w path sym s).1 = [.function (.cfunction f)]) ∨
      (∃ msg kind, (ll_loadlib w path sym s).1 = [.nil, .string msg, .string kind])) ∧
    (∀ msg, checkclib s path = none → w.lsys_load path false = .error msg →
      (ll_loadlib w path sym s).1 = [.nil, .string msg, .string w.LIB_FAIL]) ∧
    (∀ reg msg, libraryOf w s path false = some reg → w.lsys_sym reg sym = .error msg →
      (ll_loadlib w path sym s).1 = [.nil, .string msg, .string "init".toList]) ∧
    (∀ reg f, libraryOf w s path false = some reg → w.lsys_sym reg sym = .ok f →
      (ll_loadlib w path sym s).1 = [.function (.cfunction f)]) ∧
    ((∃ msg, (ll_loadlib w path sym s).1 = [.nil, .string msg, .string w.LIB_FAIL]) ↔
      libraryOf w s path false = none) ∧
    ((∃ msg, (ll_loadlib w path sym s).1 = [.nil, .string msg, .string "init".toList]) ↔
      ∃ reg msg, libraryOf w s path false = some reg ∧ w.lsys_sym reg sym = .error msg) ∧
    (ll_loadlib stubWorld path sym freshState).1
      = [.nil, .string DLMSG, .string "absent".toList] := by
  have hne : w.LIB_FAIL ≠ "init".toList := by
    rcases hk with hk | hk <;> rw [hk] <;> decide
  have hfail : ∀ msg, checkclib s path = none → w.lsys_load path false = .error msg →
      (ll_loadlib w path sym s).1 = [.nil, .string msg, .string w.LIB_FAIL] := by
    intro msg hc hl
    unfold ll_loadlib
    rw [lookforfunc_load_failure w path sym s msg hc (by rw [hw]; exact hl)]
    simp [ERRLIB]
  have hinit : ∀ reg msg, libraryOf w s path false = some reg →
      w.lsys_sym reg sym = .error msg →
      (ll_loadlib w path sym s).1 = [.nil, .string msg, .string "init".toList] := by
    intro reg msg hlib hsym
    unfold ll_loadlib
    rw [(lookforfunc_missing w path sym s reg msg hw hlib hsym).1]
    simp [ERRFUNC, ERRLIB]
  have hfound : ∀ reg f, libraryOf w s path false = some reg → w.lsys_sym reg sym = .ok f →
      (ll_loadlib w path sym s).1 = [.function (.cfunction f)] := by
    intro reg f hlib hsym
    obtain ⟨d, h1, _⟩ := lookforfunc_found w path sym s reg f hw hlib hsym
    unfold ll_loadlib
    rw [h1]
  have hcases : (libraryOf w s path false = none ∧
        ∃ msg, checkclib s path = none ∧ w.lsys_load path false = .error msg) ∨
      (∃ reg, libraryOf w s path false = some reg) := by
    unfold libraryOf
    cases hc : checkclib s path with
    | some reg => exact Or.inr ⟨reg, rfl⟩
    | none =>
      cases hl : w.lsys_load path false with
      | error msg => exact Or.inl ⟨rfl, msg, rfl, rfl⟩
      | ok reg => exact Or.inr ⟨reg, rfl⟩
  refine ⟨?_, hfail, hinit, hfound, ⟨?_, ?_⟩, ⟨?_, ?_⟩, ?_⟩
  · rcases hcases with ⟨_, msg, hc, hl⟩ | ⟨reg, hlib⟩
    · exact Or.inr ⟨msg, _, hfail msg hc hl⟩
    · cases hsym : w.lsys_sym reg sym with
      | ok f => exact Or.inl ⟨f, hfound reg f hlib hsym⟩
      | error msg => exact Or.inr ⟨msg, _, hinit reg msg hlib hsym⟩
  · rintro ⟨msg, hr⟩
    rcases hcases with ⟨hnone, _⟩ | ⟨reg, hlib⟩
    · exact hnone
    · cases hsym : w.lsys_sym reg sym with
      | ok f => rw [hfound reg f hlib hsym] at hr; simp at hr
      | error m2 =>
        rw [hinit reg m2 hlib hsym] at hr
        simp only [List.cons.injEq, Value.string.injEq, and_true, true_and] at hr
        exact absurd hr.2.symm hne
  · intro hnone
    rcases hcases with ⟨_, msg, hc, hl⟩ | ⟨reg, hlib⟩
    · exact ⟨msg, hfail msg hc hl⟩
    · rw [hlib] at hnone; simp at hnone
  · rintro ⟨msg, hr⟩
    rcases hcases with ⟨_, m2, hc, hl⟩ | ⟨reg, hlib⟩
    · rw [hfail m2 hc hl] at hr
      simp only [List.cons.injEq, Value.string.injEq, and_true, true_and] at hr
      exact absurd hr.2 hne
    · cases hsym : w.lsys_sym reg sym with
      | ok f => rw [hfound reg f hlib hsym] at hr; simp at hr
      | error m2 => exact ⟨reg, m2, hlib, hsym⟩
  · rintro ⟨reg, msg, hlib, hsym⟩
    exact ⟨msg, hinit reg msg hlib hsym⟩
  · unfold ll_loadlib
    rw [lookforfunc_load_failure stubWorld path sym freshState DLMSG rfl rfl]
    rfl

theorem loadlib_results_witness :
    isWildcard "luaopen_x".toList = false ∧
    (mylibWorld.LIB_FAIL = "open".toList ∨ mylibWorld.LIB_FAIL = "absent".toList) ∧
    (ll_loadlib mylibWorld "./mylib-v2.so".toList "luaopen_x".toList freshState).1
      = [.nil, .string "undefined symbol".toList, .string "init".toList] ∧
    (ll_loadlib mylibWorld "./none.so".toList "luaopen_x".toList freshState).1
      = [.nil, .string "cannot open shared object file".toList, .string "open".toList] ∧
    (ll_loadlib mylibWorld "./mylib-v2.so".toList "luaopen_mylib".toList freshState).1
      = [.function (.cfunction 3)] :=
  ⟨rfl, Or.inl rfl,
   (loadlib_results mylibWorld "./mylib-v2.so".toList "luaopen_x".toList freshState rfl
      (Or.inl rfl)).2.2.1 7 "undefined symbol".toList rfl rfl,
   rfl, rfl⟩

/-! ## Lemmas on teardown -/

theorem acquired_append (a b : List Event) : acquired (a ++ b) = acquired a ++ acquired b := by
  simp [acquired, List.filterMap_append]

theorem closed_append (a b : List Event) : closed (a ++ b) = closed a ++ closed b := by
  simp [closed, List.filterMap_append]

theorem opened_eq_acquired (d : List Event) : opened d = (acquired d).map Value.lightuserdata := by
  induction d with
  | nil => rfl
  | cons e es ih =>
    have h1 : opened (e :: es) = opened [e] ++ opened es := by
      rw [← opened_append]; rfl
    have h2 : acquired (e :: es) = acquired [e] ++ acquired es := by
      rw [← acquired_append]; rfl
    rw [h1, h2, ih, List.map_append]
    congr 1
    cases e with
    | lsys_load p g lib => cases lib <;> rfl
    | _ => rfl

/-- One lookup adds to the list of CLIBS the handles of its successful opens
and closes nothing. -/
theorem lookforfunc_list (w : World) (q sym : CStr) (s : State) :
    ∃ d, (lookforfunc w q sym s).2.2.trace = s.trace ++ d ∧
      (lookforfunc w q sym s).2.2.lua.clibs_list = s.lua.clibs_list ++ opened d ∧
      closed d = [] := by
  unfold lookforfunc
  cases hc : checkclib s q with
  | some r =>
    simp only
    obtain ⟨h1, d, h2, _, h4, h5⟩ := lookforfunc_sym_effect w r sym s q
    refine ⟨d, h2, by rw [h1, h4]; simp, ?_⟩
    rw [h5]; split <;> rfl
  | none =>
    simp only [lsys_load]
    cases hl : w.lsys_load q (isWildcard sym) with
    | error msg =>
      exact ⟨[.lsys_load q (isWildcard sym) none], rfl, by simp [opened, State.log], rfl⟩
    | ok r =>
      simp only
      obtain ⟨h1, d, h2, _, h4, h5⟩ := lookforfunc_sym_effect w r sym
        (addtoclib (s.log (.lsys_load q (isWildcard sym) (some r))) q r) q
      refine ⟨.lsys_load q (isWildcard sym) (some r) :: d, ?_, ?_, ?_⟩
      · rw [h2]; simp [addtoclib, State.log]
      · have : opened (.lsys_load q (isWildcard sym) (some r) :: d)
            = opened [.lsys_load q (isWildcard sym) (some r)] ++ opened d := by
          rw [← opened_append]; rfl
        rw [h1, this, h4]
        simp [opened, addtoclib, State.log]
      · have : closed (.lsys_load q (isWildcard sym) (some r) :: d)
            = closed [.lsys_load q (isWildcard sym) (some r)] ++ closed d := by
          rw [← closed_append]; rfl
        rw [this, h5]
        split <;> rfl

theorem lookups_list (w : World) (reqs : List (CStr × CStr)) :
    ∀ s : State, ∃ d, (lookups w reqs s).trace = s.trace ++ d ∧
      (lookups w reqs s).lua.clibs_list = s.lua.clibs_list ++ opened d ∧ closed d = [] := by
  induction reqs with
  | nil => intro s; exact ⟨[], by simp [lookups], by simp [lookups, opened], rfl⟩
  | cons r rest ih =>
    intro s
    obtain ⟨q, sym⟩ := r
    obtain ⟨d1, h1, h2, h3⟩ := lookforfunc_list w q sym s
    obtain ⟨d2, h4, h5, h6⟩ := ih (lookforfunc w q sym s).2.2
    refine ⟨d1 ++ d2, ?_, ?_, ?_⟩
    · simp only [lookups]; rw [h4, h1, List.append_assoc]
    · simp only [lookups]; rw [h5, h2, opened_append, List.append_assoc]
    · rw [closed_append, h3, h6]; rfl

theorem foldl_unload (vs : List Value) :
    ∀ s : State,
      vs.foldl (fun st v => st.log (.lsys_unloadlib (lua_touserdata v))) s
        = { s with trace := s.trace ++
              vs.map (fun v => Event.lsys_unloadlib (lua_touserdata v)) } := by
  induction vs with
  | nil => intro s; simp
  | cons v rest ih =>
    intro s
    rw [List.foldl_cons, ih]
    simp [State.log]

theorem gctm_eq (s : State) :
    gctm s = { s with trace := s.trace ++
      s.lua.clibs_list.reverse.map (fun v => Event.lsys_unloadlib (lua_touserdata v)) } := by
  unfold gctm
  rw [foldl_unload]

theorem closed_unloads (hs : List Nat) :
    closed (hs.map (fun h => Event.lsys_unloadlib (some h))) = hs.map some := by
  induction hs with
  | nil => rfl
  | cons h rest ih =>
    rw [List.map_cons, List.map_cons]
    have : closed (Event.lsys_unloadlib (some h) :: rest.map (fun h => Event.lsys_unloadlib (some h)))
        = closed [Event.lsys_unloadlib (some h)]
          ++ closed (rest.map (fun h => Event.lsys_unloadlib (some h))) := by
      rw [← closed_append]; rfl
    rw [this, ih]; rfl

/-! ## Teardown -/

/-- C11: in a runtime whose list of CLIBS starts empty and whose life is a
series of lookups, with `d` the log of that life: the log that `gctm` adds is
one `lsys_unloadlib` for each handle acquired by a successful native open in
`d`, in the reverse of the order of acquisition, and nothing else; the
lookups themselves close nothing; `gctm` changes no table; and when no
library was opened `gctm` leaves the state as it is, without any close call. -/
theorem gctm_closes_in_reverse (w : World) (reqs : List (CStr × CStr)) (s : State)
    (hempty : s.lua.clibs_list = []) :
    ∃ d, (lookups w reqs s).trace = s.trace ++ d ∧ closed d = [] ∧
      (gctm (lookups w reqs s)).trace
        = s.trace ++ d ++ (acquired d).reverse.map (fun h => Event.lsys_unloadlib (some h)) ∧
      closed ((acquired d).reverse.map (fun h => Event.lsys_unloadlib (some h)))
        = (acquired d).reverse.map some ∧
      (gctm (lookups w reqs s)).lua = (lookups w reqs s).lua ∧
      (acquired d = [] → gctm (lookups w reqs s) = lookups w reqs s) ∧
      gctm s = s := by
  obtain ⟨d, h1, h2, h3⟩ := lookups_list w reqs s
  rw [hempty, List.nil_append, opened_eq_acquired] at h2
  have hg := gctm_eq (lookups w reqs s)
  rw [h2] at hg
  have hmap : ((acquired d).map Value.lightuserdata).reverse.map
        (fun v => Event.lsys_unloadlib (lua_touserdata v))
      = (acquired d).reverse.map (fun h => Event.lsys_unloadlib (some h)) := by
    rw [← List.map_reverse, List.map_map]
    rfl
  rw [hmap] at hg
  refine ⟨d, h1, h3, ?_, closed_unloads _, ?_, ?_, ?_⟩
  · rw [hg, h1]
  · rw [hg]
  · intro hnone
    rw [hg, hnone]
    simp
  · rw [gctm_eq, hempty]
    simp

theorem gctm_closes_in_reverse_witness :
    freshState.lua.clibs_list = [] ∧
    (gctm (lookups twoLibWorld
        [("./a.so".toList, "*".toList), ("./c.so".toList, "*".toList),
         ("./b.so".toList, "luaopen_b".toList), ("./a.so".toList, "luaopen_a".toList)]
        freshState)).trace
      = [.lsys_load "./a.so".toList true (some 7),
         .lsys_load "./c.so".toList true none,
         .lsys_load "./b.so".toList false (some 9),
         .lsys_sym 9 "luaopen_b".toList none,
         .lsys_sym 7 "luaopen_a".toList none,
         .lsys_unloadlib (some 9),
         .lsys_unloadlib (some 7)] ∧
    ∃ d, (lookups twoLibWorld
        [("./a.so".toList, "*".toList), ("./c.so".toList, "*".toList),
         ("./b.so".toList, "luaopen_b".toList), ("./a.so".toList, "luaopen_a".toList)]
        freshState).trace = freshState.trace ++ d ∧ closed d = [] :=
  ⟨rfl, rfl,
   (gctm_closes_in_reverse twoLibWorld
      [("./a.so".toList, "*".toList), ("./c.so".toList, "*".toList),
       ("./b.so".toList, "luaopen_b".toList), ("./a.so".toList, "luaopen_a".toList)]
      freshState rfl).imp (fun _ h => ⟨h.1, h.2.1⟩)⟩

/-! ## Lemmas on what the searchers of this file leave untouched -/

theorem luaCalls_append (a b : List Event) : luaCalls (a ++ b) = luaCalls a ++ luaCalls b := by
  simp [luaCalls, List.filter_append]

theorem searcherCalls_append (a b : List Event) :
    searcherCalls (a ++ b) = searcherCalls a ++ searcherCalls b := by
  simp [searcherCalls, List.filter_append]

theorem searcherCalls_of_luaCalls (d : List Event) (h : luaCalls d = []) :
    searcherCalls d = [] := by
  unfold searcherCalls
  unfold luaCalls at h
  rw [List.filter_eq_nil_iff] at h ⊢
  intro e he hp
  apply h e he
  cases e <;> simp_all

theorem luaCalls_fopen (l : List CStr) : luaCalls (l.map Event.fopen) = [] := by
  induction l with
  | nil => rfl
  | cons a as ih =>
    rw [List.map_cons]
    have : luaCalls (Event.fopen a :: as.map Event.fopen)
        = luaCalls [Event.fopen a] ++ luaCalls (as.map Event.fopen) := by
      rw [← luaCalls_append]; rfl
    rw [this, ih]; rfl

theorem inner_refl (s : State) : Inner s s := ⟨⟨[], by simp, rfl⟩, rfl⟩

theorem inner_trans {s s1 s2 : State} (h1 : Inner s s1) (h2 : Inner s1 s2) : Inner s s2 := by
  obtain ⟨⟨d1, e1, q1⟩, t1⟩ := h1
  obtain ⟨⟨d2, e2, q2⟩, t2⟩ := h2
  exact ⟨⟨d1 ++ d2, by rw [e2, e1, List.append_assoc], by rw [luaCalls_append, q1, q2]; rfl⟩,
    t2.trans t1⟩

theorem inner_log (s : State) (e : Event) (h : luaCalls [e] = []) : Inner s (s.log e) :=
  ⟨⟨[e], rfl, h⟩, rfl⟩

theorem inner_addtoclib (s : State) (p : CStr) (reg : Nat) : Inner s (addtoclib s p reg) :=
  ⟨⟨[], by simp [addtoclib], rfl⟩, rfl⟩

theorem inner_loaded {s s1 : State} (h : Inner s s1) : s1.lua.loaded = s.lua.loaded :=
  show (withoutCLIBS s1.lua).loaded = (withoutCLIBS s.lua).loaded from congrArg LuaState.loaded h.2

theorem inner_preload {s s1 : State} (h : Inner s s1) : s1.lua.preload = s.lua.preload :=
  show (withoutCLIBS s1.lua).preload = (withoutCLIBS s.lua).preload from congrArg LuaState.preload h.2

theorem inner_rawgeti {s s1 : State} (h : Inner s s1) : s1.lua.rawgeti = s.lua.rawgeti :=
  show (withoutCLIBS s1.lua).rawgeti = (withoutCLIBS s.lua).rawgeti from congrArg LuaState.rawgeti h.2

theorem inner_searchers {s s1 : State} (h : Inner s s1) : s1.lua.searchers = s.lua.searchers :=
  show (withoutCLIBS s1.lua).searchers = (withoutCLIBS s.lua).searchers from congrArg LuaState.searchers h.2

theorem inner_getfield {s s1 : State} (h : Inner s s1) (k : CStr) :
    package_getfield s1.lua k = package_getfield s.lua k := by
  have h1 := congrArg LuaState.path h.2
  have h2 := congrArg LuaState.cpath h.2
  have h3 := congrArg LuaState.searchers h.2
  simp only [withoutCLIBS] at h1 h2 h3
  simp [package_getfield, h1, h2, h3]

theorem inner_searcherCalls {s s1 : State} (h : Inner s s1) :
    searcherCalls s1.trace = searcherCalls s.trace := by
  obtain ⟨⟨d, e, q⟩, _⟩ := h
  rw [e, searcherCalls_append, searcherCalls_of_luaCalls d q, List.append_nil]

theorem searchpath_inner (w : World) (name path sep dirsep : CStr) (s : State) :
    Inner s (searchpath w name path sep dirsep s).2 := by
  have hspec := searchOutcome_spec w (candidates name path sep dirsep) [] s
  rw [← searchpath_eq] at hspec
  obtain ⟨hok, herr⟩ := hspec
  cases hres : (searchpath w name path sep dirsep s).1 with
  | ok f =>
    obtain ⟨pre, post, _, _, _, h4⟩ := hok f _ (by rw [← hres])
    rw [h4]
    exact ⟨⟨_, rfl, luaCalls_fopen _⟩, rfl⟩
  | error m =>
    obtain ⟨_, _, h3⟩ := herr m _ (by rw [← hres])
    rw [h3]
    exact ⟨⟨_, rfl, luaCalls_fopen _⟩, rfl⟩

theorem findfile_inner (w : World) (name pname dirsep : CStr) (s s1 : State)
    (h : (findfile w name pname dirsep s).state? = some s1) : Inner s s1 := by
  unfold findfile at h
  split at h
  · simp only [Res.state?, Option.some.injEq] at h
    rw [← h]; exact inner_refl s
  · rename_i path _
    simp only [Res.state?, Option.some.injEq] at h
    rw [← h]
    exact searchpath_inner w name path ['.'] dirsep s

theorem lookforfunc_sym_inner (w : World) (reg : Nat) (sym : CStr) (s : State) :
    Inner s (lookforfunc_sym w reg sym s).2.2 := by
  obtain ⟨h1, d, h2, _, _, h5⟩ := lookforfunc_sym_effect w reg sym s []
  refine ⟨⟨d, h2, ?_⟩, by rw [h1]⟩
  rw [h5]
  split <;> rfl

theorem lookforfunc_inner (w : World) (path sym : CStr) (s : State) :
    Inner s (lookforfunc w path sym s).2.2 := by
  unfold lookforfunc
  cases checkclib s path with
  | some reg => exact lookforfunc_sym_inner w reg sym s
  | none =>
    simp only [lsys_load]
    cases w.lsys_load path (isWildcard sym) with
    | error msg => exact inner_log s _ rfl
    | ok reg =>
      simp only
      refine inner_trans (inner_log s (.lsys_load path (isWildcard sym) (some reg)) rfl) ?_
      exact inner_trans (inner_addtoclib _ path reg) (lookforfunc_sym_inner w reg sym _)

theorem loadfunc_inner (w : World) (filename modname : CStr) (s : State) :
    Inner s (loadfunc w filename modname s).2.2 := by
  unfold loadfunc
  simp only
  split
  · split
    · exact lookforfunc_inner w filename _ s
    · exact inner_trans (lookforfunc_inner w filename _ s) (lookforfunc_inner w filename _ _)
  · exact lookforfunc_inner w filename _ s

theorem luaL_loadfile_inner (w : World) (filename : CStr) (s : State) :
    Inner s (luaL_loadfile w filename s).2.2 := by
  unfold luaL_loadfile
  cases w.luaL_loadfile filename <;> exact inner_log s _ rfl

theorem searcher_preload_inner (name : CStr) (s s1 : State)
    (h : (searcher_preload name s).state? = some s1) : Inner s s1 := by
  unfold searcher_preload at h
  split at h <;> simp [Res.state?] at h <;> rw [← h] <;> exact inner_refl s

theorem searcher_Lua_inner (w : World) (name : CStr) (s s1 : State)
    (h : (searcher_Lua w name s).state? = some s1) : Inner s s1 := by
  unfold searcher_Lua at h
  cases hf : findfile w name "path".toList w.LUA_DIRSEP s with
  | timeout => exact absurd hf (findfile_ne_timeout _ _ _ _ _)
  | error e s0 =>
    rw [hf] at h
    simp only [Res.state?, Option.some.injEq] at h
    rw [← h]
    exact findfile_inner w _ _ _ s s0 (by rw [hf]; rfl)
  | ok r s0 =>
    have hq := findfile_inner w _ _ _ s s0 (by rw [hf]; rfl)
    rw [hf] at h
    cases r with
    | error msg =>
      simp only [Res.state?, Option.some.injEq] at h
      rw [← h]; exact hq
    | ok filename =>
      simp only at h
      have := checkload_state _ _ _ _ _ _ h
      rw [this]
      exact inner_trans hq (luaL_loadfile_inner w filename s0)

theorem searcher_C_inner (w : World) (name : CStr) (s s1 : State)
    (h : (searcher_C w name s).state? = some s1) : Inner s s1 := by
  unfold searcher_C at h
  cases hf : findfile w name "cpath".toList w.LUA_DIRSEP s with
  | timeout => exact absurd hf (findfile_ne_timeout _ _ _ _ _)
  | error e s0 =>
    rw [hf] at h
    simp only [Res.state?, Option.some.injEq] at h
    rw [← h]
    exact findfile_inner w _ _ _ s s0 (by rw [hf]; rfl)
  | ok r s0 =>
    have hq := findfile_inner w _ _ _ s s0 (by rw [hf]; rfl)
    rw [hf] at h
    cases r with
    | error msg =>
      simp only [Res.state?, Option.some.injEq] at h
      rw [← h]; exact hq
    | ok filename =>
      simp only at h
      have := checkload_state _ _ _ _ _ _ h
      rw [this]
      exact inner_trans hq (loadfunc_inner w filename name s0)

theorem searcher_Croot_inner (w : World) (name : CStr) (s s1 : State)
    (h : (searcher_Croot w name s).state? = some s1) : Inner s s1 := by
  unfold searcher_Croot at h
  split at h
  · simp only [Res.state?, Option.some.injEq] at h
    rw [← h]; exact inner_refl s
  · cases hf : findfile w (name.takeWhile (fun c => c != '.')) "cpath".toList w.LUA_DIRSEP s with
    | timeout => exact absurd hf (findfile_ne_timeout _ _ _ _ _)
    | error e s0 =>
      rw [hf] at h
      simp only [Res.state?, Option.some.injEq] at h
      rw [← h]
      exact findfile_inner w _ _ _ s s0 (by rw [hf]; rfl)
    | ok r s0 =>
      have hq := findfile_inner w _ _ _ s s0 (by rw [hf]; rfl)
      rw [hf] at h
      cases r with
      | error msg =>
        simp only [Res.state?, Option.some.injEq] at h
        rw [← h]; exact hq
      | ok filename =>
        simp only at h
        have hl := loadfunc_inner w filename name s0
        split at h
        · split at h
          · have := checkload_state _ _ _ _ _ _ h
            rw [this]
            exact inner_trans hq hl
          · simp only [Res.state?, Option.some.injEq] at h
            rw [← h]; exact inner_trans hq hl
        · simp only [Res.state?, Option.some.injEq] at h
          rw [← h]; exact inner_trans hq hl

/-- The calls of the four searchers of this file, as `lua_call` runs them. -/
theorem lua_call_preload (w : World) (name : CStr) (rest : List Value) (n : Nat) (s : State) :
    lua_call w (.function .searcher_preload) (.string name :: rest) n s
      = passOn n (searcher_preload name
          (s.log (.lua_call (.function .searcher_preload) (.string name :: rest) n))) := rfl

theorem lua_call_Lua (w : World) (name : CStr) (rest : List Value) (n : Nat) (s : State) :
    lua_call w (.function .searcher_Lua) (.string name :: rest) n s
      = passOn n (searcher_Lua w name
          (s.log (.lua_call (.function .searcher_Lua) (.string name :: rest) n))) := rfl

theorem lua_call_C (w : World) (name : CStr) (rest : List Value) (n : Nat) (s : State) :
    lua_call w (.function .searcher_C) (.string name :: rest) n s
      = passOn n (searcher_C w name
          (s.log (.lua_call (.function .searcher_C) (.string name :: rest) n))) := rfl

theorem lua_call_Croot (w : World) (name : CStr) (rest : List Value) (n : Nat) (s : State) :
    lua_call w (.function .searcher_Croot) (.string name :: rest) n s
      = passOn n (searcher_Croot w name
          (s.log (.lua_call (.function .searcher_Croot) (.string name :: rest) n))) := rfl

/-- A call of one of the four searchers of this file makes no further call
and touches no table but CLIBS. -/
theorem lua_call_builtin_inner (w : World) (f : Value) (name : CStr) (n : Nat) (s s1 : State)
    (hf : isBuiltinSearcher f = true)
    (h : (lua_call w f [.string name] n s).state? = some s1) :
    Inner (s.log (.lua_call f [.string name] n)) s1 := by
  cases f with
  | function fn =>
    cases fn with
    | searcher_preload =>
      rw [lua_call_preload, passOn_state] at h
      exact searcher_preload_inner _ _ _ h
    | searcher_Lua =>
      rw [lua_call_Lua, passOn_state] at h
      exact searcher_Lua_inner _ _ _ _ h
    | searcher_C =>
      rw [lua_call_C, passOn_state] at h
      exact searcher_C_inner _ _ _ _ h
    | searcher_Croot =>
      rw [lua_call_Croot, passOn_state] at h
      exact searcher_Croot_inner _ _ _ _ h
    | cfunction p => simp [isBuiltinSearcher] at hf
    | chunk p => simp [isBuiltinSearcher] at hf
    | other p => simp [isBuiltinSearcher] at hf
  | _ => simp [isBuiltinSearcher] at hf

/-- Any call logs one `lua_call` event, its own. -/
theorem lua_call_calm (w : World) (f : Value) (args : List Value) (n : Nat) (s s1 : State)
    (h : (lua_call w f args n s).state? = some s1) :
    ∃ d, s1.trace = s.trace ++ .lua_call f args n :: d ∧ luaCalls d = [] := by
  have key : ∀ s0 : State, Inner (s.log (.lua_call f args n)) s0 →
      ∃ d, s0.trace = s.trace ++ .lua_call f args n :: d ∧ luaCalls d = [] := by
    intro s0 hi
    obtain ⟨⟨d, e, q⟩, _⟩ := hi
    exact ⟨d, by rw [e]; simp [State.log], q⟩
  rcases lua_call_cases w f args n s with ⟨name, hc⟩ | ⟨name, hc⟩ | ⟨name, hc⟩ | ⟨name, hc⟩ | hc
  · rw [hc, passOn_state] at h; exact key _ (searcher_preload_inner _ _ _ h)
  · rw [hc, passOn_state] at h; exact key _ (searcher_Lua_inner _ _ _ _ h)
  · rw [hc, passOn_state] at h; exact key _ (searcher_C_inner _ _ _ _ h)
  · rw [hc, passOn_state] at h; exact key _ (searcher_Croot_inner _ _ _ _ h)
  · rw [hc] at h
    cases hw : w.call f args s.lua with
    | ret vals2 l =>
      rw [hw] at h
      simp only [Res.state?, Option.some.injEq] at h
      exact ⟨[], by rw [← h]; simp [State.log], rfl⟩
    | raise e l =>
      rw [hw] at h
      simp only [Res.state?, Option.some.injEq] at h
      exact ⟨[], by rw [← h]; simp [State.log], rfl⟩

theorem lua_call_searcherCalls (w : World) (f : Value) (name : CStr) (s s1 : State)
    (h : (lua_call w f [.string name] 2 s).state? = some s1) :
    searcherCalls s1.trace
      = searcherCalls s.trace ++ [.lua_call f [.string name] 2] := by
  obtain ⟨d, e, q⟩ := lua_call_calm w f _ 2 s s1 h
  rw [e]
  have : s.trace ++ Event.lua_call f [.string name] 2 :: d
      = s.trace ++ [Event.lua_call f [.string name] 2] ++ d := by simp
  rw [this, searcherCalls_append, searcherCalls_append, searcherCalls_of_luaCalls d q,
    List.append_nil]
  rfl

/-! ## Lemmas on the order of the searchers -/

theorem findloader_loop_tried (w : World) (name : CStr) (t : Nat) (fuel : Nat) :
    ∀ (i : Nat) (msg : CStr) (s s1 : State) (f aux : Value),
      findloader_loop w name t fuel i msg s = .ok (f, aux) s1 →
      ∃ evs sb, Tried w name t i s evs sb ∧
        sb.lua.rawgeti t (i + evs.length) ≠ .nil ∧
        lua_call w (sb.lua.rawgeti t (i + evs.length)) [.string name] 2 sb = .ok [f, aux] s1 ∧
        lua_isfunction f = true ∧
        searcherCalls s1.trace = searcherCalls s.trace ++ evs
          ++ [.lua_call (sb.lua.rawgeti t (i + evs.length)) [.string name] 2] := by
  induction fuel with
  | zero => intro i msg s s1 f aux h; simp [findloader_loop] at h
  | succ k ih =>
    intro i msg s s1 f aux h
    unfold findloader_loop at h
    split at h
    · simp at h
    · rename_i fn hfn
      have hnn : s.lua.rawgeti t i ≠ .nil := fun e => hfn e
      cases hc : lua_call w (s.lua.rawgeti t i) [.string name] 2 s with
      | timeout => exact absurd hc (lua_call_ne_timeout _ _ _ _ _)
      | error e s0 => rw [hc] at h; simp at h
      | ok vals s0 =>
        rw [hc] at h
        simp only at h
        have hsc := lua_call_searcherCalls w _ name s s0 (by rw [hc]; rfl)
        have hrest : ∀ msg2, findloader_loop w name t k (i + 1) msg2 s0 = .ok (f, aux) s1 →
            lua_isfunction (vals.getD 0 .nil) = false →
            ∃ evs sb, Tried w name t i s evs sb ∧
              sb.lua.rawgeti t (i + evs.length) ≠ .nil ∧
              lua_call w (sb.lua.rawgeti t (i + evs.length)) [.string name] 2 sb
                = .ok [f, aux] s1 ∧
              lua_isfunction f = true ∧
              searcherCalls s1.trace = searcherCalls s.trace ++ evs
                ++ [.lua_call (sb.lua.rawgeti t (i + evs.length)) [.string name] 2] := by
          intro msg2 h2 hnf
          obtain ⟨evs, sb, h3, h4, h5, h6, h7⟩ := ih _ _ _ _ _ _ h2
          have hidx : i + (Event.lua_call (s.lua.rawgeti t i) [.string name] 2 :: evs).length
              = i + 1 + evs.length := by
            simp only [List.length_cons]; omega
          refine ⟨.lua_call (s.lua.rawgeti t i) [.string name] 2 :: evs, sb,
            Tried.step i s s0 sb vals evs hnn hc hnf h3, ?_, ?_, h6, ?_⟩
          · rw [hidx]; exact h4
          · rw [hidx]; exact h5
          · rw [hidx, h7, hsc]; simp
        split at h
        · rename_i hfun
          simp only [Res.ok.injEq, Prod.mk.injEq] at h
          obtain ⟨⟨h1, h2⟩, h3⟩ := h
          subst h3
          refine ⟨[], s, Tried.done i s, hnn, ?_, by rw [← h1]; exact hfun, ?_⟩
          · simp only [List.length_nil, Nat.add_zero]
            rw [hc, ← h1, ← h2, ← list_of_length_two vals (lua_call_ok_length _ _ _ _ _ _ _ hc)]
          · simp only [List.length_nil, Nat.add_zero, List.append_nil]
            exact hsc
        · rename_i hnf
          have hnf2 : lua_isfunction (vals.getD 0 .nil) = false := by
            cases hx : lua_isfunction (vals.getD 0 .nil)
            · rfl
            · exact absurd hx hnf
          split at h
          · exact hrest _ h hnf2
          · exact hrest _ h hnf2

/-- With the searchers of this file only, the unsuccessful tries leave the
searchers table as it was, and they are the calls of its entries in the order
of the indices. -/
theorem tried_builtin (w : World) (name : CStr) (t : Nat) (i : Nat) (s sb : State)
    (evs : List Event) (h : Tried w name t i s evs sb) :
    BuiltinTable t s.lua →
      sb.lua.rawgeti = s.lua.rawgeti ∧
      evs = (List.range evs.length).map
        (fun k => Event.lua_call (s.lua.rawgeti t (i + k)) [.string name] 2) := by
  induction h with
  | done i s => intro _; exact ⟨rfl, rfl⟩
  | step i s s1 s2 vals evs hnn hc hnf _ ih =>
    intro hb
    have hbi : isBuiltinSearcher (s.lua.rawgeti t i) = true := by
      rcases hb i with h | h
      · exact absurd h hnn
      · exact h
    have hin := lua_call_builtin_inner w _ name 2 s s1 hbi (by rw [hc]; rfl)
    have hr0 := inner_rawgeti hin
    have hr : s1.lua.rawgeti = s.lua.rawgeti := hr0
    have hb1 : BuiltinTable t s1.lua := by
      intro j; rw [hr]; exact hb j
    obtain ⟨h1, h2⟩ := ih hb1
    refine ⟨h1.trans hr, ?_⟩
    rw [List.length_cons, List.range_succ_eq_map, List.map_cons, List.map_map]
    congr 1
    rw [h2, List.length_map, List.length_range]
    apply List.map_congr_left
    intro k _
    simp only [Function.comp, hr]
    congr 2
    omega

theorem createsearcherstable_builtin (t : Nat) (l : LuaState) :
    BuiltinTable t (createsearcherstable t l) := by
  intro i
  simp only [createsearcherstable, if_true]
  match i with
  | 0 => exact Or.inl rfl
  | 1 => exact Or.inr rfl
  | 2 => exact Or.inr rfl
  | 3 => exact Or.inr rfl
  | 4 => exact Or.inr rfl
  | n + 5 => exact Or.inl rfl

/-! ## Lemmas on one step of `findloader` -/

theorem floop_nil (w : World) (name : CStr) (t fuel i : Nat) (acc : CStr) (s : State)
    (h : s.lua.rawgeti t i = .nil) :
    findloader_loop w name t (fuel + 1) i acc s = .error (.string (moduleNotFound name acc)) s := by
  unfold findloader_loop
  rw [h]
  rfl

theorem floop_error (w : World) (name : CStr) (t fuel i : Nat) (acc : CStr) (s s1 : State)
    (e : Value) (hnn : s.lua.rawgeti t i ≠ .nil)
    (hc : lua_call w (s.lua.rawgeti t i) [.string name] 2 s = .error e s1) :
    findloader_loop w name t (fuel + 1) i acc s = .error e s1 := by
  unfold findloader_loop
  split
  · rename_i h; exact absurd h hnn
  · rw [hc]

theorem floop_found (w : World) (name : CStr) (t fuel i : Nat) (acc : CStr) (s s1 : State)
    (f aux : Value) (hnn : s.lua.rawgeti t i ≠ .nil)
    (hc : lua_call w (s.lua.rawgeti t i) [.string name] 2 s = .ok [f, aux] s1)
    (hf : lua_isfunction f = true) :
    findloader_loop w name t (fuel + 1) i acc s = .ok (f, aux) s1 := by
  unfold findloader_loop
  split
  · rename_i h; exact absurd h hnn
  · rw [hc]
    simp [hf]

theorem floop_text (w : World) (name : CStr) (t fuel i : Nat) (acc txt : CStr) (s s1 : State)
    (f aux : Value) (hnn : s.lua.rawgeti t i ≠ .nil)
    (hc : lua_call w (s.lua.rawgeti t i) [.string name] 2 s = .ok [f, aux] s1)
    (hf : lua_isfunction f = false) (ht : lua_tostring f = some txt) :
    findloader_loop w name t (fuel + 1) i acc s
      = findloader_loop w name t fuel (i + 1) (acc ++ txt) s1 := by
  have hs : lua_isstring f = true := by
    cases f <;> simp_all [lua_tostring, lua_isstring]
  conv_lhs => unfold findloader_loop
  split
  · rename_i h; exact absurd h hnn
  · rw [hc]
    simp [hf, hs, ht, fmt_s]

theorem floop_skip (w : World) (name : CStr) (t fuel i : Nat) (acc : CStr) (s s1 : State)
    (f aux : Value) (hnn : s.lua.rawgeti t i ≠ .nil)
    (hc : lua_call w (s.lua.rawgeti t i) [.string name] 2 s = .ok [f, aux] s1)
    (hf : lua_isfunction f = false) (hs : lua_isstring f = false) :
    findloader_loop w name t (fuel + 1) i acc s
      = findloader_loop w name t fuel (i + 1) acc s1 := by
  conv_lhs => unfold findloader_loop
  split
  · rename_i h; exact absurd h hnn
  · rw [hc]
    simp [hf, hs]

/-! ## Lemmas on searchers that find nothing -/

theorem searchpath_none (w : World) (name path sep dirsep : CStr) (s : State)
    (h : ∀ c ∈ candidates name path sep dirsep, w.readable c = false) :
    searchpath w name path sep dirsep s
      = (.error (((candidates name path sep dirsep).map nofile).flatten),
         { s with trace := s.trace ++ (candidates name path sep dirsep).map Event.fopen }) := by
  have hnone : (candidates name path sep dirsep).find? w.readable = none := by
    rw [List.find?_eq_none]
    intro c hc
    simp [h c hc]
  rw [searchpath_eq, searchOutcome, hnone]
  simp only [List.nil_append]

theorem findfile_none (w : World) (name pname path : CStr) (s : State)
    (hp : lua_tostring (package_getfield s.lua pname) = some path)
    (h : ∀ c ∈ candidates name path ['.'] w.LUA_DIRSEP, w.readable c = false) :
    findfile w name pname w.LUA_DIRSEP s
      = .ok (.error (noFileLines w name path))
          { s with trace := s.trace ++
              (candidates name path ['.'] w.LUA_DIRSEP).map Event.fopen } := by
  unfold findfile
  rw [hp]
  simp only
  rw [searchpath_none w name path ['.'] w.LUA_DIRSEP s h]
  rfl

theorem call_preload_nil (w : World) (name : CStr) (s : State)
    (h : s.lua.preload name = .nil) :
    lua_call w (.function .searcher_preload) [.string name] 2 s
      = .ok [.string (noPreload name), .nil]
          (s.log (.lua_call (.function .searcher_preload) [.string name] 2)) := by
  rw [lua_call_preload]
  unfold searcher_preload
  have h2 : (s.log (.lua_call (.function .searcher_preload) [.string name] 2)).lua.preload name
      = .nil := h
  rw [h2]
  rfl

theorem call_preload_entry (w : World) (name : CStr) (s : State)
    (h : s.lua.preload name ≠ .nil) :
    lua_call w (.function .searcher_preload) [.string name] 2 s
      = .ok [s.lua.preload name, .nil]
          (s.log (.lua_call (.function .searcher_preload) [.string name] 2)) := by
  rw [lua_call_preload]
  unfold searcher_preload
  have h2 : (s.log (.lua_call (.function .searcher_preload) [.string name] 2)).lua.preload name
      = s.lua.preload name := rfl
  rw [h2]
  split
  · rename_i hn; exact absurd hn h
  · rfl

theorem call_Lua_none (w : World) (name p : CStr) (s : State)
    (hp : lua_tostring s.lua.path = some p)
    (h : ∀ c ∈ candidates name p ['.'] w.LUA_DIRSEP, w.readable c = false) :
    lua_call w (.function .searcher_Lua) [.string name] 2 s
      = .ok [.string (noFileLines w name p), .nil]
          { s with trace := s.trace ++
              .lua_call (.function .searcher_Lua) [.string name] 2 ::
                (candidates name p ['.'] w.LUA_DIRSEP).map Event.fopen } := by
  rw [lua_call_Lua]
  unfold searcher_Lua
  rw [findfile_none w name "path".toList p
    (s.log (.lua_call (.function .searcher_Lua) [.string name] 2)) hp h]
  simp [passOn, adjust_one, State.log]

theorem call_C_none (w : World) (name cp : CStr) (s : State)
    (hp : lua_tostring s.lua.cpath = some cp)
    (h : ∀ c ∈ candidates name cp ['.'] w.LUA_DIRSEP, w.readable c = false) :
    lua_call w (.function .searcher_C) [.string name] 2 s
      = .ok [.string (noFileLines w name cp), .nil]
          { s with trace := s.trace ++
              .lua_call (.function .searcher_C) [.string name] 2 ::
                (candidates name cp ['.'] w.LUA_DIRSEP).map Event.fopen } := by
  rw [lua_call_C]
  unfold searcher_C
  rw [findfile_none w name "cpath".toList cp
    (s.log (.lua_call (.function .searcher_C) [.string name] 2)) hp h]
  simp [passOn, adjust_one, State.log]

theorem call_Croot_nodot (w : World) (name : CStr) (s : State) (h : '.' ∉ name) :
    lua_call w (.function .searcher_Croot) [.string name] 2 s
      = .ok [.nil, .nil] (s.log (.lua_call (.function .searcher_Croot) [.string name] 2)) := by
  rw [lua_call_Croot]
  unfold searcher_Croot
  simp [h, passOn, adjust_none]

theorem call_Croot_none (w : World) (name cp : CStr) (s : State) (hdot : '.' ∈ name)
    (hp : lua_tostring s.lua.cpath = some cp)
    (h : ∀ c ∈ candidates (name.takeWhile (fun c => c != '.')) cp ['.'] w.LUA_DIRSEP,
      w.readable c = false) :
    lua_call w (.function .searcher_Croot) [.string name] 2 s
      = .ok [.string (noFileLines w (name.takeWhile (fun c => c != '.')) cp), .nil]
          { s with trace := s.trace ++
              .lua_call (.function .searcher_Croot) [.string name] 2 ::
                (candidates (name.takeWhile (fun c => c != '.')) cp ['.'] w.LUA_DIRSEP).map Event.fopen } := by
  rw [lua_call_Croot]
  unfold searcher_Croot
  rw [findfile_none w _ "cpath".toList cp
    (s.log (.lua_call (.function .searcher_Croot) [.string name] 2)) hp h]
  simp [hdot, passOn, adjust_one, State.log]

theorem package_getfield_searchers (l : LuaState) :
    package_getfield l "searchers".toList = l.searchers := by
  rfl

theorem findloader_eq_loop (w : World) (fuel : Nat) (name : CStr) (s : State) (t : Nat)
    (h : s.lua.searchers = .table t) :
    findloader w fuel name s = findloader_loop w name t fuel 1 [] s := by
  unfold findloader
  rw [package_getfield_searchers, h]

theorem ll_require_find_error (w : World) (fuel : Nat) (name : CStr) (s s1 : State) (e : Value)
    (hmiss : lua_toboolean (s.lua.loaded name) = false)
    (hfind : findloader w fuel name s = .error e s1) :
    ll_require w fuel name s = .error e s1 := by
  unfold ll_require
  simp [hmiss, hfind]

theorem fresh_entries (t : Nat) (l : LuaState) (h : FreshSearchers t l) :
    l.rawgeti t 1 = .function .searcher_preload ∧
    l.rawgeti t 2 = .function .searcher_Lua ∧
    l.rawgeti t 3 = .function .searcher_C ∧
    l.rawgeti t 4 = .function .searcher_Croot ∧
    l.rawgeti t 5 = .nil := by
  refine ⟨?_, ?_, ?_, ?_, ?_⟩ <;> rw [h.2] <;> simp [createsearcherstable]

/-- The run of `findloader` over the four searchers of this file when the
module is found nowhere. -/
theorem findloader_none (w : World) (fuel : Nat) (name p cp : CStr) (s : State) (t : Nat)
    (hfresh : FreshSearchers t s.lua)
    (hpre : s.lua.preload name = .nil)
    (hp : lua_tostring s.lua.path = some p)
    (hcp : lua_tostring s.lua.cpath = some cp)
    (h1 : ∀ c ∈ candidates name p ['.'] w.LUA_DIRSEP, w.readable c = false)
    (h2 : ∀ c ∈ candidates name cp ['.'] w.LUA_DIRSEP, w.readable c = false)
    (h3 : '.' ∈ name →
      ∀ c ∈ candidates (name.takeWhile (fun c => c != '.')) cp ['.'] w.LUA_DIRSEP,
        w.readable c = false) :
    ∃ s1, findloader w (fuel + 5) name s
        = .error (.string (moduleNotFound name (notFoundText w name p cp))) s1 ∧
      s1.lua = s.lua ∧
      searcherCalls s1.trace = searcherCalls s.trace ++
        [.lua_call (.function .searcher_preload) [.string name] 2,
         .lua_call (.function .searcher_Lua) [.string name] 2,
         .lua_call (.function .searcher_C) [.string name] 2,
         .lua_call (.function .searcher_Croot) [.string name] 2] := by
  obtain ⟨e1, e2, e3, e4, e5⟩ := fresh_entries t s.lua hfresh
  rw [findloader_eq_loop w _ name s t hfresh.1]
  -- the preload searcher
  obtain ⟨σ1, c1, l1⟩ : ∃ σ1 : State,
      lua_call w (.function .searcher_preload) [.string name] 2 s
        = .ok [.string (noPreload name), .nil] σ1 ∧ σ1.lua = s.lua :=
    ⟨_, call_preload_nil w name s hpre, rfl⟩
  have k1 := lua_call_searcherCalls w _ name s σ1 (by rw [c1]; rfl)
  rw [floop_text w name t (fuel + 4) 1 [] (noPreload name) s σ1 (.string (noPreload name)) .nil
    (by rw [e1]; simp) (by rw [e1]; exact c1) rfl rfl]
  -- the Lua searcher
  obtain ⟨σ2, c2, l2⟩ : ∃ σ2 : State,
      lua_call w (.function .searcher_Lua) [.string name] 2 σ1
        = .ok [.string (noFileLines w name p), .nil] σ2 ∧ σ2.lua = σ1.lua :=
    ⟨_, call_Lua_none w name p σ1 (by rw [l1]; exact hp) h1, rfl⟩
  have k2 := lua_call_searcherCalls w _ name σ1 σ2 (by rw [c2]; rfl)
  rw [floop_text w name t (fuel + 3) 2 _ (noFileLines w name p) σ1 σ2
    (.string (noFileLines w name p)) .nil
    (by rw [l1, e2]; simp) (by rw [l1, e2]; exact c2) rfl rfl]
  -- the C searcher
  obtain ⟨σ3, c3, l3⟩ : ∃ σ3 : State,
      lua_call w (.function .searcher_C) [.string name] 2 σ2
        = .ok [.string (noFileLines w name cp), .nil] σ3 ∧ σ3.lua = σ2.lua :=
    ⟨_, call_C_none w name cp σ2 (by rw [l2, l1]; exact hcp) h2, rfl⟩
  have k3 := lua_call_searcherCalls w _ name σ2 σ3 (by rw [c3]; rfl)
  rw [floop_text w name t (fuel + 2) 3 _ (noFileLines w name cp) σ2 σ3
    (.string (noFileLines w name cp)) .nil
    (by rw [l2, l1, e3]; simp) (by rw [l2, l1, e3]; exact c3) rfl rfl]
  have hl3 : σ3.lua = s.lua := by rw [l3, l2, l1]
  -- the C-root searcher
  by_cases hdot : '.' ∈ name
  · obtain ⟨σ4, c4, l4⟩ : ∃ σ4 : State,
        lua_call w (.function .searcher_Croot) [.string name] 2 σ3
          = .ok [.string (noFileLines w (name.takeWhile (fun c => c != '.')) cp), .nil] σ4 ∧
        σ4.lua = σ3.lua :=
      ⟨_, call_Croot_none w name cp σ3 hdot (by rw [hl3]; exact hcp) (h3 hdot), rfl⟩
    have k4 := lua_call_searcherCalls w _ name σ3 σ4 (by rw [c4]; rfl)
    rw [floop_text w name t (fuel + 1) 4 _ _ σ3 σ4
      (.string (noFileLines w (name.takeWhile (fun c => c != '.')) cp)) .nil
      (by rw [hl3, e4]; simp) (by rw [hl3, e4]; exact c4) rfl rfl]
    rw [floop_nil w name t fuel 5 _ σ4 (by rw [l4, hl3]; exact e5)]
    refine ⟨σ4, ?_, by rw [l4, hl3], ?_⟩
    · simp [notFoundText, hdot]
    · rw [k4, k3, k2, k1]; simp
  · obtain ⟨σ4, c4, l4⟩ : ∃ σ4 : State,
        lua_call w (.function .searcher_Croot) [.string name] 2 σ3 = .ok [.nil, .nil] σ4 ∧
        σ4.lua = σ3.lua :=
      ⟨_, call_Croot_nodot w name σ3 hdot, rfl⟩
    have k4 := lua_call_searcherCalls w _ name σ3 σ4 (by rw [c4]; rfl)
    rw [floop_skip w name t (fuel + 1) 4 _ σ3 σ4 .nil .nil
      (by rw [hl3, e4]; simp) (by rw [hl3, e4]; exact c4) rfl rfl]
    rw [floop_nil w name t fuel 5 _ σ4 (by rw [l4, hl3]; exact e5)]
    refine ⟨σ4, ?_, by rw [l4, hl3], ?_⟩
    · simp [notFoundText, hdot]
    · rw [k4, k3, k2, k1]; simp

/-! ## A module that is found nowhere -/

/-- C13, as stated, fails: in the fresh runtime with the single template
"./?.src" in `package.path`, `require "bar"` calls the four searchers and
fails with a text of three lines, not four: the C-root searcher returns
nothing for a name without a dot. -/
theorem require_not_found_three_lines :
    ∃ s1, ll_require bareWorld 5 "bar".toList oneTemplateState
        = .error (.string ("module 'bar' not found:\n\tno field package.preload['bar']"
            ++ "\n\tno file './bar.src'\n\tno file './bar.so'").toList) s1 ∧
      (searcherCalls s1.trace).length = 4 ∧
      (("module 'bar' not found:\n\tno field package.preload['bar']"
            ++ "\n\tno file './bar.src'\n\tno file './bar.so'").toList.count '\n') = 3 ∧
      searcher_Croot bareWorld "bar".toList oneTemplateState = .ok [] oneTemplateState :=
  ⟨_, rfl, rfl, by decide, rfl⟩

/-- C13, amended: in a runtime whose searchers are the four of
`createsearcherstable`, for a module name that is not loaded, not preloaded
and has no readable candidate file on `package.path` or `package.cpath`
(nor, for a name with a dot, one for the text before the first dot on
`package.cpath`), `require` fails, for every iteration budget of at least
five, with the error "module 'name' not found:" followed by the texts of the
searchers in order: the line of the preload searcher, one "no file" line for
each candidate of the Lua searcher, one for each candidate of the C searcher,
and from the C-root searcher nothing for a name without a dot and one line
for each candidate of the root otherwise. The four searchers are each called
once and no table changes. -/
theorem require_not_found (w : World) (fuel : Nat) (name p cp : CStr) (s : State) (t : Nat)
    (hfresh : FreshSearchers t s.lua)
    (hmiss : lua_toboolean (s.lua.loaded name) = false)
    (hpre : s.lua.preload name = .nil)
    (hp : lua_tostring s.lua.path = some p)
    (hcp : lua_tostring s.lua.cpath = some cp)
    (h1 : ∀ c ∈ candidates name p ['.'] w.LUA_DIRSEP, w.readable c = false)
    (h2 : ∀ c ∈ candidates name cp ['.'] w.LUA_DIRSEP, w.readable c = false)
    (h3 : '.' ∈ name →
      ∀ c ∈ candidates (name.takeWhile (fun c => c != '.')) cp ['.'] w.LUA_DIRSEP,
        w.readable c = false) :
    (∃ s1, ll_require w (fuel + 5) name s
        = .error (.string ("module '".toList ++ name ++ "' not found:".toList
            ++ notFoundText w name p cp)) s1 ∧
      s1.lua = s.lua ∧
      searcherCalls s1.trace = searcherCalls s.trace ++
        [.lua_call (.function .searcher_preload) [.string name] 2,
         .lua_call (.function .searcher_Lua) [.string name] 2,
         .lua_call (.function .searcher_C) [.string name] 2,
         .lua_call (.function .searcher_Croot) [.string name] 2]) ∧
    notFoundText w name p cp
      = "\n\tno field package.preload['".toList ++ name ++ "']".toList
        ++ ((candidates name p ['.'] w.LUA_DIRSEP).map
            (fun c => "\n\tno file '".toList ++ c ++ "'".toList)).flatten
        ++ ((candidates name cp ['.'] w.LUA_DIRSEP).map
            (fun c => "\n\tno file '".toList ++ c ++ "'".toList)).flatten
        ++ (if '.' ∈ name then
              ((candidates (name.takeWhile (fun c => c != '.')) cp ['.'] w.LUA_DIRSEP).map
                (fun c => "\n\tno file '".toList ++ c ++ "'".toList)).flatten
            else []) := by
  obtain ⟨s1, hf, hl, hs⟩ := findloader_none w fuel name p cp s t hfresh hpre hp hcp h1 h2 h3
  exact ⟨⟨s1, ll_require_find_error w _ name s s1 _ hmiss hf, hl, hs⟩, rfl⟩

theorem require_not_found_witness :
    FreshSearchers 0 freshState.lua ∧
    lua_toboolean (freshState.lua.loaded "a.b".toList) = false ∧
    freshState.lua.preload "a.b".toList = .nil ∧
    lua_tostring freshState.lua.path = some "./?.src;./?/init.src".toList ∧
    lua_tostring freshState.lua.cpath = some "./?.so".toList ∧
    (∃ s1, ll_require bareWorld 5 "a.b".toList freshState
        = .error (.string ("module '".toList ++ "a.b".toList ++ "' not found:".toList
            ++ notFoundText bareWorld "a.b".toList "./?.src;./?/init.src".toList
                "./?.so".toList)) s1 ∧
      s1.lua = freshState.lua ∧
      searcherCalls s1.trace = searcherCalls freshState.trace ++
        [.lua_call (.function .searcher_preload) [.string "a.b".toList] 2,
         .lua_call (.function .searcher_Lua) [.string "a.b".toList] 2,
         .lua_call (.function .searcher_C) [.string "a.b".toList] 2,
         .lua_call (.function .searcher_Croot) [.string "a.b".toList] 2]) ∧
    notFoundText bareWorld "a.b".toList "./?.src;./?/init.src".toList "./?.so".toList
      = ("\n\tno field package.preload['a.b']\n\tno file './a/b.src'"
          ++ "\n\tno file './a/b/init.src'\n\tno file './a/b.so'\n\tno file './a.so'").toList :=
  ⟨⟨rfl, fun _ => rfl⟩, rfl, rfl, rfl, rfl,
   (require_not_found bareWorld 0 "a.b".toList "./?.src;./?/init.src".toList "./?.so".toList
      freshState 0 ⟨rfl, fun _ => rfl⟩ rfl rfl rfl rfl (fun _ _ => rfl) (fun _ _ => rfl)
      (fun _ _ _ => rfl)).1,
   by rfl⟩

/-! ## Lemmas on a failed resolution -/

theorem builtinTable_of_inner {s s1 : State} (t : Nat) (hb : BuiltinTable t s.lua)
    (h : withoutCLIBS s1.lua = withoutCLIBS s.lua) : BuiltinTable t s1.lua := by
  have hr : s1.lua.rawgeti = s.lua.rawgeti :=
    show (withoutCLIBS s1.lua).rawgeti = (withoutCLIBS s.lua).rawgeti from
      congrArg LuaState.rawgeti h
  intro j; rw [hr]; exact hb j

/-- With the searchers of this file only, a failed `findloader` loop leaves
every table but CLIBS as it was. -/
theorem findloader_loop_error_tables (w : World) (name : CStr) (t : Nat) (fuel : Nat) :
    ∀ (i : Nat) (msg : CStr) (s s1 : State) (e : Value),
      BuiltinTable t s.lua →
      findloader_loop w name t fuel i msg s = .error e s1 →
      withoutCLIBS s1.lua = withoutCLIBS s.lua := by
  induction fuel with
  | zero => intro i msg s s1 e _ h; simp [findloader_loop] at h
  | succ k ih =>
    intro i msg s s1 e hb h
    unfold findloader_loop at h
    split at h
    · simp only [Res.error.injEq] at h
      rw [← h.2]
    · rename_i fn hfn
      have hbi : isBuiltinSearcher (s.lua.rawgeti t i) = true := by
        rcases hb i with h0 | h0
        · exact absurd h0 (fun e => hfn e)
        · exact h0
      cases hc : lua_call w (s.lua.rawgeti t i) [.string name] 2 s with
      | timeout => exact absurd hc (lua_call_ne_timeout _ _ _ _ _)
      | error e0 s0 =>
        rw [hc] at h
        simp only [Res.error.injEq] at h
        rw [← h.2]
        exact (lua_call_builtin_inner w _ name 2 s s0 hbi (by rw [hc]; rfl)).2
      | ok vals s0 =>
        rw [hc] at h
        simp only at h
        have hin := (lua_call_builtin_inner w _ name 2 s s0 hbi (by rw [hc]; rfl)).2
        have hin2 : withoutCLIBS s0.lua = withoutCLIBS s.lua := hin
        have hb0 := builtinTable_of_inner t hb hin2
        split at h
        · simp at h
        · split at h
          · exact (ih _ _ _ _ _ hb0 h).trans hin2
          · exact (ih _ _ _ _ _ hb0 h).trans hin2

/-- The loop of `findloader` only adds to the log. -/
theorem findloader_loop_extends (w : World) (name : CStr) (t : Nat) (fuel : Nat) :
    ∀ (i : Nat) (msg : CStr) (s s1 : State),
      (findloader_loop w name t fuel i msg s).state? = some s1 →
      ∃ d, s1.trace = s.trace ++ d := by
  induction fuel with
  | zero => intro i msg s s1 h; simp [findloader_loop, Res.state?] at h
  | succ k ih =>
    intro i msg s s1 h
    unfold findloader_loop at h
    split at h
    · simp only [Res.state?, Option.some.injEq] at h
      exact ⟨[], by rw [← h]; simp⟩
    · cases hc : lua_call w (s.lua.rawgeti t i) [.string name] 2 s with
      | timeout => exact absurd hc (lua_call_ne_timeout _ _ _ _ _)
      | error e0 s0 =>
        rw [hc] at h
        simp only [Res.state?, Option.some.injEq] at h
        obtain ⟨d, hd, _⟩ := lua_call_calm w _ _ 2 s s0 (by rw [hc]; rfl)
        exact ⟨_, by rw [← h, hd]⟩
      | ok vals s0 =>
        rw [hc] at h
        simp only at h
        obtain ⟨d, hd, _⟩ := lua_call_calm w _ _ 2 s s0 (by rw [hc]; rfl)
        split at h
        · simp only [Res.state?, Option.some.injEq] at h
          exact ⟨_, by rw [← h, hd]⟩
        · split at h
          · obtain ⟨d2, hd2⟩ := ih _ _ _ _ h
            exact ⟨_, by rw [hd2, hd, List.append_assoc]⟩
          · obtain ⟨d2, hd2⟩ := ih _ _ _ _ h
            exact ⟨_, by rw [hd2, hd, List.append_assoc]⟩

/-- A loop of `findloader` that starts at a non-nil entry first logs the call
of that entry. -/
theorem findloader_loop_first_call (w : World) (name : CStr) (t fuel i : Nat) (msg : CStr)
    (s s1 : State) (hnn : s.lua.rawgeti t i ≠ .nil)
    (h : (findloader_loop w name t (fuel + 1) i msg s).state? = some s1) :
    ∃ d, s1.trace = s.trace ++ .lua_call (s.lua.rawgeti t i) [.string name] 2 :: d := by
  unfold findloader_loop at h
  split at h
  · rename_i h0; exact absurd h0 hnn
  · cases hc : lua_call w (s.lua.rawgeti t i) [.string name] 2 s with
    | timeout => exact absurd hc (lua_call_ne_timeout _ _ _ _ _)
    | error e0 s0 =>
      rw [hc] at h
      simp only [Res.state?, Option.some.injEq] at h
      obtain ⟨d, hd, _⟩ := lua_call_calm w _ _ 2 s s0 (by rw [hc]; rfl)
      exact ⟨d, by rw [← h, hd]⟩
    | ok vals s0 =>
      rw [hc] at h
      simp only at h
      obtain ⟨d, hd, _⟩ := lua_call_calm w _ _ 2 s s0 (by rw [hc]; rfl)
      split at h
      · simp only [Res.state?, Option.some.injEq] at h
        exact ⟨d, by rw [← h, hd]⟩
      · split at h
        · obtain ⟨d2, hd2⟩ := findloader_loop_extends w name t fuel _ _ _ _ h
          exact ⟨d ++ d2, by rw [hd2, hd]; simp⟩
        · obtain ⟨d2, hd2⟩ := findloader_loop_extends w name t fuel _ _ _ _ h
          exact ⟨d ++ d2, by rw [hd2, hd]; simp⟩

/-- After a cache miss, the state in which `require` stops has the log of the
state in which `findloader` and the loader call stopped. -/
theorem ll_require_miss_trace (w : World) (fuel : Nat) (name : CStr) (s s2 : State)
    (hmiss : lua_toboolean (s.lua.loaded name) = false)
    (h : (ll_require w fuel name s).state? = some s2) :
    (∃ e, findloader w fuel name s = .error e s2) ∨
    (∃ f aux s1 s3, findloader w fuel name s = .ok (f, aux) s1 ∧
      (lua_call w f [.string name, aux] 1 s1).state? = some s3 ∧ s2.trace = s3.trace) := by
  cases hf : findloader w fuel name s with
  | timeout =>
    unfold ll_require at h
    simp [hmiss, hf, Res.state?] at h
  | error e s1 =>
    rw [ll_require_find_error w fuel name s s1 e hmiss hf] at h
    simp only [Res.state?, Option.some.injEq] at h
    exact Or.inl ⟨e, by rw [← h]⟩
  | ok fa s1 =>
    obtain ⟨f, aux⟩ := fa
    obtain ⟨s3, h3, h4⟩ := ll_require_after_find w fuel name s s1 f aux hmiss hf s2 h
    exact Or.inr ⟨f, aux, s1, s3, rfl, h3, h4⟩

/-! ## A failed resolution -/

/-- C17: in a runtime whose table `package.searchers` holds only searchers of
this file, when `findloader` fails for a module that is not loaded (every
searcher exhausted, or an error raised by a searcher): `require` fails with
that error; `package.loaded` is exactly as it was, with nil under the name if
nil was there and no true value in any case; the searchers table is as it
was; and a later `require` of the name is again a miss that starts
`findloader` at the index 1 with an empty message, so that the first thing
it logs is the call of the first searcher. -/
theorem require_failure_keeps_cache (w : World) (fuel fuel2 : Nat) (name : CStr)
    (s s1 : State) (e : Value) (t : Nat)
    (ht : s.lua.searchers = .table t) (hb : BuiltinTable t s.lua)
    (hmiss : lua_toboolean (s.lua.loaded name) = false)
    (hfail : findloader w fuel name s = .error e s1) :
    ll_require w fuel name s = .error e s1 ∧
    s1.lua.loaded = s.lua.loaded ∧
    (s.lua.loaded name = .nil → s1.lua.loaded name = .nil) ∧
    lua_toboolean (s1.lua.loaded name) = false ∧
    s1.lua.searchers = .table t ∧ s1.lua.rawgeti = s.lua.rawgeti ∧
    findloader w fuel2 name s1 = findloader_loop w name t fuel2 1 [] s1 ∧
    (∀ s2, s1.lua.rawgeti t 1 ≠ .nil →
      (ll_require w (fuel2 + 1) name s1).state? = some s2 →
      ∃ d, s2.trace = s1.trace ++ .lua_call (s1.lua.rawgeti t 1) [.string name] 2 :: d) := by
  have htab : withoutCLIBS s1.lua = withoutCLIBS s.lua := by
    rw [findloader_eq_loop w fuel name s t ht] at hfail
    exact findloader_loop_error_tables w name t fuel 1 [] s s1 e hb hfail
  have hl : s1.lua.loaded = s.lua.loaded :=
    show (withoutCLIBS s1.lua).loaded = (withoutCLIBS s.lua).loaded from
      congrArg LuaState.loaded htab
  have hs : s1.lua.searchers = s.lua.searchers :=
    show (withoutCLIBS s1.lua).searchers = (withoutCLIBS s.lua).searchers from
      congrArg LuaState.searchers htab
  have hr : s1.lua.rawgeti = s.lua.rawgeti :=
    show (withoutCLIBS s1.lua).rawgeti = (withoutCLIBS s.lua).rawgeti from
      congrArg LuaState.rawgeti htab
  have hmiss1 : lua_toboolean (s1.lua.loaded name) = false := by rw [hl]; exact hmiss
  refine ⟨ll_require_find_error w fuel name s s1 e hmiss hfail, hl, ?_, hmiss1,
    hs.trans ht, hr, findloader_eq_loop w fuel2 name s1 t (hs.trans ht), ?_⟩
  · intro hn; rw [hl]; exact hn
  · intro s2 hnn h2
    rcases ll_require_miss_trace w (fuel2 + 1) name s1 s2 hmiss1 h2 with
      ⟨e2, hf⟩ | ⟨f, aux, sa, sb, hf, hcall, htr⟩
    · rw [findloader_eq_loop w _ name s1 t (hs.trans ht)] at hf
      exact findloader_loop_first_call w name t fuel2 1 [] s1 s2 hnn (by rw [hf]; rfl)
    · rw [findloader_eq_loop w _ name s1 t (hs.trans ht)] at hf
      obtain ⟨d, hd⟩ := findloader_loop_first_call w name t fuel2 1 [] s1 sa hnn
        (by rw [hf]; rfl)
      obtain ⟨d2, hd2, _⟩ := lua_call_calm w f _ 1 sa sb hcall
      exact ⟨d ++ (.lua_call f [.string name, aux] 1 :: d2), by rw [htr, hd2, hd]; simp⟩

theorem require_failure_keeps_cache_witness :
    freshState.lua.searchers = .table 0 ∧
    BuiltinTable 0 freshState.lua ∧
    lua_toboolean (freshState.lua.loaded "bar".toList) = false ∧
    findloader bareWorld 5 "bar".toList freshState
      = .error (.string ("module 'bar' not found:\n\tno field package.preload['bar']"
          ++ "\n\tno file './bar.src'\n\tno file './bar/init.src'\n\tno file './bar.so'").toList)
          { freshState with trace := barSearch } ∧
    ll_require bareWorld 5 "bar".toList freshState
      = .error (.string ("module 'bar' not found:\n\tno field package.preload['bar']"
          ++ "\n\tno file './bar.src'\n\tno file './bar/init.src'\n\tno file './bar.so'").toList)
          { freshState with trace := barSearch } :=
  ⟨rfl, createsearcherstable_builtin 0 _, rfl, rfl,
   (require_failure_keeps_cache bareWorld 5 0 "bar".toList freshState
      { freshState with trace := barSearch } _ 0 rfl (createsearcherstable_builtin 0 _) rfl
      rfl).1⟩

/-! ## Lemmas on the C searchers after the file is found -/

theorem call_C_file (w : World) (name filename : CStr) (s s0 : State)
    (hfile : findfile w name "cpath".toList w.LUA_DIRSEP
      (s.log (.lua_call (.function .searcher_C) [.string name] 2)) = .ok (.ok filename) s0) :
    lua_call w (.function .searcher_C) [.string name] 2 s
      = passOn 2 (checkload name ((loadfunc w filename name s0).1 == 0)
          (loadfunc w filename name s0).2.1 filename (loadfunc w filename name s0).2.2) := by
  rw [lua_call_C]
  unfold searcher_C
  rw [hfile]

theorem call_Croot_file (w : World) (name filename : CStr) (s s0 : State) (hdot : '.' ∈ name)
    (hfile : findfile w (name.takeWhile (fun c => c != '.')) "cpath".toList w.LUA_DIRSEP
      (s.log (.lua_call (.function .searcher_Croot) [.string name] 2)) = .ok (.ok filename) s0) :
    lua_call w (.function .searcher_Croot) [.string name] 2 s
      = passOn 2
          (if (loadfunc w filename name s0).1 ≠ 0 then
            if (loadfunc w filename name s0).1 ≠ ERRFUNC then
              checkload name false (loadfunc w filename name s0).2.1 filename
                (loadfunc w filename name s0).2.2
            else .ok [.string (noModuleInFile name filename)] (loadfunc w filename name s0).2.2
           else .ok [(loadfunc w filename name s0).2.1, .string filename]
              (loadfunc w filename name s0).2.2) := by
  rw [lua_call_Croot]
  unfold searcher_Croot
  simp only [hdot, not_true_eq_false, if_false]
  rw [hfile]
  rfl

/-- When the library is at hand or loads and exports none of the symbols that
`loadfunc` looks up for the module, `loadfunc` ends with `ERRFUNC` and the
message of the last lookup. -/
theorem loadfunc_errfunc (w : World) (filename m : CStr) (s : State) (reg : Nat)
    (hlib : libraryOf w s filename false = some reg)
    (hnone : ∀ sym ∈ entrySymbols m, ∃ msg, w.lsys_sym reg sym = .error msg) :
    (loadfunc w filename m s).1 = ERRFUNC ∧
    ∃ msg, (loadfunc w filename m s).2.1 = .string msg ∧
      ∃ sym ∈ entrySymbols m, w.lsys_sym reg sym = .error msg := by
  by_cases hm : LUA_IGMARK ∈ dotNormalised m
  · have hm2 : '-' ∈ dotNormalised m := hm
    have hsyms : entrySymbols m
        = [LUA_POF ++ (dotNormalised m).takeWhile (fun c => c != LUA_IGMARK),
           LUA_POF ++ ((dotNormalised m).dropWhile (fun c => c != LUA_IGMARK)).drop 1] := by
      unfold entrySymbols
      rw [if_pos hm2]
      rfl
    obtain ⟨m1, h1⟩ := hnone (LUA_POF ++ (dotNormalised m).takeWhile (fun c => c != LUA_IGMARK))
      (by rw [hsyms]; simp)
    obtain ⟨m2, h2⟩ := hnone
      (LUA_POF ++ ((dotNormalised m).dropWhile (fun c => c != LUA_IGMARK)).drop 1)
      (by rw [hsyms]; simp)
    obtain ⟨e1, c1⟩ := lookforfunc_missing w filename _ s reg m1 (isWildcard_POF _) hlib h1
    obtain ⟨e2, _⟩ := lookforfunc_missing w filename
      (LUA_POF ++ ((dotNormalised m).dropWhile (fun c => c != LUA_IGMARK)).drop 1)
      (lookforfunc w filename
        (LUA_POF ++ (dotNormalised m).takeWhile (fun c => c != LUA_IGMARK)) s).2.2 reg m2
      (isWildcard_POF _) (libraryOf_of_checkclib w _ filename false reg c1) h2
    have heq : loadfunc w filename m s
        = lookforfunc w filename
            (LUA_POF ++ ((dotNormalised m).dropWhile (fun c => c != LUA_IGMARK)).drop 1)
            (lookforfunc w filename
              (LUA_POF ++ (dotNormalised m).takeWhile (fun c => c != LUA_IGMARK)) s).2.2 := by
      unfold loadfunc
      simp only [gsub_dots, hm, if_true]
      rw [e1]
      simp
    rw [heq, e2]
    exact ⟨rfl, m2, rfl, _, by rw [hsyms]; simp, h2⟩
  · have hm2 : ¬ '-' ∈ dotNormalised m := hm
    have hsyms : entrySymbols m = [LUA_POF ++ dotNormalised m] := by
      unfold entrySymbols
      rw [if_neg hm2]
      rfl
    obtain ⟨m1, h1⟩ := hnone (LUA_POF ++ dotNormalised m) (by rw [hsyms]; simp)
    obtain ⟨e1, _⟩ := lookforfunc_missing w filename _ s reg m1 (isWildcard_POF _) hlib h1
    have heq : loadfunc w filename m s = lookforfunc w filename (LUA_POF ++ dotNormalised m) s := by
      unfold loadfunc
      simp only [gsub_dots, hm, if_false]
    rw [heq, e1]
    exact ⟨rfl, m1, rfl, _, by rw [hsyms]; simp, h1⟩

/-- When the library is not in CLIBS and does not load, `loadfunc` ends with
`ERRLIB` and the loader's message, right after the failed open. -/
theorem loadfunc_load_failure (w : World) (filename m : CStr) (s : State) (msg : CStr)
    (hc : checkclib s filename = none) (hl : w.lsys_load filename false = .error msg) :
    loadfunc w filename m s = (ERRLIB, .string msg, s.log (.lsys_load filename false none)) := by
  have h1 : ∀ x : CStr, lookforfunc w filename (LUA_POF ++ x) s
      = (ERRLIB, .string msg, s.log (.lsys_load filename false none)) := by
    intro x
    have := lookforfunc_load_failure w filename (LUA_POF ++ x) s msg hc
      (by rw [isWildcard_POF]; exact hl)
    rw [isWildcard_POF] at this
    exact this
  unfold loadfunc
  simp only [gsub_dots]
  split
  · rw [h1]
    simp [ERRLIB, ERRFUNC]
  · exact h1 _

/-! ## The preload searcher -/

/-- C18, as stated, fails: in the fresh runtime with the table 3 stored in
`package.preload` under "m", the entry is not nil, yet `require "m"` does not
stop at the preload searcher: the four searchers are called and `require`
fails with "module 'm' not found:", without a line of the preload searcher. -/
theorem preload_table_entry_not_found :
    tablePreloadState.lua.preload "m".toList = .table 3 ∧
    ∃ s1, ll_require bareWorld 5 "m".toList tablePreloadState
        = .error (.string ("module 'm' not found:\n\tno file './m.src'"
            ++ "\n\tno file './m/init.src'\n\tno file './m.so'").toList) s1 ∧
      searcherCalls s1.trace =
        [.lua_call (.function .searcher_preload) [.string "m".toList] 2,
         .lua_call (.function .searcher_Lua) [.string "m".toList] 2,
         .lua_call (.function .searcher_C) [.string "m".toList] 2,
         .lua_call (.function .searcher_Croot) [.string "m".toList] 2] :=
  ⟨rfl, _, rfl, rfl⟩

/-- C18, amended: in a runtime whose first searcher is the preload searcher,
for every module name: when `package.preload` holds a function under exactly
that name, `findloader` stops at the first searcher with that function as
the loader and nil as the extra value, and after a cache miss `require` goes
on with the call of that function with the name and nil; when
`package.preload` holds nil under the name, the preload searcher returns the
line "no field package.preload['name']", preceded by a newline and a tab,
and `findloader` goes on with the second searcher and that line in its
buffer. -/
theorem preload_searcher (w : World) (fuel : Nat) (name : CStr) (s : State) (t : Nat)
    (ht : s.lua.searchers = .table t)
    (h1 : s.lua.rawgeti t 1 = .function .searcher_preload) :
    (lua_isfunction (s.lua.preload name) = true →
      findloader w (fuel + 1) name s
        = .ok (s.lua.preload name, .nil)
            (s.log (.lua_call (.function .searcher_preload) [.string name] 2)) ∧
      (lua_toboolean (s.lua.loaded name) = false →
        ∀ s2, (ll_require w (fuel + 1) name s).state? = some s2 →
          ∃ d, s2.trace = s.trace ++
              [.lua_call (.function .searcher_preload) [.string name] 2,
               .lua_call (s.lua.preload name) [.string name, .nil] 1] ++ d ∧
            luaCalls d = [])) ∧
    (s.lua.preload name = .nil →
      lua_call w (.function .searcher_preload) [.string name] 2 s
        = .ok [.string ("\n\tno field package.preload['".toList ++ name ++ "']".toList), .nil]
            (s.log (.lua_call (.function .searcher_preload) [.string name] 2)) ∧
      findloader w (fuel + 1) name s
        = findloader_loop w name t fuel 2
            ("\n\tno field package.preload['".toList ++ name ++ "']".toList)
            (s.log (.lua_call (.function .searcher_preload) [.string name] 2))) := by
  have hnn : s.lua.rawgeti t 1 ≠ .nil := by rw [h1]; simp
  constructor
  · intro hf
    have hne : s.lua.preload name ≠ .nil := by
      intro h
      rw [h] at hf
      simp [lua_isfunction] at hf
    have hc := call_preload_entry w name s hne
    have hfind : findloader w (fuel + 1) name s
        = .ok (s.lua.preload name, .nil)
            (s.log (.lua_call (.function .searcher_preload) [.string name] 2)) := by
      rw [findloader_eq_loop w _ name s t ht]
      exact floop_found w name t fuel 1 [] s _ _ _ hnn (by rw [h1]; exact hc) hf
    refine ⟨hfind, ?_⟩
    intro hmiss s2 h2
    obtain ⟨s3, h3, e3⟩ := ll_require_after_find w _ name s _ _ _ hmiss hfind s2 h2
    obtain ⟨d, hd, q⟩ := lua_call_calm w _ _ 1 _ s3 h3
    refine ⟨d, ?_, q⟩
    rw [e3, hd]
    simp [State.log]
  · intro hn
    have hc := call_preload_nil w name s hn
    refine ⟨hc, ?_⟩
    rw [findloader_eq_loop w _ name s t ht]
    have := floop_text w name t fuel 1 [] (noPreload name) s _ (.string (noPreload name)) .nil
      hnn (by rw [h1]; exact hc) rfl rfl
    rw [this]
    rfl

theorem preload_searcher_witness :
    preloadState.lua.searchers = .table 0 ∧
    preloadState.lua.rawgeti 0 1 = .function .searcher_preload ∧
    lua_isfunction (preloadState.lua.preload "m".toList) = true ∧
    preloadState.lua.preload "n".toList = .nil ∧
    findloader bareWorld 5 "m".toList preloadState
      = .ok (.function (.other 1), .nil)
          (preloadState.log (.lua_call (.function .searcher_preload) [.string "m".toList] 2)) ∧
    lua_call bareWorld (.function .searcher_preload) [.string "n".toList] 2 preloadState
      = .ok [.string "\n\tno field package.preload['n']".toList, .nil]
          (preloadState.log (.lua_call (.function .searcher_preload) [.string "n".toList] 2)) :=
  ⟨rfl, rfl, rfl, rfl,
   ((preload_searcher bareWorld 4 "m".toList preloadState 0 rfl rfl).1 rfl).1,
   ((preload_searcher bareWorld 4 "n".toList preloadState 0 rfl rfl).2 rfl).1⟩

/-! ## A library that does not load -/

/-- C15: when the native searcher (resp. the native-root searcher, for a
name with a dot) is the searcher at index `i`, `findfile` resolves a readable
file for the name (resp. for the text before the first dot), the file is not
in CLIBS and the platform loader fails to load it with the text `msg`: the
searcher raises "error loading module 'name' from file 'filename':", a
newline, a tab and `msg` verbatim; the loop of `findloader` ends with that
error at this iteration, for every budget and buffer, having called no
searcher after this one; and a `require` after a cache miss whose
`findloader` fails with an error fails with that error. -/
theorem load_failure_is_hard_error (w : World) (fuel : Nat) (name filename msg : CStr)
    (s s0 : State) (t i : Nat) (acc : CStr)
    (hc : checkclib s0 filename = none)
    (hl : w.lsys_load filename false = .error msg) :
    (s.lua.rawgeti t i = .function .searcher_C →
      findfile w name "cpath".toList w.LUA_DIRSEP
        (s.log (.lua_call (.function .searcher_C) [.string name] 2)) = .ok (.ok filename) s0 →
      findloader_loop w name t (fuel + 1) i acc s
        = .error (.string ("error loading module '".toList ++ name ++ "' from file '".toList
            ++ filename ++ "':\n\t".toList ++ msg)) (s0.log (.lsys_load filename false none)) ∧
      searcherCalls (s0.log (.lsys_load filename false none)).trace
        = searcherCalls s.trace ++ [.lua_call (.function .searcher_C) [.string name] 2]) ∧
    (s.lua.rawgeti t i = .function .searcher_Croot → '.' ∈ name →
      findfile w (name.takeWhile (fun c => c != '.')) "cpath".toList w.LUA_DIRSEP
        (s.log (.lua_call (.function .searcher_Croot) [.string name] 2))
          = .ok (.ok filename) s0 →
      findloader_loop w name t (fuel + 1) i acc s
        = .error (.string ("error loading module '".toList ++ name ++ "' from file '".toList
            ++ filename ++ "':\n\t".toList ++ msg)) (s0.log (.lsys_load filename false none)) ∧
      searcherCalls (s0.log (.lsys_load filename false none)).trace
        = searcherCalls s.trace ++ [.lua_call (.function .searcher_Croot) [.string name] 2]) ∧
    (∀ (fuel0 : Nat) (sa sb : State) (e : Value),
      lua_toboolean (sa.lua.loaded name) = false →
      findloader w fuel0 name sa = .error e sb →
      ll_require w fuel0 name sa = .error e sb) := by
  refine ⟨?_, ?_, ?_⟩
  · intro hi hfile
    have hcall : lua_call w (.function .searcher_C) [.string name] 2 s
        = .error (.string ("error loading module '".toList ++ name ++ "' from file '".toList
            ++ filename ++ "':\n\t".toList ++ msg))
            (s0.log (.lsys_load filename false none)) := by
      rw [call_C_file w name filename s s0 hfile, loadfunc_load_failure w filename name s0 msg hc hl]
      rfl
    refine ⟨floop_error w name t fuel i acc s _ _ (by rw [hi]; simp) (by rw [hi]; exact hcall), ?_⟩
    exact lua_call_searcherCalls w _ name s _ (by rw [hcall]; rfl)
  · intro hi hdot hfile
    have hcall : lua_call w (.function .searcher_Croot) [.string name] 2 s
        = .error (.string ("error loading module '".toList ++ name ++ "' from file '".toList
            ++ filename ++ "':\n\t".toList ++ msg))
            (s0.log (.lsys_load filename false none)) := by
      rw [call_Croot_file w name filename s s0 hdot hfile,
        loadfunc_load_failure w filename name s0 msg hc hl]
      rfl
    refine ⟨floop_error w name t fuel i acc s _ _ (by rw [hi]; simp) (by rw [hi]; exact hcall), ?_⟩
    exact lua_call_searcherCalls w _ name s _ (by rw [hcall]; rfl)
  · intro fuel0 sa sb e hmiss hfind
    exact ll_require_find_error w fuel0 name sa sb e hmiss hfind

theorem load_failure_is_hard_error_witness :
    checkclib { lua := freshLua,
                trace := [.lua_call (.function .searcher_C) [.string "x".toList] 2,
                          .fopen "./x.so".toList] } "./x.so".toList = none ∧
    brokenLibWorld.lsys_load "./x.so".toList false = .error "file too short".toList ∧
    freshState.lua.rawgeti 0 3 = .function .searcher_C ∧
    findloader_loop brokenLibWorld "x".toList 0 1 3 [] freshState
      = .error (.string "error loading module 'x' from file './x.so':\n\tfile too short".toList)
          { lua := freshLua,
            trace := [.lua_call (.function .searcher_C) [.string "x".toList] 2,
                      .fopen "./x.so".toList, .lsys_load "./x.so".toList false none] } ∧
    ∃ s1, ll_require brokenLibWorld 5 "x".toList freshState
        = .error (.string "error loading module 'x' from file './x.so':\n\tfile too short".toList)
            s1 ∧
      searcherCalls s1.trace =
        [.lua_call (.function .searcher_preload) [.string "x".toList] 2,
         .lua_call (.function .searcher_Lua) [.string "x".toList] 2,
         .lua_call (.function .searcher_C) [.string "x".toList] 2] :=
  ⟨rfl, rfl, rfl,
   ((load_failure_is_hard_error brokenLibWorld 0 "x".toList "./x.so".toList
      "file too short".toList freshState
      { lua := freshLua,
        trace := [.lua_call (.function .searcher_C) [.string "x".toList] 2,
                  .fopen "./x.so".toList] } 0 3 [] rfl rfl).1 rfl rfl).1,
   _, rfl, rfl⟩

/-! ## A library without the entry point -/

/-- C14, as stated, fails: in a world where "./x.so" is readable and loads
but exports nothing, `require "x"` in the fresh runtime fails at the native
searcher with "error loading module 'x' from file './x.so':" and the text of
the failed lookup; the library is in CLIBS, and the native-root searcher,
the next one, is not called. -/
theorem require_missing_entry_point_raises :
    ∃ s1, ll_require noEntryWorld 5 "x".toList freshState
        = .error (.string
            "error loading module 'x' from file './x.so':\n\tundefined symbol".toList) s1 ∧
      checkclib s1 "./x.so".toList = some 7 ∧
      symLookups s1.trace = ["luaopen_x".toList] ∧
      searcherCalls s1.trace =
        [.lua_call (.function .searcher_preload) [.string "x".toList] 2,
         .lua_call (.function .searcher_Lua) [.string "x".toList] 2,
         .lua_call (.function .searcher_C) [.string "x".toList] 2] :=
  ⟨_, rfl, rfl, rfl, rfl⟩

/-- C14, amended: let `findfile` resolve a readable file whose library is in
CLIBS or loads, and let the library export none of the symbols that
`loadfunc` looks up for the module name. When the searcher at index `i` is
the native-root searcher and the name has a dot (the file being resolved for
the text before the first dot), the searcher returns the line
"no module 'name' in file 'filename'", preceded by a newline and a tab, and
the loop of `findloader` goes on with the searcher at index `i + 1` and that
line added to its buffer. When the searcher at index `i` is the native
searcher, it raises "error loading module 'name' from file 'filename':", a
newline, a tab and the text of the failed lookup, and the loop of
`findloader` ends with that error, having called no searcher after this one. -/
theorem missing_entry_point (w : World) (fuel : Nat) (name filename : CStr)
    (s s0 : State) (t i : Nat) (acc : CStr) (reg : Nat)
    (hlib : libraryOf w s0 filename false = some reg)
    (hnone : ∀ sym ∈ entrySymbols name, ∃ msg, w.lsys_sym reg sym = .error msg) :
    (s.lua.rawgeti t i = .function .searcher_Croot → '.' ∈ name →
      findfile w (name.takeWhile (fun c => c != '.')) "cpath".toList w.LUA_DIRSEP
        (s.log (.lua_call (.function .searcher_Croot) [.string name] 2))
          = .ok (.ok filename) s0 →
      lua_call w (.function .searcher_Croot) [.string name] 2 s
        = .ok [.string ("\n\tno module '".toList ++ name ++ "' in file '".toList
            ++ filename ++ "'".toList), .nil] (loadfunc w filename name s0).2.2 ∧
      findloader_loop w name t (fuel + 1) i acc s
        = findloader_loop w name t fuel (i + 1)
            (acc ++ ("\n\tno module '".toList ++ name ++ "' in file '".toList
              ++ filename ++ "'".toList)) (loadfunc w filename name s0).2.2) ∧
    (s.lua.rawgeti t i = .function .searcher_C →
      findfile w name "cpath".toList w.LUA_DIRSEP
        (s.log (.lua_call (.function .searcher_C) [.string name] 2)) = .ok (.ok filename) s0 →
      ∃ msg, (∃ sym ∈ entrySymbols name, w.lsys_sym reg sym = .error msg) ∧
        findloader_loop w name t (fuel + 1) i acc s
          = .error (.string ("error loading module '".toList ++ name ++ "' from file '".toList
              ++ filename ++ "':\n\t".toList ++ msg)) (loadfunc w filename name s0).2.2 ∧
        searcherCalls (loadfunc w filename name s0).2.2.trace
          = searcherCalls s.trace ++ [.lua_call (.function .searcher_C) [.string name] 2]) := by
  obtain ⟨hst, m, htop, hsym⟩ := loadfunc_errfunc w filename name s0 reg hlib hnone
  constructor
  · intro hi hdot hfile
    have hcall : lua_call w (.function .searcher_Croot) [.string name] 2 s
        = .ok [.string (noModuleInFile name filename), .nil]
            (loadfunc w filename name s0).2.2 := by
      rw [call_Croot_file w name filename s s0 hdot hfile, hst]
      rfl
    refine ⟨hcall, ?_⟩
    exact floop_text w name t fuel i acc (noModuleInFile name filename) s _
      (.string (noModuleInFile name filename)) .nil (by rw [hi]; simp)
      (by rw [hi]; exact hcall) rfl rfl
  · intro hi hfile
    have hcall : lua_call w (.function .searcher_C) [.string name] 2 s
        = .error (.string ("error loading module '".toList ++ name ++ "' from file '".toList
            ++ filename ++ "':\n\t".toList ++ m)) (loadfunc w filename name s0).2.2 := by
      rw [call_C_file w name filename s s0 hfile, hst, htop]
      rfl
    refine ⟨m, hsym, ?_, ?_⟩
    · exact floop_error w name t fuel i acc s _ _ (by rw [hi]; simp) (by rw [hi]; exact hcall)
    · exact lua_call_searcherCalls w _ name s _ (by rw [hcall]; rfl)

theorem missing_entry_point_witness :
    libraryOf noEntryWorld
      { lua := freshLua,
        trace := [.lua_call (.function .searcher_Croot) [.string "a.b".toList] 2,
                  .fopen "./a.so".toList] } "./a.so".toList false = some 7 ∧
    entrySymbols "a.b".toList = ["luaopen_a_b".toList] ∧
    freshState.lua.rawgeti 0 4 = .function .searcher_Croot ∧
    lua_call noEntryWorld (.function .searcher_Croot) [.string "a.b".toList] 2 freshState
      = .ok [.string "\n\tno module 'a.b' in file './a.so'".toList, .nil]
          (loadfunc noEntryWorld "./a.so".toList "a.b".toList
            { lua := freshLua,
              trace := [.lua_call (.function .searcher_Croot) [.string "a.b".toList] 2,
                        .fopen "./a.so".toList] }).2.2 ∧
    ∃ s1, ll_require noEntryWorld 5 "a.b".toList freshState
        = .error (.string ("module 'a.b' not found:\n\tno field package.preload['a.b']"
            ++ "\n\tno file './a/b.src'\n\tno file './a/b/init.src'\n\tno file './a/b.so'"
            ++ "\n\tno module 'a.b' in file './a.so'").toList) s1 :=
  ⟨rfl, rfl, rfl,
   ((missing_entry_point noEntryWorld 0 "a.b".toList "./a.so".toList freshState
      { lua := freshLua,
        trace := [.lua_call (.function .searcher_Croot) [.string "a.b".toList] 2,
                  .fopen "./a.so".toList] } 0 4 [] 7 rfl (fun _ _ => ⟨_, rfl⟩)).1
      rfl (by decide) rfl).1,
   _, rfl⟩

/-! ## The value that `require` returns -/

/-- C24: whenever `require` returns a value, that value is the entry of the
module in `package.loaded` in the state at the return, and it is not nil. In
particular, after a cache miss, when the loader returned nil (or no value)
and `package.loaded` holds a value other than nil under the name after the
loader ran, `require` returns that value and leaves the state as the loader
left it: the entry is not replaced by `true`. -/
theorem require_returns_cache_entry (w : World) (fuel : Nat) (name : CStr) (s s1 : State)
    (v : Value) (h : ll_require w fuel name s = .ok v s1) :
    s1.lua.loaded name = v ∧ v ≠ .nil ∧
    (∀ (f aux : Value) (sf s2 : State) (vals : List Value),
      lua_toboolean (s.lua.loaded name) = false →
      findloader w fuel name s = .ok (f, aux) sf →
      lua_call w f [.string name, aux] 1 sf = .ok vals s2 →
      vals.headD .nil = .nil → s2.lua.loaded name ≠ .nil →
      ll_require w fuel name s = .ok (s2.lua.loaded name) s2 ∧
      v = s2.lua.loaded name ∧ s1 = s2) := by
  obtain ⟨h1, h2⟩ := ll_require_ok_loaded w fuel name s s1 v h
  refine ⟨h1, h2, ?_⟩
  intro f aux sf s2 vals hmiss hfind hcall hv hst
  have key : ll_require w fuel name s = .ok (s2.lua.loaded name) s2 := by
    rw [ll_require_miss w fuel name s sf s2 f aux vals hmiss hfind hcall]
    simp only [hv, lua_isnil, Bool.not_true]
    cases hl : s2.lua.loaded name with
    | nil => exact absurd hl hst
    | _ => simp [hl]
  refine ⟨key, ?_⟩
  rw [key] at h
  simp only [Res.ok.injEq] at h
  exact ⟨h.1.symm, h.2.symm⟩

theorem require_returns_cache_entry_witness :
    ll_require selfStoreWorld 2 "m".toList preloadState
      = .ok (.table 5)
          { lua := { preloadState.lua with
              loaded := setfield preloadState.lua.loaded "m".toList (.table 5) },
            trace := preloadCalls } ∧
    setfield preloadState.lua.loaded "m".toList (.table 5) "m".toList = .table 5 ∧
    Value.table 5 ≠ .nil ∧
    (lua_call selfStoreWorld (.function (.other 1)) [.string "m".toList, .nil] 1
        { preloadState with trace := preloadCalls.take 1 }
      = .ok [.nil]
          { lua := { preloadState.lua with
              loaded := setfield preloadState.lua.loaded "m".toList (.table 5) },
            trace := preloadCalls }) :=
  ⟨rfl,
   (require_returns_cache_entry selfStoreWorld 2 "m".toList preloadState
      { lua := { preloadState.lua with
          loaded := setfield preloadState.lua.loaded "m".toList (.table 5) },
        trace := preloadCalls } (.table 5) rfl).1,
   (require_returns_cache_entry selfStoreWorld 2 "m".toList preloadState
      { lua := { preloadState.lua with
          loaded := setfield preloadState.lua.loaded "m".toList (.table 5) },
        trace := preloadCalls } (.table 5) rfl).2.1,
   rfl⟩

/-! ## The wildcard symbol -/

/-- C22, amended: the test of `lookforfunc` for the wildcard holds exactly
for the symbols whose first character is '*', "*" among them. For a symbol
that passes it: when the
library is in CLIBS, `lookforfunc` returns the status 0 and `true` and leaves
the state as it was; when the library is not in CLIBS and the platform loader
opens it, `lookforfunc` returns the status 0 and `true` after that one open,
made with the flag for global symbols set, and the entry in CLIBS; in either
case the log gains no symbol lookup and no call of a function, and on a miss
in CLIBS it gains exactly the open with the flag set. For a symbol that
fails the test, a miss in CLIBS is followed by the open with the flag
cleared, and by nothing else than lookups of that symbol. -/
theorem lookforfunc_wildcard (w : World) (path sym : CStr) (s : State) :
    isWildcard "*".toList = true ∧
    (isWildcard sym = true ↔ ∃ rest, sym = '*' :: rest) ∧
    (isWildcard sym = true →
      (∀ reg, checkclib s path = some reg →
        lookforfunc w path sym s = (0, .boolean true, s)) ∧
      (∀ reg, checkclib s path = none → w.lsys_load path true = .ok reg →
        lookforfunc w path sym s
          = (0, .boolean true,
              addtoclib (s.log (.lsys_load path true (some reg))) path reg)) ∧
      (∃ d, (lookforfunc w path sym s).2.2.trace = s.trace ++ d ∧
        symLookups d = [] ∧ luaCalls d = [] ∧
        (checkclib s path = none → ∃ r, d = [.lsys_load path true r]))) ∧
    (isWildcard sym = false → checkclib s path = none →
      ∃ r d, (lookforfunc w path sym s).2.2.trace = s.trace ++ .lsys_load path false r :: d ∧
        ∀ e ∈ d, ∃ reg f, e = .lsys_sym reg sym f) ∧
    lookforfunc twoLibWorld "./a.so".toList "*".toList freshState
      = (0, .boolean true,
          addtoclib (freshState.log (.lsys_load "./a.so".toList true (some 7)))
            "./a.so".toList 7) ∧
    (lookforfunc twoLibWorld "./a.so".toList "luaopen_a".toList freshState).2.2.trace
      = [.lsys_load "./a.so".toList false (some 7), .lsys_sym 7 "luaopen_a".toList none] := by
  refine ⟨rfl, ?_, ?_, ?_, rfl, rfl⟩
  · cases sym with
    | nil => simp [isWildcard]
    | cons c cs => simp [isWildcard]
  · intro hw
    refine ⟨?_, ?_, ?_⟩
    · intro reg hc
      rw [lookforfunc_cached w path sym s reg hc]
      simp [lookforfunc_sym, hw]
    · intro reg hc hl
      unfold lookforfunc
      simp only [hc, hw, lsys_load, hl]
      simp [lookforfunc_sym, hw]
    · unfold lookforfunc
      cases hc : checkclib s path with
      | some reg =>
        refine ⟨[], ?_, rfl, rfl, ?_⟩
        · simp [lookforfunc_sym, hw]
        · intro h; simp at h
      | none =>
        simp only [hw, lsys_load]
        cases hl : w.lsys_load path true with
        | error msg =>
          exact ⟨[.lsys_load path true none], rfl, rfl, rfl, fun _ => ⟨_, rfl⟩⟩
        | ok reg =>
          refine ⟨[.lsys_load path true (some reg)], ?_, rfl, rfl, fun _ => ⟨_, rfl⟩⟩
          simp [lookforfunc_sym, hw, addtoclib, State.log]
  · intro hw hc
    unfold lookforfunc
    simp only [hc, hw, lsys_load]
    cases hl : w.lsys_load path false with
    | error msg => exact ⟨none, [], rfl, by simp⟩
    | ok reg =>
      simp only
      rw [lookforfunc_sym_of_not_wildcard w reg sym _ hw]
      cases hs : w.lsys_sym reg sym with
      | error msg =>
        refine ⟨some reg, [.lsys_sym reg sym none], ?_, ?_⟩
        · simp [addtoclib, State.log]
        · intro e he
          simp only [List.mem_singleton] at he
          exact ⟨reg, none, he⟩
      | ok f =>
        refine ⟨some reg, [.lsys_sym reg sym (some f)], ?_, ?_⟩
        · simp [addtoclib, State.log]
        · intro e he
          simp only [List.mem_singleton] at he
          exact ⟨reg, some f, he⟩

/-! ## The native-root searcher -/

theorem findfile_cpath (w : World) (name cp dirsep : CStr) (s : State)
    (hcp : lua_tostring s.lua.cpath = some cp) :
    findfile w name "cpath".toList dirsep s
      = .ok (searchpath w name cp ['.'] dirsep s).1 (searchpath w name cp ['.'] dirsep s).2 := by
  unfold findfile
  have hg : package_getfield s.lua "cpath".toList = s.lua.cpath := rfl
  rw [hg, hcp]

theorem searcher_Croot_file (w : World) (name filename : CStr) (s s0 : State) (hdot : '.' ∈ name)
    (hfile : findfile w (name.takeWhile (fun c => c != '.')) "cpath".toList w.LUA_DIRSEP s
      = .ok (.ok filename) s0) :
    searcher_Croot w name s
      = (if (loadfunc w filename name s0).1 ≠ 0 then
          if (loadfunc w filename name s0).1 ≠ ERRFUNC then
            checkload name false (loadfunc w filename name s0).2.1 filename
              (loadfunc w filename name s0).2.2
          else .ok [.string (noModuleInFile name filename)] (loadfunc w filename name s0).2.2
         else .ok [(loadfunc w filename name s0).2.1, .string filename]
            (loadfunc w filename name s0).2.2) := by
  unfold searcher_Croot
  simp only [hdot, not_true_eq_false, if_false]
  rw [hfile]
  rfl

theorem loadfunc_no_mark (w : World) (filename m : CStr) (s : State) (h : '-' ∉ m) :
    loadfunc w filename m s = lookforfunc w filename ("luaopen_".toList ++ dotNormalised m) s := by
  have hm : LUA_IGMARK ∉ dotNormalised m := by
    rw [mark_mem_dotNormalised]
    exact h
  unfold loadfunc
  simp only [gsub_dots, hm, if_false]
  rfl

/-- C21: with the text `cp` in `package.cpath`. For a module name without a
dot the native-root searcher returns no value and leaves the state, log
included, as it was: no file is probed and no library opened; through
`lua_call` the two results are nil and nil, neither a function nor a text.
For a name with a dot the search is `searchpath` for the text before the
first dot on `cp`: the files probed are candidates of that text, in order;
when no file is found the searcher returns the text of the search; when the
file `filename` is found, it is a candidate of that text, and the entry point
is resolved by `loadfunc` in that file for the whole module name: if the
library is at hand or loads and exports none of the symbols that `loadfunc`
looks up for the name, the searcher returns the line
"no module 'name' in file 'filename'", preceded by a newline and a tab, and
if (for a name without the ignore mark) it exports "luaopen_" followed by the
name with '_' for every dot, the searcher returns that function and the file
name. -/
theorem searcher_Croot_root (w : World) (name cp : CStr) (s : State)
    (hcp : lua_tostring s.lua.cpath = some cp) :
    ('.' ∉ name →
      searcher_Croot w name s = .ok [] s ∧
      lua_call w (.function .searcher_Croot) [.string name] 2 s
        = .ok [.nil, .nil] (s.log (.lua_call (.function .searcher_Croot) [.string name] 2))) ∧
    ('.' ∈ name →
      (∃ n, (searchpath w (name.takeWhile (fun c => c != '.')) cp ['.'] w.LUA_DIRSEP s).2.trace
        = s.trace ++ ((candidates (name.takeWhile (fun c => c != '.')) cp ['.']
            w.LUA_DIRSEP).take n).map Event.fopen) ∧
      (∀ m, (searchpath w (name.takeWhile (fun c => c != '.')) cp ['.'] w.LUA_DIRSEP s).1
          = .error m →
        searcher_Croot w name s = .ok [.string m]
          (searchpath w (name.takeWhile (fun c => c != '.')) cp ['.'] w.LUA_DIRSEP s).2) ∧
      (∀ filename,
        (searchpath w (name.takeWhile (fun c => c != '.')) cp ['.'] w.LUA_DIRSEP s).1
          = .ok filename →
        filename ∈ candidates (name.takeWhile (fun c => c != '.')) cp ['.'] w.LUA_DIRSEP ∧
        (∀ reg,
          libraryOf w
            (searchpath w (name.takeWhile (fun c => c != '.')) cp ['.'] w.LUA_DIRSEP s).2
            filename false = some reg →
          (∀ sym ∈ entrySymbols name, ∃ msg, w.lsys_sym reg sym = .error msg) →
          searcher_Croot w name s
            = .ok [.string ("\n\tno module '".toList ++ name ++ "' in file '".toList
                ++ filename ++ "'".toList)]
              (loadfunc w filename name
                (searchpath w (name.takeWhile (fun c => c != '.')) cp ['.']
                  w.LUA_DIRSEP s).2).2.2) ∧
        (∀ reg f, '-' ∉ name →
          libraryOf w
            (searchpath w (name.takeWhile (fun c => c != '.')) cp ['.'] w.LUA_DIRSEP s).2
            filename false = some reg →
          w.lsys_sym reg ("luaopen_".toList ++ dotNormalised name) = .ok f →
          searcher_Croot w name s
            = .ok [.function (.cfunction f), .string filename]
              (loadfunc w filename name
                (searchpath w (name.takeWhile (fun c => c != '.')) cp ['.']
                  w.LUA_DIRSEP s).2).2.2))) := by
  constructor
  · intro hdot
    refine ⟨?_, call_Croot_nodot w name s hdot⟩
    unfold searcher_Croot
    simp [hdot]
  · intro hdot
    have hff := findfile_cpath w (name.takeWhile (fun c => c != '.')) cp w.LUA_DIRSEP s hcp
    refine ⟨searchpath_trace_take w _ cp ['.'] w.LUA_DIRSEP s, ?_, ?_⟩
    · intro m hm
      unfold searcher_Croot
      simp only [hdot, not_true_eq_false, if_false]
      rw [hff, hm]
    · intro filename hf
      rw [hf] at hff
      have hspec := searchOutcome_spec w
        (candidates (name.takeWhile (fun c => c != '.')) cp ['.'] w.LUA_DIRSEP) [] s
      rw [← searchpath_eq] at hspec
      obtain ⟨pre, post, hc, _, _, _⟩ := hspec.1 filename
        (searchpath w (name.takeWhile (fun c => c != '.')) cp ['.'] w.LUA_DIRSEP s).2
        (by rw [← hf])
      refine ⟨by rw [hc]; simp, ?_, ?_⟩
      · intro reg hlib hnone
        obtain ⟨hst, _⟩ := loadfunc_errfunc w filename name _ reg hlib hnone
        rw [searcher_Croot_file w name filename s _ hdot hff, hst]
        rfl
      · intro reg f hmark hlib hsym
        obtain ⟨d, hl, _⟩ := lookforfunc_found w filename
          ("luaopen_".toList ++ dotNormalised name) _ reg f (isWildcard_POF _) hlib hsym
        rw [← loadfunc_no_mark w filename name _ hmark] at hl
        have h1 := congrArg (fun r => r.1) hl
        have h2 := congrArg (fun r => r.2.1) hl
        simp only at h1 h2
        rw [searcher_Croot_file w name filename s _ hdot hff, h1, h2]
        rfl

theorem searcher_Croot_root_witness :
    lua_tostring freshState.lua.cpath = some "./?.so".toList ∧
    searcher_Croot noEntryWorld "x".toList freshState = .ok [] freshState ∧
    (searchpath noEntryWorld "a".toList "./?.so".toList ['.'] noEntryWorld.LUA_DIRSEP
        freshState).1 = .ok "./a.so".toList ∧
    entrySymbols "a.b".toList = ["luaopen_a_b".toList] ∧
    ∃ s1, searcher_Croot noEntryWorld "a.b".toList freshState
        = .ok [.string "\n\tno module 'a.b' in file './a.so'".toList] s1 ∧
      s1.trace = [.fopen "./a.so".toList, .lsys_load "./a.so".toList false (some 7),
        .lsys_sym 7 "luaopen_a_b".toList none] :=
  ⟨rfl,
   ((searcher_Croot_root noEntryWorld "x".toList "./?.so".toList freshState rfl).1
      (by decide)).1,
   rfl, rfl, _,
   (((searcher_Croot_root noEntryWorld "a.b".toList "./?.so".toList freshState rfl).2
      (by decide)).2.2 "./a.so".toList rfl).2.1 7 rfl (fun _ _ => ⟨_, rfl⟩),
   rfl⟩

/-! ## The message of `findloader` -/

theorem findloader_loop_exhausted (w : World) (name : CStr) (t : Nat) (i : Nat)
    (s : State) (rs : List Value) (s1 : State) (h : Exhausted w name t i s rs s1) :
    ∀ (acc : CStr) (fuel : Nat), rs.length < fuel →
      findloader_loop w name t fuel i acc s
        = .error (.string ("module '".toList ++ name ++ "' not found:".toList ++ acc
            ++ (rs.map contribution).flatten)) s1 := by
  induction h with
  | done i s hnil =>
    intro acc fuel hf
    obtain ⟨k, rfl⟩ : ∃ k, fuel = k + 1 := ⟨fuel - 1, by omega⟩
    unfold findloader_loop
    rw [hnil]
    simp
  | step i s s1 s2 vals rest hnn hcall hnf _ ih =>
    intro acc fuel hf
    obtain ⟨k, rfl⟩ : ∃ k, fuel = k + 1 := ⟨fuel - 1, by omega⟩
    have hk : rest.length < k := by
      simp only [List.length_cons] at hf
      omega
    generalize hv : vals.getD 0 .nil = v at hnf hf ⊢
    conv_lhs => unfold findloader_loop
    split
    · rename_i h0; exact absurd h0 hnn
    · rw [hcall]
      simp only [hv, hnf, Bool.false_eq_true, if_false]
      by_cases hs : lua_isstring v = true
      · have hc : contribution v = fmt_s (lua_tostring v) := by
          unfold contribution
          rw [if_pos hs]
        simp only [hs, if_true]
        rw [ih _ k hk]
        simp only [List.map_cons, List.flatten_cons, hc, List.append_assoc]
      · have hc : contribution v = [] := by
          unfold contribution
          rw [if_neg hs]
        have hs2 : lua_isstring v = false := by simpa using hs
        simp only [hs2, Bool.false_eq_true, if_false]
        rw [ih acc k hk]
        simp only [List.map_cons, List.flatten_cons, hc, List.nil_append]

/-- C23, as stated, fails: with the three searchers of `mixedState`, of which
the first returns a text, the second the number 42 and the third `false`,
no searcher yields a loader and `findloader` fails with
"module 'm' not found:" followed by the text of the first and by "42": the
second searcher returned neither a function nor a string, and its result is
in the message. -/
theorem findloader_number_in_message :
    mixedWorld.call (.function (.other 2)) [.string "m".toList] mixedState.lua
      = .ret [.number "42".toList] mixedState.lua ∧
    (∀ f, Value.number "42".toList ≠ .function f) ∧
    (∀ x, Value.number "42".toList ≠ .string x) ∧
    findloader mixedWorld 4 "m".toList mixedState
      = .error (.string "module 'm' not found:\n\tno luck42".toList)
          { mixedState with trace := mixedCalls } :=
  ⟨rfl, fun _ h => Value.noConfusion h, fun _ h => Value.noConfusion h, rfl⟩

/-- C23, amended: when the searchers of the table in `package.searchers` are
tried in turn from index 1 up to the first index without an entry and none
yields a function, `findloader` fails, for every iteration budget above the
number of searchers, with "module 'name' not found:" followed by the
contributions of the first results of the searchers, in order, and in the
state that the last searcher left. The contribution of a string is its text
and that of a number the text of the number, both verbatim; a result that is
neither a string nor a number contributes nothing. -/
theorem findloader_exhausted (w : World) (name : CStr) (s : State) (t : Nat)
    (rs : List Value) (s1 : State)
    (ht : s.lua.searchers = .table t)
    (h : Exhausted w name t 1 s rs s1) :
    (∀ fuel, rs.length < fuel →
      findloader w fuel name s
        = .error (.string ("module '".toList ++ name ++ "' not found:".toList
            ++ (rs.map contribution).flatten)) s1) ∧
    (∀ x, contribution (.string x) = x) ∧
    (∀ x, contribution (.number x) = x) ∧
    (∀ v, (∀ x, v ≠ .string x) → (∀ x, v ≠ .number x) → contribution v = []) := by
  refine ⟨?_, fun _ => rfl, fun _ => rfl, ?_⟩
  · intro fuel hf
    rw [findloader_eq_loop w fuel name s t ht,
      findloader_loop_exhausted w name t 1 s rs s1 h [] fuel hf]
    simp
  · intro v h1 h2
    cases v with
    | string x => exact absurd rfl (h1 x)
    | number x => exact absurd rfl (h2 x)
    | _ => rfl

theorem findloader_exhausted_witness :
    mixedState.lua.searchers = .table 0 ∧
    Exhausted mixedWorld "m".toList 0 1 mixedState
      [.string "\n\tno luck".toList, .number "42".toList, .boolean false]
      { mixedState with trace := mixedCalls } ∧
    findloader mixedWorld 4 "m".toList mixedState
      = .error (.string ("module '".toList ++ "m".toList ++ "' not found:".toList
          ++ ([Value.string "\n\tno luck".toList, .number "42".toList, .boolean false].map
              contribution).flatten))
          { mixedState with trace := mixedCalls } :=
  have h3 : Exhausted mixedWorld "m".toList 0 4 { mixedState with trace := mixedCalls } []
      { mixedState with trace := mixedCalls } := .done 4 _ rfl
  have h2 : Exhausted mixedWorld "m".toList 0 3 { mixedState with trace := mixedCalls.take 2 }
      [.boolean false] { mixedState with trace := mixedCalls } :=
    .step 3 { mixedState with trace := mixedCalls.take 2 } { mixedState with trace := mixedCalls }
      _ [.boolean false, .nil] [] (by decide) rfl rfl h3
  have h1 : Exhausted mixedWorld "m".toList 0 2 { mixedState with trace := mixedCalls.take 1 }
      [.number "42".toList, .boolean false] { mixedState with trace := mixedCalls } :=
    .step 2 { mixedState with trace := mixedCalls.take 1 }
      { mixedState with trace := mixedCalls.take 2 }
      _ [.number "42".toList, .nil] _ (by decide) rfl rfl h2
  have h0 : Exhausted mixedWorld "m".toList 0 1 mixedState
      [.string "\n\tno luck".toList, .number "42".toList, .boolean false]
      { mixedState with trace := mixedCalls } :=
    .step 1 mixedState { mixedState with trace := mixedCalls.take 1 }
      _ [.string "\n\tno luck".toList, .nil] _ (by decide) rfl rfl h1
  ⟨rfl, h0, (findloader_exhausted mixedWorld "m".toList mixedState 0 _ _ rfl h0).1 4 (by decide)⟩

theorem tried_searcherCalls (w : World) (name : CStr) (t : Nat) (i : Nat) (s sb : State)
    (evs : List Event) (h : Tried w name t i s evs sb) :
    searcherCalls sb.trace = searcherCalls s.trace ++ evs := by
  induction h with
  | done i s => simp
  | step i s s1 s2 vals evs _ hc _ _ ih =>
    rw [ih, lua_call_searcherCalls w _ name s s1 (by rw [hc]; rfl)]
    simp

/-- After searchers that yield no function, a searcher that yields one ends
the loop with its two results, for every budget above the number of
searchers tried before it. -/
theorem findloader_loop_of_tried (w : World) (name : CStr) (t : Nat) (i : Nat) (s sb : State)
    (evs : List Event) (h : Tried w name t i s evs sb) :
    ∀ (f aux : Value) (s1 : State), sb.lua.rawgeti t (i + evs.length) ≠ .nil →
      lua_call w (sb.lua.rawgeti t (i + evs.length)) [.string name] 2 sb = .ok [f, aux] s1 →
      lua_isfunction f = true →
      ∀ (acc : CStr) (fuel : Nat), evs.length < fuel →
        findloader_loop w name t fuel i acc s = .ok (f, aux) s1 := by
  induction h with
  | done i s =>
    intro f aux s1 hnn hc hf acc fuel hfuel
    obtain ⟨k, rfl⟩ : ∃ k, fuel = k + 1 := ⟨fuel - 1, by omega⟩
    simp only [List.length_nil, Nat.add_zero] at hnn hc
    exact floop_found w name t k i acc s s1 f aux hnn hc hf
  | step i s s1 s2 vals evs hnn hc hnf _ ih =>
    intro f aux s3 hnn2 hc2 hf acc fuel hfuel
    obtain ⟨k, rfl⟩ : ∃ k, fuel = k + 1 := ⟨fuel - 1, by omega⟩
    have hk : evs.length < k := by
      simp only [List.length_cons] at hfuel
      omega
    have hidx : i + (Event.lua_call (s.lua.rawgeti t i) [.string name] 2 :: evs).length
        = i + 1 + evs.length := by
      simp only [List.length_cons]
      omega
    rw [hidx] at hnn2 hc2
    conv_lhs => unfold findloader_loop
    split
    · rename_i h0; exact absurd h0 hnn
    · rw [hc]
      simp only [hnf, Bool.false_eq_true, if_false]
      split
      · exact ih f aux s3 hnn2 hc2 hf _ k hk
      · exact ih f aux s3 hnn2 hc2 hf _ k hk

/-! ## The order of the searchers -/

/-- C12: with the table `t` in `package.searchers`. When the entries of the
table at the indices 1, 2, ... are called in this order, each with the module
name, and return no function (`Tried`), and the next entry returns the
function `f` and the value `aux`, then `findloader` returns `f` and `aux`, for
every iteration budget above the number of searchers tried before, in the
state that this searcher left, and the searcher calls in the log are these
and no other: no searcher is called after the one that gave the loader.
Conversely, whenever `findloader` returns a loader, it is the result of such
a run. With the searchers of this file only, the table stays as it was and
the searchers called are its entries in the order of the indices.
`createsearcherstable` puts the preload, the Lua, the C and the C-root
searcher at the indices 1 to 4, and nothing else. -/
theorem findloader_in_order (w : World) (name : CStr) (s : State) (t : Nat)
    (ht : s.lua.searchers = .table t) :
    (∀ evs sb f aux s1, Tried w name t 1 s evs sb →
      sb.lua.rawgeti t (1 + evs.length) ≠ .nil →
      lua_call w (sb.lua.rawgeti t (1 + evs.length)) [.string name] 2 sb = .ok [f, aux] s1 →
      lua_isfunction f = true →
      ∀ fuel, evs.length < fuel →
        findloader w fuel name s = .ok (f, aux) s1 ∧
        searcherCalls s1.trace = searcherCalls s.trace ++ evs
          ++ [.lua_call (sb.lua.rawgeti t (1 + evs.length)) [.string name] 2]) ∧
    (∀ fuel f aux s1, findloader w fuel name s = .ok (f, aux) s1 →
      ∃ evs sb,
        Tried w name t 1 s evs sb ∧
        sb.lua.rawgeti t (1 + evs.length) ≠ .nil ∧
        lua_call w (sb.lua.rawgeti t (1 + evs.length)) [.string name] 2 sb = .ok [f, aux] s1 ∧
        lua_isfunction f = true ∧
        searcherCalls s1.trace = searcherCalls s.trace ++ evs
          ++ [.lua_call (sb.lua.rawgeti t (1 + evs.length)) [.string name] 2]) ∧
    (BuiltinTable t s.lua → ∀ evs sb, Tried w name t 1 s evs sb →
      sb.lua.rawgeti = s.lua.rawgeti ∧
      evs = (List.range evs.length).map
        (fun k => Event.lua_call (s.lua.rawgeti t (1 + k)) [.string name] 2)) ∧
    (∀ t l,
      (createsearcherstable t l).searchers = .table t ∧
      (createsearcherstable t l).rawgeti t 1 = .function .searcher_preload ∧
      (createsearcherstable t l).rawgeti t 2 = .function .searcher_Lua ∧
      (createsearcherstable t l).rawgeti t 3 = .function .searcher_C ∧
      (createsearcherstable t l).rawgeti t 4 = .function .searcher_Croot ∧
      (∀ i, 4 < i → (createsearcherstable t l).rawgeti t i = .nil) ∧
      BuiltinTable t (createsearcherstable t l)) := by
  refine ⟨?_, ?_, ?_, ?_⟩
  · intro evs sb f aux s1 hT hnn hc hf fuel hfuel
    refine ⟨?_, ?_⟩
    · rw [findloader_eq_loop w fuel name s t ht]
      exact findloader_loop_of_tried w name t 1 s sb evs hT f aux s1 hnn hc hf [] fuel hfuel
    · rw [lua_call_searcherCalls w _ name sb s1 (by rw [hc]; rfl),
        tried_searcherCalls w name t 1 s sb evs hT]
  · intro fuel f aux s1 hfind
    rw [findloader_eq_loop w fuel name s t ht] at hfind
    exact findloader_loop_tried w name t fuel 1 [] s s1 f aux hfind
  · intro hb evs sb hT
    exact tried_builtin w name t 1 s sb evs hT hb
  · intro t l
    refine ⟨rfl, ?_, ?_, ?_, ?_, ?_, createsearcherstable_builtin t l⟩
    · simp [createsearcherstable]
    · simp [createsearcherstable]
    · simp [createsearcherstable]
    · simp [createsearcherstable]
    · intro i hi
      simp only [createsearcherstable, if_true]
      match i, hi with
      | n + 5, _ => rfl

theorem findloader_in_order_witness :
    freshState.lua.searchers = .table 0 ∧
    ∃ sb s1,
      Tried rootLibWorld "a.b".toList 0 1 freshState
        [.lua_call (.function .searcher_preload) [.string "a.b".toList] 2,
         .lua_call (.function .searcher_Lua) [.string "a.b".toList] 2,
         .lua_call (.function .searcher_C) [.string "a.b".toList] 2] sb ∧
      lua_call rootLibWorld (.function .searcher_Croot) [.string "a.b".toList] 2 sb
        = .ok [.function (.cfunction 3), .string "./a.so".toList] s1 ∧
      findloader rootLibWorld 4 "a.b".toList freshState
        = .ok (.function (.cfunction 3), .string "./a.so".toList) s1 ∧
      searcherCalls s1.trace =
        [.lua_call (.function .searcher_preload) [.string "a.b".toList] 2,
         .lua_call (.function .searcher_Lua) [.string "a.b".toList] 2,
         .lua_call (.function .searcher_C) [.string "a.b".toList] 2,
         .lua_call (.function .searcher_Croot) [.string "a.b".toList] 2] :=
  have h3 : Tried rootLibWorld "a.b".toList 0 4 { freshState with trace := rootSearch } []
      { freshState with trace := rootSearch } := .done 4 _
  have h2 : Tried rootLibWorld "a.b".toList 0 3 { freshState with trace := rootSearch.take 4 }
      [.lua_call (.function .searcher_C) [.string "a.b".toList] 2]
      { freshState with trace := rootSearch } :=
    .step 3 { freshState with trace := rootSearch.take 4 } { freshState with trace := rootSearch }
      _ [.string "\n\tno file './a/b.so'".toList, .nil] [] (by decide) rfl rfl h3
  have h1 : Tried rootLibWorld "a.b".toList 0 2 { freshState with trace := rootSearch.take 1 }
      [.lua_call (.function .searcher_Lua) [.string "a.b".toList] 2,
       .lua_call (.function .searcher_C) [.string "a.b".toList] 2]
      { freshState with trace := rootSearch } :=
    .step 2 { freshState with trace := rootSearch.take 1 }
      { freshState with trace := rootSearch.take 4 } _
      [.string "\n\tno file './a/b.src'\n\tno file './a/b/init.src'".toList, .nil] _
      (by decide) rfl rfl h2
  have h0 : Tried rootLibWorld "a.b".toList 0 1 freshState
      [.lua_call (.function .searcher_preload) [.string "a.b".toList] 2,
       .lua_call (.function .searcher_Lua) [.string "a.b".toList] 2,
       .lua_call (.function .searcher_C) [.string "a.b".toList] 2]
      { freshState with trace := rootSearch } :=
    .step 1 freshState { freshState with trace := rootSearch.take 1 } _
      [.string "\n\tno field package.preload['a.b']".toList, .nil] _ (by decide) rfl rfl h1
  ⟨rfl, { freshState with trace := rootSearch }, _, h0, rfl,
   ((findloader_in_order rootLibWorld "a.b".toList freshState 0 rfl).1 _
      { freshState with trace := rootSearch } (.function (.cfunction 3))
      (.string "./a.so".toList) _ h0 (by decide) rfl rfl 4 (by decide)).1,
   rfl⟩

/-! ## Symbols that begin with '*' -/

/-- C16, as stated, fails: "*init" is not the wildcard "*", yet
`package.loadlib` for it, on a library that loads, returns the single value
`true`, which is neither the function of the symbol nor the three values of
a failure; no symbol is looked up. -/
theorem loadlib_star_prefix_returns_true :
    "*init".toList ≠ "*".toList ∧
    ll_loadlib twoLibWorld "./a.so".toList "*init".toList freshState
      = ([.boolean true],
         addtoclib (freshState.log (.lsys_load "./a.so".toList true (some 7)))
           "./a.so".toList 7) ∧
    (∀ f, Value.boolean true ≠ .function f) ∧
    symLookups (ll_loadlib twoLibWorld "./a.so".toList "*init".toList freshState).2.trace
      = [] :=
  ⟨by decide, rfl, fun _ h => Value.noConfusion h, rfl⟩

/-- C22, as stated, fails: "*init" is not the wildcard "*", yet on a miss in
CLIBS `lookforfunc` opens the library for it with the flag for global symbols
set, and returns `true` without a lookup of the symbol. -/
theorem lookforfunc_star_prefix_opens_global :
    "*init".toList ≠ "*".toList ∧
    checkclib freshState "./a.so".toList = none ∧
    lookforfunc twoLibWorld "./a.so".toList "*init".toList freshState
      = (0, .boolean true,
         addtoclib (freshState.log (.lsys_load "./a.so".toList true (some 7)))
           "./a.so".toList 7) ∧
    (lookforfunc twoLibWorld "./a.so".toList "*init".toList freshState).2.2.trace
      = [.lsys_load "./a.so".toList true (some 7)] :=
  ⟨by decide, rfl, rfl, rfl⟩

end LoadLib
